import Mathlib

/-!
# Expense management backend: entities, in-memory repositories and use cases

A shallow embedding of the Go sources

* `backend/internal/domain/entity/expense.go`
* `internal/domain/entity/user.go`, `internal/domain/entity/category.go`
* `internal/domain/valueobject/*.go`
* `internal/infrastructure/persistence/memory_*_repository.go`
* `internal/application/usecase/user_usecase.go`, `category_usecase.go`,
  `expense_usecase.go`
* `internal/infrastructure/web/handler/error_handler.go`
* `backend/cmd/api/main.go` (the wiring of the repositories)
* `pkg/errors/errors.go`

Conventions of the embedding.

* A Go `string` is a Lean `String`; `len` is the UTF-8 byte length.
* A Go `error` result is `Option Error` (`none` is `nil`); a `(*T, error)` result is
  `Except Error T`.
* A method that mutates its receiver returns the receiver after the call together with
  the error, so that "nothing changed on failure" is a statement about the code and not
  a consequence of the result type.
* Every reading of `time.Now()` and every freshly generated UUID is an explicit input,
  in the order in which the source takes them.
* A `map[string]*T` is a list of key/value entries; one list order stands for one
  iteration order of the Go map.
* A `float64` is an IEEE 754 binary64 value: a finite value is kept as its (integer)
  number of units of `2^-1074`, and every operation rounds the exact result to the
  nearest value, ties to even.
-/

set_option linter.dupNamespace false
set_option exponentiation.threshold 100000
set_option maxRecDepth 100000

namespace ExpenseSystem

/-! ## Go strings -/

/-- White space in the sense of Go `unicode.IsSpace`. -/
def isSpace (c : Char) : Bool :=
  let n := c.toNat
  n == 0x20 || (0x09 ≤ n && n ≤ 0x0D) || n == 0x85 || n == 0xA0 || n == 0x1680 ||
    (0x2000 ≤ n && n ≤ 0x200A) || n == 0x2028 || n == 0x2029 || n == 0x202F ||
    n == 0x205F || n == 0x3000

/-- Go `strings.TrimSpace`: drop leading and trailing white space. -/
def TrimSpace (s : String) : String :=
  ⟨((s.data.dropWhile isSpace).reverse.dropWhile isSpace).reverse⟩

/-- Go `len(s)`: the number of bytes of the UTF-8 encoding. -/
def len (s : String) : Nat := s.utf8ByteSize

/-- Is `sub` a contiguous part of `l`. -/
def containsList (sub : List Char) : List Char → Bool
  | [] => sub.isEmpty
  | c :: cs => sub.isPrefixOf (c :: cs) || containsList sub cs

/-- Go `strings.Contains`. -/
def Contains (s sub : String) : Bool := containsList sub.data s.data

/-- UTF-8 encoding of one character, as byte values. -/
def utf8Char (c : Char) : List Nat :=
  let n := c.toNat
  if n < 0x80 then [n]
  else if n < 0x800 then [0xC0 + n / 0x40, 0x80 + n % 0x40]
  else if n < 0x10000 then [0xE0 + n / 0x1000, 0x80 + (n / 0x40) % 0x40, 0x80 + n % 0x40]
  else [0xF0 + n / 0x40000, 0x80 + (n / 0x1000) % 0x40, 0x80 + (n / 0x40) % 0x40,
        0x80 + n % 0x40]

/-- The bytes of a list of characters. -/
def utf8Bytes : List Char → List Nat
  | [] => []
  | c :: cs => utf8Char c ++ utf8Bytes cs

/-- The bytes of a Go string. -/
def bytes (s : String) : List Nat := utf8Bytes s.data

/-! ## `github.com/google/uuid`: `Parse` -/

/-- Byte is one of `0-9`, `a-f`, `A-F` (the table behind `xtob`). -/
def isHexByte (b : Nat) : Bool :=
  (48 ≤ b && b ≤ 57) || (97 ≤ b && b ≤ 102) || (65 ≤ b && b ≤ 70)

/-- The check on the 36-byte form `xxxxxxxx-xxxx-xxxx-xxxx-xxxxxxxxxxxx`, reading the
first 36 bytes starting at index `i`: a hyphen at 8, 13, 18, 23 and hex digits elsewhere. -/
def hyphenatedOk : Nat → List Nat → Bool
  | 36, _ => true
  | _, [] => false
  | i, b :: bs =>
    (if i == 8 || i == 13 || i == 18 || i == 23 then b == 45 else isHexByte b) &&
      hyphenatedOk (i + 1) bs

/-- ASCII lower case of a byte. -/
def lowerByte (b : Nat) : Nat := if 65 ≤ b && b ≤ 90 then b + 32 else b

/-- Does `uuid.Parse` accept the text. The four accepted lengths are 36 (standard),
45 (`urn:uuid:` prefix, compared case-insensitively), 38 (only the middle 36 bytes are
examined) and 32 (raw hex). -/
def uuidParseOk (s : String) : Bool :=
  let b := bytes s
  if b.length == 36 then hyphenatedOk 0 b
  else if b.length == 45 then
    ((b.take 9).map lowerByte == bytes "urn:uuid:") && hyphenatedOk 0 (b.drop 9)
  else if b.length == 38 then hyphenatedOk 0 (b.drop 1)
  else if b.length == 32 then b.all isHexByte
  else false

/-- Byte is one of `0-9`, `a-f`: a hexadecimal digit in lower case. -/
def isLowerHexByte (b : Nat) : Bool := (48 ≤ b && b ≤ 57) || (97 ≤ b && b ≤ 102)

/-- The canonical textual form of a UUID in the words of the specification: 36 bytes,
hexadecimal digits in lower case in the groups 8-4-4-4-12, with a hyphen between the
groups. -/
def isCanonicalUUID (s : String) : Bool :=
  let b := bytes s
  b.length == 36 &&
    (List.range 36).all (fun i =>
      if i == 8 || i == 13 || i == 18 || i == 23 then b.getD i 0 == 45
      else isLowerHexByte (b.getD i 0))

/-! ## `pkg/errors` -/

/-- The two error types of `pkg/errors`: `DomainError` and `ApplicationError`. -/
inductive Error where
  | domain (code message : String)
  | application (code message : String)
deriving DecidableEq, Repr

/-- The `Code` field. -/
def Error.code : Error → String
  | .domain c _ => c
  | .application c _ => c

/-- The `Error()` method. -/
def Error.Error : Error → String
  | .domain c m => "domain error [" ++ c ++ "]: " ++ m
  | .application c m => "application error [" ++ c ++ "]: " ++ m

def NewDomainError (code message : String) : Error := .domain code message
def NewApplicationError (code message : String) : Error := .application code message

def InvalidExpenseAmount : String := "INVALID_EXPENSE_AMOUNT"
def InvalidUserID : String := "INVALID_USER_ID"
def InvalidCategoryID : String := "INVALID_CATEGORY_ID"
def ExpenseNotFound : String := "EXPENSE_NOT_FOUND"
def UserNotFound : String := "USER_NOT_FOUND"
def CategoryNotFound : String := "CATEGORY_NOT_FOUND"
def ValidationFailed : String := "VALIDATION_FAILED"
def ExpenseCreationFailed : String := "EXPENSE_CREATION_FAILED"
def ExpenseUpdateFailed : String := "EXPENSE_UPDATE_FAILED"
def ExpenseDeletionFailed : String := "EXPENSE_DELETION_FAILED"

/-! ## `time.Time` -/

/-- An instant of the wall clock together with its zone. `ns` counts nanoseconds since
`0001-01-01T00:00:00Z` (the zero `time.Time`); the `Location` is a fixed offset in
seconds east of UTC. -/
structure Time where
  ns : Int
  offset : Int
deriving DecidableEq, Repr

namespace Time

def IsZero (t : Time) : Bool := t.ns == 0
def After (t u : Time) : Bool := decide (u.ns < t.ns)
def Before (t u : Time) : Bool := decide (t.ns < u.ns)
def Equal (t u : Time) : Bool := t.ns == u.ns

def isLeap (y : Int) : Bool := y % 4 == 0 && (y % 100 != 0 || y % 400 == 0)

/-- Days from `0001-01-01` to January 1st of year `y`. -/
def daysBeforeYear (y : Int) : Int :=
  365 * (y - 1) + (y - 1) / 4 - (y - 1) / 100 + (y - 1) / 400

/-- Days of the year before the first of month `m` (1..12). -/
def daysBeforeMonth (leap : Bool) (m : Int) : Int :=
  let base : Int :=
    match m with
    | 1 => 0 | 2 => 31 | 3 => 59 | 4 => 90 | 5 => 120 | 6 => 151
    | 7 => 181 | 8 => 212 | 9 => 243 | 10 => 273 | 11 => 304 | _ => 334
  if leap && 2 < m then base + 1 else base

/-- Day number (days since `0001-01-01`) of a civil date; month and day overflow are
normalised as `time.Date` does. -/
def daysFromCivil (y m d : Int) : Int :=
  let y1 := y + (m - 1) / 12
  let m1 := (m - 1) % 12 + 1
  daysBeforeYear y1 + daysBeforeMonth (isLeap y1) m1 + (d - 1)

/-- Month (1..12) and day of month of the zero-based day `yday` of a year. -/
def monthDay (leap : Bool) (yday : Int) : Int × Int :=
  let f := if leap then (1 : Int) else 0
  if yday < 31 then (1, yday + 1)
  else if yday < 59 + f then (2, yday - 31 + 1)
  else if yday < 90 + f then (3, yday - (59 + f) + 1)
  else if yday < 120 + f then (4, yday - (90 + f) + 1)
  else if yday < 151 + f then (5, yday - (120 + f) + 1)
  else if yday < 181 + f then (6, yday - (151 + f) + 1)
  else if yday < 212 + f then (7, yday - (181 + f) + 1)
  else if yday < 243 + f then (8, yday - (212 + f) + 1)
  else if yday < 273 + f then (9, yday - (243 + f) + 1)
  else if yday < 304 + f then (10, yday - (273 + f) + 1)
  else if yday < 334 + f then (11, yday - (304 + f) + 1)
  else (12, yday - (334 + f) + 1)

/-- Year, month and day of a day number, by 400/100/4/1-year cycles. -/
def civilFromDays (n : Int) : Int × Int × Int :=
  let n400 := n / 146097
  let r0 := n % 146097
  let n100 := min (r0 / 36524) 3
  let r1 := r0 - 36524 * n100
  let n4 := r1 / 1461
  let r2 := r1 - 1461 * n4
  let n1 := min (r2 / 365) 3
  let yday := r2 - 365 * n1
  let y := 400 * n400 + 100 * n100 + 4 * n4 + n1 + 1
  let md := monthDay (isLeap y) yday
  (y, md.1, md.2)

/-- Seconds since the epoch on the local clock of the zone. -/
def localSec (t : Time) : Int := t.ns / 1000000000 + t.offset

/-- The nanosecond within the second. -/
def nsec (t : Time) : Int := t.ns % 1000000000

/-- `t.Date()`: year, month, day in the zone of `t`. -/
def civil (t : Time) : Int × Int × Int := civilFromDays (t.localSec / 86400)

def Year (t : Time) : Int := t.civil.1
def Month (t : Time) : Int := t.civil.2.1
def Day (t : Time) : Int := t.civil.2.2

/-- `time.Date(y, m, d, h, mi, s, ns, loc)` with `loc` the fixed offset. -/
def Date (y m d h mi s nano offset : Int) : Time :=
  ⟨((daysFromCivil y m d) * 86400 + h * 3600 + mi * 60 + s - offset) * 1000000000 + nano,
    offset⟩

/-- `t.AddDate(years, months, days)`: same clock reading on the shifted civil date. -/
def AddDate (t : Time) (years months days : Int) : Time :=
  let c := t.civil
  let sod := t.localSec % 86400
  Date (c.1 + years) (c.2.1 + months) (c.2.2 + days)
    (sod / 3600) (sod % 3600 / 60) (sod % 60) t.nsec t.offset

end Time

/-! ## `float64` -/

/-- The first `j`, counting up from the given one, with `n < 2^(2^j)`; `fuel` bounds the
number of steps. -/
def ilog2Up (n : Nat) : Nat → Nat → Nat
  | 0, j => j
  | fuel + 1, j => if n < 2 ^ (2 ^ j) then j else ilog2Up n fuel (j + 1)

/-- Binary search for the leading bit: with `2^k ≤ n < 2^(k + 2^j)`, the position of the
leading bit of `n`. -/
def ilog2Down (n : Nat) : Nat → Nat → Nat
  | 0, k => k
  | j + 1, k => if 2 ^ (k + 2 ^ j) ≤ n then ilog2Down n j (k + 2 ^ j) else ilog2Down n j k

/-- The position of the leading bit of `n` (0 for `n = 0`): the integer part of the
base-2 logarithm. -/
def ilog2 (n : Nat) : Nat := ilog2Down n (ilog2Up n n 0) 0

/-- The integer nearest to `n / d`, a tie going to the even one. -/
def rneDiv (n d : Nat) : Nat :=
  let f := n / d
  let r := n % d
  if 2 * r < d then f
  else if d < 2 * r then f + 1
  else if f % 2 == 0 then f else f + 1

/-- The quotient `n / d` rounded to 53 significant bits (to the nearest, ties to even):
with `s` the number of bits of the quotient beyond 53, the quotient is rounded to a
multiple of `2^s`. -/
def roundQ (n d : Nat) : Nat :=
  let s := ilog2 (n / d) - 52
  rneDiv n (d * 2 ^ s) * 2 ^ s

/-- A `float64`. A finite value is `z` units of `2^-1074` (the least positive value), so
that every finite value is an integer; `+0` and `-0` are the one value `fin 0` (the code
compares amounts and multiplies and divides them, it never looks at the sign of a zero). -/
inductive F64 where
  | fin (z : Int)
  | inf (neg : Bool)
  | nan
deriving DecidableEq, Repr

namespace F64

/-- The number 1 in units. -/
def unit : Nat := 2 ^ 1074

/-- The magnitude `2^1024` in units: a rounded result that reaches it overflows. -/
def top : Nat := 2 ^ 2098

/-- The value of sign `neg` and magnitude `n / d` units, rounded; infinite on overflow. -/
def pack (neg : Bool) (n d : Nat) : F64 :=
  let r := roundQ n d
  if top ≤ r then .inf neg else .fin (if neg then - (r : Int) else r)

/-- The conversion of a natural number. -/
def ofNat (n : Nat) : F64 := pack false (n * unit) 1

/-- `math.MaxFloat64`. -/
def MaxFloat64 : F64 := .fin ((2 ^ 53 - 1 : Nat) * (2 ^ 2045 : Nat))

/-- `x * y`. -/
def mul : F64 → F64 → F64
  | .fin a, .fin b => pack (decide (a < 0) != decide (b < 0)) (a.natAbs * b.natAbs) unit
  | .fin a, .inf s => if a == 0 then .nan else .inf (decide (a < 0) != s)
  | .inf s, .fin b => if b == 0 then .nan else .inf (s != decide (b < 0))
  | .inf s, .inf t => .inf (s != t)
  | _, _ => .nan

/-- `x / y`. -/
def div : F64 → F64 → F64
  | .fin a, .fin b =>
    if b == 0 then (if a == 0 then .nan else .inf (decide (a < 0)))
    else pack (decide (a < 0) != decide (b < 0)) (a.natAbs * unit) b.natAbs
  | .fin _, .inf _ => .fin 0
  | .inf s, .fin b => .inf (s != decide (b < 0))
  | _, _ => .nan

/-- `x + y`. -/
def add : F64 → F64 → F64
  | .fin a, .fin b => pack (decide (a + b < 0)) (a + b).natAbs 1
  | .fin _, .inf s => .inf s
  | .inf s, .fin _ => .inf s
  | .inf s, .inf t => if s == t then .inf s else .nan
  | _, _ => .nan

/-- `-x`. -/
def neg : F64 → F64
  | .fin a => .fin (-a)
  | .inf s => .inf (!s)
  | .nan => .nan

/-- `x - y`. -/
def sub (x y : F64) : F64 := x.add y.neg

/-- `x < y`. -/
def lt : F64 → F64 → Bool
  | .fin a, .fin b => decide (a < b)
  | .fin _, .inf s => !s
  | .inf s, .fin _ => s
  | .inf s, .inf t => s && !t
  | _, _ => false

/-- `x == y`. -/
def eq : F64 → F64 → Bool
  | .fin a, .fin b => a == b
  | .inf s, .inf t => s == t
  | _, _ => false

/-- `x >= y`. -/
def ge (x y : F64) : Bool := y.lt x || x.eq y

/-- `math.Round`: the nearest whole number, a half going away from zero. -/
def Round : F64 → F64
  | .fin a =>
    let n := (2 * a.natAbs + unit) / (2 * unit) * unit
    .fin (if a < 0 then - (n : Int) else n)
  | x => x

end F64

/-! ## Value objects -/

/-- The `UserID` value object. -/
structure UserID where
  value : String
deriving DecidableEq, Repr

/-- The `CategoryID` value object. -/
structure CategoryID where
  value : String
deriving DecidableEq, Repr

/-- The `ExpenseID` value object. -/
structure ExpenseID where
  value : String
deriving DecidableEq, Repr

def NewUserID (value : String) : Except Error UserID :=
  if TrimSpace value == "" then
    .error (NewDomainError InvalidUserID "ユーザーIDは空文字列にできません")
  else if !uuidParseOk value then
    .error (NewDomainError InvalidUserID "ユーザーIDは有効なUUID形式である必要があります")
  else .ok ⟨value⟩

def NewCategoryID (value : String) : Except Error CategoryID :=
  if TrimSpace value == "" then
    .error (NewDomainError InvalidCategoryID "カテゴリIDは空文字列にできません")
  else if !uuidParseOk value then
    .error (NewDomainError InvalidCategoryID "カテゴリIDは有効なUUID形式である必要があります")
  else .ok ⟨value⟩

/-- `NewExpenseID`; the source reports both failures under `errors.InvalidUserID`. -/
def NewExpenseID (value : String) : Except Error ExpenseID :=
  if TrimSpace value == "" then
    .error (NewDomainError InvalidUserID "経費IDは空文字列にできません")
  else if !uuidParseOk value then
    .error (NewDomainError InvalidUserID "経費IDは有効なUUID形式である必要があります")
  else .ok ⟨value⟩

/-- `GenerateUserID`: `fresh` is the text of the UUID drawn by `uuid.New()`. -/
def GenerateUserID (fresh : String) : UserID := ⟨fresh⟩

/-- `GenerateCategoryID`: `fresh` is the text of the UUID drawn by `uuid.New()`. -/
def GenerateCategoryID (fresh : String) : CategoryID := ⟨fresh⟩

/-- `GenerateExpenseID`: `fresh` is the text of the UUID drawn by `uuid.New()`. -/
def GenerateExpenseID (fresh : String) : ExpenseID := ⟨fresh⟩

def UserID.Value (u : UserID) : String := u.value
def CategoryID.Value (c : CategoryID) : String := c.value
def ExpenseID.Value (e : ExpenseID) : String := e.value

def UserID.String (u : UserID) : String := u.value
def CategoryID.String (c : CategoryID) : String := c.value
def ExpenseID.String (e : ExpenseID) : String := e.value

/-- `Equals`; the argument is a pointer and may be `nil`. -/
def UserID.Equals (u : UserID) (other : Option UserID) : Bool :=
  match other with
  | none => false
  | some o => u.value == o.value

/-- `Equals`; the argument is a pointer and may be `nil`. -/
def CategoryID.Equals (c : CategoryID) (other : Option CategoryID) : Bool :=
  match other with
  | none => false
  | some o => c.value == o.value

/-- `Equals`; the argument is a pointer and may be `nil`. -/
def ExpenseID.Equals (e : ExpenseID) (other : Option ExpenseID) : Bool :=
  match other with
  | none => false
  | some o => e.value == o.value

/-! ## Money (`valueobject/money.go`) -/

/-- The `Money` value object. -/
structure Money where
  amount : F64
  currency : String
deriving DecidableEq, Repr

/-- The constant `math.MaxFloat64/100` as a `float64`: the exact quotient, rounded. -/
def maxAmount : F64 := F64.MaxFloat64.div (F64.ofNat 100)

def NewMoney (amount : F64) (currency : String) : Except Error Money :=
  if amount.lt (F64.ofNat 0) then
    .error (NewDomainError InvalidExpenseAmount "金額は負の値にできません")
  else if maxAmount.lt amount then
    .error (NewDomainError InvalidExpenseAmount "金額が大きすぎます")
  else
    let currency := if currency == "" then "JPY" else currency
    let roundedAmount := ((amount.mul (F64.ofNat 100)).Round).div (F64.ofNat 100)
    .ok ⟨roundedAmount, currency⟩

namespace Money

def Amount (m : Money) : F64 := m.amount
def Currency (m : Money) : String := m.currency

def Add (m other : Money) : Except Error Money :=
  if m.currency != other.currency then
    .error (NewDomainError InvalidExpenseAmount "異なる通貨の金額は加算できません")
  else NewMoney (m.amount.add other.amount) m.currency

def Subtract (m other : Money) : Except Error Money :=
  if m.currency != other.currency then
    .error (NewDomainError InvalidExpenseAmount "異なる通貨の金額は減算できません")
  else NewMoney (m.amount.sub other.amount) m.currency

def Multiply (m : Money) (multiplier : F64) : Except Error Money :=
  NewMoney (m.amount.mul multiplier) m.currency

/-- `Equals`; the argument is a pointer and may be `nil`. -/
def Equals (m : Money) (other : Option Money) : Bool :=
  match other with
  | none => false
  | some o => m.amount.eq o.amount && m.currency == o.currency

def IsGreaterThan (m other : Money) : Bool :=
  if m.currency != other.currency then false
  else other.amount.lt m.amount

def IsLessThan (m other : Money) : Bool :=
  if m.currency != other.currency then false
  else m.amount.lt other.amount

end Money

/-- The magnitude of `maxAmount` in units. -/
def maxAmountUnits : Nat := roundQ ((2 ^ 53 - 1) * 2 ^ 2045 * F64.unit) (100 * F64.unit)

/-- A magnitude (in units) that a `float64` can hold exactly: at most 53 significant
bits. -/
def Representable (n : Nat) : Prop := ∃ m s, m < 2 ^ 53 ∧ n = m * 2 ^ s

/-- The finite values of the type `F64` that are `float64` values. -/
def F64.IsFloat : F64 → Prop
  | .fin z => Representable z.natAbs
  | _ => True

/-- What `NewMoney` settles for the Money it returns: the currency is not empty and the
amount is not below zero. -/
def Money.Built (m : Money) : Prop :=
  m.currency ≠ "" ∧ m.amount.lt (F64.ofNat 0) = false

/-- The amount is a `float64` value that passes the two range checks of `NewMoney`. -/
def Money.InRange (m : Money) : Prop :=
  m.amount.IsFloat ∧ m.amount.lt (F64.ofNat 0) = false ∧ maxAmount.lt m.amount = false

/-- The Money values that the value object constructs: what `NewMoney` returns, and what
`Add`, `Subtract` and `Multiply` return on values so constructed. -/
inductive Money.Constructed : Money → Prop where
  | new (amount : F64) (currency : String) (m : Money) :
      NewMoney amount currency = .ok m → Money.Constructed m
  | add (a b r : Money) :
      Money.Constructed a → Money.Constructed b → a.Add b = .ok r → Money.Constructed r
  | subtract (a b r : Money) :
      Money.Constructed a → Money.Constructed b → a.Subtract b = .ok r → Money.Constructed r
  | multiply (a : Money) (multiplier : F64) (r : Money) :
      Money.Constructed a → a.Multiply multiplier = .ok r → Money.Constructed r

/-! ## The expense entity (`entity/expense.go`) -/

/-- `type ExpenseStatus string`. -/
abbrev ExpenseStatus := String

def ExpenseStatusDraft : ExpenseStatus := "draft"
def ExpenseStatusSubmitted : ExpenseStatus := "submitted"
def ExpenseStatusApproved : ExpenseStatus := "approved"
def ExpenseStatusRejected : ExpenseStatus := "rejected"

/-- The `Expense` struct. The four pointer fields are set by every constructor from an
argument it has checked against `nil`, and are held here as the values pointed to; the
`nil` checks are kept on the constructor and update arguments. -/
structure Expense where
  id : ExpenseID
  userID : UserID
  categoryID : CategoryID
  amount : Money
  title : String
  description : String
  date : Time
  status : ExpenseStatus
  createdAt : Time
  updatedAt : Time
deriving DecidableEq, Repr

def validateExpenseTitle (title : String) : Option Error :=
  let title := TrimSpace title
  if title == "" then
    some (NewDomainError "INVALID_EXPENSE_TITLE" "経費タイトルは必須です")
  else if len title > 100 then
    some (NewDomainError "INVALID_EXPENSE_TITLE" "経費タイトルは100文字以内である必要があります")
  else none

def validateExpenseDescription (description : String) : Option Error :=
  if len description > 500 then
    some (NewDomainError "INVALID_EXPENSE_DESCRIPTION" "経費説明は500文字以内である必要があります")
  else none

/-- `validateExpenseDate`. The function reads the clock twice: `now` for the end of
today and `now2` for the one-year limit. -/
def validateExpenseDate (now now2 : Time) (date : Time) : Option Error :=
  if date.IsZero then
    some (NewDomainError "INVALID_EXPENSE_DATE" "経費日付が必要です")
  else if date.After (Time.Date now.Year now.Month now.Day 23 59 59 0 now.offset) then
    some (NewDomainError "INVALID_EXPENSE_DATE" "経費日付は未来の日付にできません")
  else if date.Before (now2.AddDate (-1) 0 0) then
    some (NewDomainError "INVALID_EXPENSE_DATE" "経費日付は1年以内である必要があります")
  else none

def isValidStatus (status : ExpenseStatus) : Bool :=
  status == ExpenseStatusDraft || status == ExpenseStatusSubmitted ||
    status == ExpenseStatusApproved || status == ExpenseStatusRejected

/-- `NewExpense`. Clock readings in source order: `t1`, `t2` inside `validateExpenseDate`,
then `now` for the timestamps; `fresh` is the generated id. -/
def NewExpense (userID : Option UserID) (categoryID : Option CategoryID)
    (amount : Option Money) (title description : String) (date : Time)
    (t1 t2 now : Time) (fresh : String) : Except Error Expense :=
  match userID with
  | none => .error (NewDomainError InvalidUserID "ユーザーIDが必要です")
  | some userID =>
  match categoryID with
  | none => .error (NewDomainError InvalidCategoryID "カテゴリIDが必要です")
  | some categoryID =>
  match amount with
  | none => .error (NewDomainError InvalidExpenseAmount "金額が必要です")
  | some amount =>
  match validateExpenseTitle title with
  | some err => .error err
  | none =>
  match validateExpenseDescription description with
  | some err => .error err
  | none =>
  match validateExpenseDate t1 t2 date with
  | some err => .error err
  | none =>
    .ok { id := GenerateExpenseID fresh
          userID := userID
          categoryID := categoryID
          amount := amount
          title := TrimSpace title
          description := TrimSpace description
          date := date
          status := ExpenseStatusDraft
          createdAt := now
          updatedAt := now }

/-- `ReconstructExpense`. -/
def ReconstructExpense (id : Option ExpenseID) (userID : Option UserID)
    (categoryID : Option CategoryID) (amount : Option Money) (title description : String)
    (date : Time) (status : ExpenseStatus) (createdAt updatedAt : Time)
    (t1 t2 : Time) : Except Error Expense :=
  match id with
  | none => .error (NewDomainError "INVALID_EXPENSE_ID" "経費IDが必要です")
  | some id =>
  match userID with
  | none => .error (NewDomainError InvalidUserID "ユーザーIDが必要です")
  | some userID =>
  match categoryID with
  | none => .error (NewDomainError InvalidCategoryID "カテゴリIDが必要です")
  | some categoryID =>
  match amount with
  | none => .error (NewDomainError InvalidExpenseAmount "金額が必要です")
  | some amount =>
  match validateExpenseTitle title with
  | some err => .error err
  | none =>
  match validateExpenseDescription description with
  | some err => .error err
  | none =>
  match validateExpenseDate t1 t2 date with
  | some err => .error err
  | none =>
    if !isValidStatus status then
      .error (NewDomainError "INVALID_EXPENSE_STATUS" "無効な経費ステータスです")
    else
      .ok { id := id
            userID := userID
            categoryID := categoryID
            amount := amount
            title := title
            description := description
            date := date
            status := status
            createdAt := createdAt
            updatedAt := updatedAt }

namespace Expense

/-- `UpdateDetails`: the receiver after the call, and the error. Clock readings in source
order: `t1`, `t2` inside `validateExpenseDate`, then `now` for `updatedAt`. -/
def UpdateDetails (e : Expense) (categoryID : Option CategoryID) (amount : Option Money)
    (title description : String) (date : Time) (t1 t2 now : Time) :
    Expense × Option Error :=
  if e.status != ExpenseStatusDraft then
    (e, some (NewDomainError "EXPENSE_UPDATE_NOT_ALLOWED" "下書き状態の経費のみ更新できます"))
  else
  match categoryID with
  | none => (e, some (NewDomainError InvalidCategoryID "カテゴリIDが必要です"))
  | some categoryID =>
  match amount with
  | none => (e, some (NewDomainError InvalidExpenseAmount "金額が必要です"))
  | some amount =>
  match validateExpenseTitle title with
  | some err => (e, some err)
  | none =>
  match validateExpenseDescription description with
  | some err => (e, some err)
  | none =>
  match validateExpenseDate t1 t2 date with
  | some err => (e, some err)
  | none =>
    ({ e with categoryID := categoryID
              amount := amount
              title := TrimSpace title
              description := TrimSpace description
              date := date
              updatedAt := now }, none)

/-- `Submit`: the receiver after the call, and the error. -/
def Submit (e : Expense) (now : Time) : Expense × Option Error :=
  if e.status != ExpenseStatusDraft then
    (e, some (NewDomainError "EXPENSE_SUBMIT_NOT_ALLOWED" "下書き状態の経費のみ申請できます"))
  else
    ({ e with status := ExpenseStatusSubmitted, updatedAt := now }, none)

/-- `Approve`: the receiver after the call, and the error. -/
def Approve (e : Expense) (now : Time) : Expense × Option Error :=
  if e.status != ExpenseStatusSubmitted then
    (e, some (NewDomainError "EXPENSE_APPROVE_NOT_ALLOWED" "申請済み状態の経費のみ承認できます"))
  else
    ({ e with status := ExpenseStatusApproved, updatedAt := now }, none)

/-- `Reject`: the receiver after the call, and the error. -/
def Reject (e : Expense) (now : Time) : Expense × Option Error :=
  if e.status != ExpenseStatusSubmitted then
    (e, some (NewDomainError "EXPENSE_REJECT_NOT_ALLOWED" "申請済み状態の経費のみ却下できます"))
  else
    ({ e with status := ExpenseStatusRejected, updatedAt := now }, none)

def CanEdit (e : Expense) : Bool := e.status == ExpenseStatusDraft
def CanSubmit (e : Expense) : Bool := e.status == ExpenseStatusDraft

end Expense

/-- One call on an expense, with its arguments and the clock readings it consumes. -/
inductive ExpenseOp where
  | submit (now : Time)
  | approve (now : Time)
  | reject (now : Time)
  | updateDetails (categoryID : Option CategoryID) (amount : Option Money)
      (title description : String) (date : Time) (t1 t2 now : Time)

/-- Perform one call. -/
def ExpenseOp.apply (e : Expense) : ExpenseOp → Expense × Option Error
  | .submit now => e.Submit now
  | .approve now => e.Approve now
  | .reject now => e.Reject now
  | .updateDetails c a t d dt t1 t2 now => e.UpdateDetails c a t d dt t1 t2 now

/-- Perform a sequence of calls one after the other on the same expense, whether each
call succeeds or fails. -/
def runOps (e : Expense) : List ExpenseOp → Expense
  | [] => e
  | op :: ops => runOps (op.apply e).1 ops

/-! ## The user entity (`entity/user.go`) -/

/-- The `User` struct; the `id` pointer is held as the value pointed to. -/
structure User where
  id : UserID
  name : String
  email : String
  createdAt : Time
  updatedAt : Time
deriving DecidableEq, Repr

def validateUserName (name : String) : Option Error :=
  let name := TrimSpace name
  if name == "" then
    some (NewDomainError "INVALID_USER_NAME" "ユーザー名は必須です")
  else if len name > 100 then
    some (NewDomainError "INVALID_USER_NAME" "ユーザー名は100文字以内である必要があります")
  else none

def validateUserEmail (email : String) : Option Error :=
  let email := TrimSpace email
  if email == "" then
    some (NewDomainError "INVALID_USER_EMAIL" "メールアドレスは必須です")
  else if !Contains email "@" || len email < 5 then
    some (NewDomainError "INVALID_USER_EMAIL" "有効なメールアドレスを入力してください")
  else if len email > 255 then
    some (NewDomainError "INVALID_USER_EMAIL" "メールアドレスは255文字以内である必要があります")
  else none

/-- `NewUser`; `now` is the clock reading, `fresh` the generated id. -/
def NewUser (name email : String) (now : Time) (fresh : String) : Except Error User :=
  match validateUserName name with
  | some err => .error err
  | none =>
  match validateUserEmail email with
  | some err => .error err
  | none =>
    .ok { id := GenerateUserID fresh
          name := TrimSpace name
          email := TrimSpace email
          createdAt := now
          updatedAt := now }

/-- `UpdateProfile`: the receiver after the call, and the error. -/
def User.UpdateProfile (u : User) (name email : String) (now : Time) :
    User × Option Error :=
  match validateUserName name with
  | some err => (u, some err)
  | none =>
  match validateUserEmail email with
  | some err => (u, some err)
  | none =>
    ({ u with name := TrimSpace name, email := TrimSpace email, updatedAt := now }, none)

/-! ## The category entity (`entity/category.go`) -/

/-- The `Category` struct; the `id` pointer is held as the value pointed to. -/
structure Category where
  id : CategoryID
  name : String
  description : String
  color : String
  createdAt : Time
  updatedAt : Time
deriving DecidableEq, Repr

def validateCategoryName (name : String) : Option Error :=
  let name := TrimSpace name
  if name == "" then
    some (NewDomainError "INVALID_CATEGORY_NAME" "カテゴリ名は必須です")
  else if len name > 50 then
    some (NewDomainError "INVALID_CATEGORY_NAME" "カテゴリ名は50文字以内である必要があります")
  else none

def validateCategoryDescription (description : String) : Option Error :=
  if len description > 200 then
    some (NewDomainError "INVALID_CATEGORY_DESCRIPTION"
      "カテゴリ説明は200文字以内である必要があります")
  else none

/-- The test on one rune of the colour code. -/
def isHexRune (c : Char) : Bool :=
  ('0' ≤ c && c ≤ '9') || ('A' ≤ c && c ≤ 'F') || ('a' ≤ c && c ≤ 'f')

def validateCategoryColor (color : String) : Option Error :=
  let color := TrimSpace color
  if color == "" then none
  else if len color == 7 && color.data.head? == some '#' then
    if color.data.tail.all isHexRune then none
    else some (NewDomainError "INVALID_CATEGORY_COLOR"
      "色は有効な16進数カラーコード（#RRGGBB）である必要があります")
  else some (NewDomainError "INVALID_CATEGORY_COLOR"
    "色は有効な16進数カラーコード（#RRGGBB）である必要があります")

/-- The hexadecimal digits in either case. -/
def hexDigits : List Char := "0123456789ABCDEFabcdef".data

/-- `NewCategory`; `now` is the clock reading, `fresh` the generated id. -/
def NewCategory (name description color : String) (now : Time) (fresh : String) :
    Except Error Category :=
  match validateCategoryName name with
  | some err => .error err
  | none =>
  match validateCategoryDescription description with
  | some err => .error err
  | none =>
  match validateCategoryColor color with
  | some err => .error err
  | none =>
    .ok { id := GenerateCategoryID fresh
          name := TrimSpace name
          description := TrimSpace description
          color := TrimSpace color
          createdAt := now
          updatedAt := now }

/-- `Update`: the receiver after the call, and the error. -/
def Category.Update (c : Category) (name description color : String) (now : Time) :
    Category × Option Error :=
  match validateCategoryName name with
  | some err => (c, some err)
  | none =>
  match validateCategoryDescription description with
  | some err => (c, some err)
  | none =>
  match validateCategoryColor color with
  | some err => (c, some err)
  | none =>
    ({ c with name := TrimSpace name
              description := TrimSpace description
              color := TrimSpace color
              updatedAt := now }, none)

/-! ## Go maps with string keys -/

/-- A `map[string]*T`: its entries, in one iteration order. -/
abbrev GoMap (α : Type) := List (String × α)

namespace GoMap

/-- `v, ok := m[k]`. -/
def get {α : Type} : GoMap α → String → Option α
  | [], _ => none
  | (k1, v) :: rest, k => if k1 == k then some v else get rest k

/-- `m[k] = v`. -/
def set {α : Type} : GoMap α → String → α → GoMap α
  | [], k, v => [(k, v)]
  | (k1, v1) :: rest, k, v => if k1 == k then (k, v) :: rest else (k1, v1) :: set rest k v

/-- `delete(m, k)`. -/
def delete {α : Type} (m : GoMap α) (k : String) : GoMap α :=
  m.filter (fun p => p.1 != k)

/-- The values met by `for _, v := range m`. -/
def values {α : Type} (m : GoMap α) : List α := m.map (fun p => p.2)

end GoMap

/-! ## In-memory repositories (`persistence/memory_*_repository.go`) -/

structure MemoryUserRepository where
  users : GoMap User
deriving DecidableEq, Repr

structure MemoryCategoryRepository where
  categories : GoMap Category
deriving DecidableEq, Repr

structure MemoryExpenseRepository where
  expenses : GoMap Expense
deriving DecidableEq, Repr

def NewMemoryUserRepository : MemoryUserRepository := ⟨[]⟩
def NewMemoryCategoryRepository : MemoryCategoryRepository := ⟨[]⟩
def NewMemoryExpenseRepository : MemoryExpenseRepository := ⟨[]⟩

namespace MemoryUserRepository

def Save (r : MemoryUserRepository) (user : User) : MemoryUserRepository × Option Error :=
  (⟨r.users.set user.id.String user⟩, none)

def FindByID (r : MemoryUserRepository) (id : UserID) : Except Error User :=
  match r.users.get id.String with
  | none => .error (NewDomainError UserNotFound "ユーザーが見つかりません")
  | some user => .ok user

def FindByEmail (r : MemoryUserRepository) (email : String) : Except Error User :=
  match r.users.values.find? (fun user => user.email == email) with
  | some user => .ok user
  | none => .error (NewDomainError UserNotFound "ユーザーが見つかりません")

def FindAll (r : MemoryUserRepository) : Except Error (List User) := .ok r.users.values

def Update (r : MemoryUserRepository) (user : User) : MemoryUserRepository × Option Error :=
  match r.users.get user.id.String with
  | none => (r, some (NewDomainError UserNotFound "ユーザーが見つかりません"))
  | some _ => (⟨r.users.set user.id.String user⟩, none)

def Delete (r : MemoryUserRepository) (id : UserID) : MemoryUserRepository × Option Error :=
  match r.users.get id.String with
  | none => (r, some (NewDomainError UserNotFound "ユーザーが見つかりません"))
  | some _ => (⟨r.users.delete id.String⟩, none)

def Exists (r : MemoryUserRepository) (id : UserID) : Except Error Bool :=
  .ok (r.users.get id.String).isSome

end MemoryUserRepository

/-- What the list of entries owes to being a Go map filled by `Save` and `Update`: no key
occurs twice, and every user sits under the text of its own id. -/
def MemoryUserRepository.WellFormed (r : MemoryUserRepository) : Prop :=
  (r.users.map (fun p => p.1)).Nodup ∧ ∀ p ∈ r.users, p.1 = p.2.id.String

namespace MemoryCategoryRepository

def Save (r : MemoryCategoryRepository) (category : Category) :
    MemoryCategoryRepository × Option Error :=
  (⟨r.categories.set category.id.String category⟩, none)

def FindByID (r : MemoryCategoryRepository) (id : CategoryID) : Except Error Category :=
  match r.categories.get id.String with
  | none => .error (NewDomainError CategoryNotFound "カテゴリが見つかりません")
  | some category => .ok category

def FindByName (r : MemoryCategoryRepository) (name : String) : Except Error Category :=
  match r.categories.values.find? (fun category => category.name == name) with
  | some category => .ok category
  | none => .error (NewDomainError CategoryNotFound "カテゴリが見つかりません")

def FindAll (r : MemoryCategoryRepository) : Except Error (List Category) :=
  .ok r.categories.values

def Update (r : MemoryCategoryRepository) (category : Category) :
    MemoryCategoryRepository × Option Error :=
  match r.categories.get category.id.String with
  | none => (r, some (NewDomainError CategoryNotFound "カテゴリが見つかりません"))
  | some _ => (⟨r.categories.set category.id.String category⟩, none)

def Delete (r : MemoryCategoryRepository) (id : CategoryID) :
    MemoryCategoryRepository × Option Error :=
  match r.categories.get id.String with
  | none => (r, some (NewDomainError CategoryNotFound "カテゴリが見つかりません"))
  | some _ => (⟨r.categories.delete id.String⟩, none)

def Exists (r : MemoryCategoryRepository) (id : CategoryID) : Except Error Bool :=
  .ok (r.categories.get id.String).isSome

end MemoryCategoryRepository

namespace MemoryExpenseRepository

def Save (r : MemoryExpenseRepository) (expense : Expense) :
    MemoryExpenseRepository × Option Error :=
  (⟨r.expenses.set expense.id.String expense⟩, none)

def FindByID (r : MemoryExpenseRepository) (id : ExpenseID) : Except Error Expense :=
  match r.expenses.get id.String with
  | none => .error (NewDomainError ExpenseNotFound "経費が見つかりません")
  | some expense => .ok expense

def FindByCategoryID (r : MemoryExpenseRepository) (categoryID : CategoryID) :
    Except Error (List Expense) :=
  .ok (r.expenses.values.filter (fun expense => expense.categoryID.Equals (some categoryID)))

def FindByUserID (r : MemoryExpenseRepository) (userID : UserID) :
    Except Error (List Expense) :=
  .ok (r.expenses.values.filter (fun expense => expense.userID.Equals (some userID)))

def FindByUserIDAndStatus (r : MemoryExpenseRepository) (userID : UserID)
    (status : ExpenseStatus) : Except Error (List Expense) :=
  .ok (r.expenses.values.filter
    (fun expense => expense.userID.Equals (some userID) && expense.status == status))

/-- `FindByDateRange`; `fromTime` and `toTime` are the arguments `from` and `to`. -/
def FindByDateRange (r : MemoryExpenseRepository) (userID : UserID) (fromTime toTime : Time) :
    Except Error (List Expense) :=
  .ok (r.expenses.values.filter (fun expense =>
    expense.userID.Equals (some userID) &&
      ((expense.date.Equal fromTime || expense.date.After fromTime) &&
        (expense.date.Equal toTime || expense.date.Before toTime))))

def FindAll (r : MemoryExpenseRepository) : Except Error (List Expense) :=
  .ok r.expenses.values

def Update (r : MemoryExpenseRepository) (expense : Expense) :
    MemoryExpenseRepository × Option Error :=
  match r.expenses.get expense.id.String with
  | none => (r, some (NewDomainError ExpenseNotFound "経費が見つかりません"))
  | some _ => (⟨r.expenses.set expense.id.String expense⟩, none)

def Delete (r : MemoryExpenseRepository) (id : ExpenseID) :
    MemoryExpenseRepository × Option Error :=
  match r.expenses.get id.String with
  | none => (r, some (NewDomainError ExpenseNotFound "経費が見つかりません"))
  | some _ => (⟨r.expenses.delete id.String⟩, none)

def Exists (r : MemoryExpenseRepository) (id : ExpenseID) : Except Error Bool :=
  .ok (r.expenses.get id.String).isSome

end MemoryExpenseRepository

/-! ## Use cases (`usecase/user_usecase.go`, `usecase/category_usecase.go`) -/

structure CreateUserRequest where
  Name : String
  Email : String
deriving DecidableEq, Repr

structure UpdateUserRequest where
  Name : String
  Email : String
deriving DecidableEq, Repr

structure UserResponse where
  ID : String
  Name : String
  Email : String
  CreatedAt : Time
  UpdatedAt : Time
deriving DecidableEq, Repr

structure CreateCategoryRequest where
  Name : String
  Description : String
  Color : String
deriving DecidableEq, Repr

structure UpdateCategoryRequest where
  Name : String
  Description : String
  Color : String
deriving DecidableEq, Repr

structure CategoryResponse where
  ID : String
  Name : String
  Description : String
  Color : String
  CreatedAt : Time
  UpdatedAt : Time
deriving DecidableEq, Repr

/-- The response built from a user. -/
def userResponse (user : User) : UserResponse :=
  { ID := user.id.String, Name := user.name, Email := user.email,
    CreatedAt := user.createdAt, UpdatedAt := user.updatedAt }

/-- The response built from a category. -/
def categoryResponse (category : Category) : CategoryResponse :=
  { ID := category.id.String, Name := category.name, Description := category.description,
    Color := category.color, CreatedAt := category.createdAt,
    UpdatedAt := category.updatedAt }

/-- The user use case: the state it works on is its user repository. -/
structure UserUseCase where
  userRepo : MemoryUserRepository
deriving DecidableEq, Repr

/-- The category use case: the state it works on is its two repositories. -/
structure CategoryUseCase where
  categoryRepo : MemoryCategoryRepository
  expenseRepo : MemoryExpenseRepository
deriving DecidableEq, Repr

namespace UserUseCase

/-- `CreateUser`: the use case after the call, and the result. -/
def CreateUser (uc : UserUseCase) (req : CreateUserRequest) (now : Time) (fresh : String) :
    UserUseCase × Except Error UserResponse :=
  match uc.userRepo.FindByEmail req.Email with
  | .ok _ =>
    (uc, .error (NewApplicationError "EMAIL_ALREADY_EXISTS"
      "このメールアドレスは既に使用されています"))
  | .error _ =>
  match NewUser req.Name req.Email now fresh with
  | .error err => (uc, .error (NewApplicationError ValidationFailed err.Error))
  | .ok user =>
  match uc.userRepo.Save user with
  | (repo, some _) =>
    (⟨repo⟩, .error (NewApplicationError "USER_CREATION_FAILED" "ユーザーの作成に失敗しました"))
  | (repo, none) => (⟨repo⟩, .ok (userResponse user))

/-- `UpdateUser`: the use case after the call, and the result. `FindByID` hands out the
pointer held by the map, so a successful `UpdateProfile` already changes the stored
user; this is the write to `repo1` before `Update` is called. -/
def UpdateUser (uc : UserUseCase) (userID : String) (req : UpdateUserRequest) (now : Time) :
    UserUseCase × Except Error UserResponse :=
  match NewUserID userID with
  | .error err => (uc, .error (NewApplicationError ValidationFailed err.Error))
  | .ok id =>
  match uc.userRepo.FindByID id with
  | .error _ => (uc, .error (NewApplicationError UserNotFound "ユーザーが見つかりません"))
  | .ok user =>
    let taken : Bool :=
      req.Email != user.email &&
        (match uc.userRepo.FindByEmail req.Email with
         | .ok existingUser => !existingUser.id.Equals (some user.id)
         | .error _ => false)
    if taken then
      (uc, .error (NewApplicationError "EMAIL_ALREADY_EXISTS"
        "このメールアドレスは既に使用されています"))
    else
    match user.UpdateProfile req.Name req.Email now with
    | (_, some err) => (uc, .error (NewApplicationError ValidationFailed err.Error))
    | (user1, none) =>
      let repo1 : MemoryUserRepository := ⟨uc.userRepo.users.set id.String user1⟩
      match repo1.Update user1 with
      | (repo2, some _) =>
        (⟨repo2⟩, .error (NewApplicationError "USER_UPDATE_FAILED"
          "ユーザーの更新に失敗しました"))
      | (repo2, none) => (⟨repo2⟩, .ok (userResponse user1))

/-- `DeleteUser`: the use case after the call, and the error. -/
def DeleteUser (uc : UserUseCase) (userID : String) : UserUseCase × Option Error :=
  match NewUserID userID with
  | .error err => (uc, some (NewApplicationError ValidationFailed err.Error))
  | .ok id =>
  match uc.userRepo.Exists id with
  | .error _ =>
    (uc, some (NewApplicationError "USER_DELETE_FAILED" "ユーザーの削除チェックに失敗しました"))
  | .ok false => (uc, some (NewApplicationError UserNotFound "ユーザーが見つかりません"))
  | .ok true =>
  match uc.userRepo.Delete id with
  | (repo, some _) =>
    (⟨repo⟩, some (NewApplicationError "USER_DELETE_FAILED" "ユーザーの削除に失敗しました"))
  | (repo, none) => (⟨repo⟩, none)

/-- `GetUser`; it changes nothing, so only the result is returned. -/
def GetUser (uc : UserUseCase) (userID : String) : Except Error UserResponse :=
  match NewUserID userID with
  | .error err => .error (NewApplicationError ValidationFailed err.Error)
  | .ok id =>
  match uc.userRepo.FindByID id with
  | .error _ => .error (NewApplicationError UserNotFound "ユーザーが見つかりません")
  | .ok user => .ok (userResponse user)

end UserUseCase

namespace CategoryUseCase

/-- `CreateCategory`: the use case after the call, and the result. -/
def CreateCategory (uc : CategoryUseCase) (req : CreateCategoryRequest) (now : Time)
    (fresh : String) : CategoryUseCase × Except Error CategoryResponse :=
  match uc.categoryRepo.FindByName req.Name with
  | .ok _ =>
    (uc, .error (NewApplicationError "CATEGORY_NAME_ALREADY_EXISTS"
      "このカテゴリ名は既に使用されています"))
  | .error _ =>
  match NewCategory req.Name req.Description req.Color now fresh with
  | .error err => (uc, .error (NewApplicationError ValidationFailed err.Error))
  | .ok category =>
  match uc.categoryRepo.Save category with
  | (repo, some _) =>
    ({ uc with categoryRepo := repo },
      .error (NewApplicationError "CATEGORY_CREATION_FAILED" "カテゴリの作成に失敗しました"))
  | (repo, none) => ({ uc with categoryRepo := repo }, .ok (categoryResponse category))

/-- `UpdateCategory`: the use case after the call, and the result. `FindByID` hands out
the pointer held by the map, so a successful `Update` of the entity already changes the
stored category; this is the write to `repo1` before the repository `Update`. -/
def UpdateCategory (uc : CategoryUseCase) (categoryID : String) (req : UpdateCategoryRequest)
    (now : Time) : CategoryUseCase × Except Error CategoryResponse :=
  match NewCategoryID categoryID with
  | .error err => (uc, .error (NewApplicationError ValidationFailed err.Error))
  | .ok id =>
  match uc.categoryRepo.FindByID id with
  | .error _ => (uc, .error (NewApplicationError CategoryNotFound "カテゴリが見つかりません"))
  | .ok category =>
    let taken : Bool :=
      req.Name != category.name &&
        (match uc.categoryRepo.FindByName req.Name with
         | .ok existingCategory => !existingCategory.id.Equals (some category.id)
         | .error _ => false)
    if taken then
      (uc, .error (NewApplicationError "CATEGORY_NAME_ALREADY_EXISTS"
        "このカテゴリ名は既に使用されています"))
    else
    match category.Update req.Name req.Description req.Color now with
    | (_, some err) => (uc, .error (NewApplicationError ValidationFailed err.Error))
    | (category1, none) =>
      let repo1 : MemoryCategoryRepository :=
        ⟨uc.categoryRepo.categories.set id.String category1⟩
      match repo1.Update category1 with
      | (repo2, some _) =>
        ({ uc with categoryRepo := repo2 },
          .error (NewApplicationError "CATEGORY_UPDATE_FAILED" "カテゴリの更新に失敗しました"))
      | (repo2, none) => ({ uc with categoryRepo := repo2 }, .ok (categoryResponse category1))

/-- `DeleteCategory`: the use case after the call, and the error. -/
def DeleteCategory (uc : CategoryUseCase) (categoryID : String) :
    CategoryUseCase × Option Error :=
  match NewCategoryID categoryID with
  | .error err => (uc, some (NewApplicationError ValidationFailed err.Error))
  | .ok id =>
  match uc.categoryRepo.Exists id with
  | .error _ =>
    (uc, some (NewApplicationError "CATEGORY_DELETE_FAILED"
      "カテゴリの削除チェックに失敗しました"))
  | .ok false => (uc, some (NewApplicationError CategoryNotFound "カテゴリが見つかりません"))
  | .ok true =>
  match uc.expenseRepo.FindByCategoryID id with
  | .error _ =>
    (uc, some (NewApplicationError "CATEGORY_DELETE_FAILED"
      "カテゴリの使用状況チェックに失敗しました"))
  | .ok expenses =>
    if expenses.length > 0 then
      (uc, some (NewApplicationError "CATEGORY_IN_USE"
        "このカテゴリは経費で使用されているため削除できません"))
    else
    match uc.categoryRepo.Delete id with
    | (repo, some _) =>
      ({ uc with categoryRepo := repo },
        some (NewApplicationError "CATEGORY_DELETE_FAILED" "カテゴリの削除に失敗しました"))
    | (repo, none) => ({ uc with categoryRepo := repo }, none)

/-- `GetCategory`; it changes nothing, so only the result is returned. -/
def GetCategory (uc : CategoryUseCase) (categoryID : String) :
    Except Error CategoryResponse :=
  match NewCategoryID categoryID with
  | .error err => .error (NewApplicationError ValidationFailed err.Error)
  | .ok id =>
  match uc.categoryRepo.FindByID id with
  | .error _ => .error (NewApplicationError CategoryNotFound "カテゴリが見つかりません")
  | .ok category => .ok (categoryResponse category)

end CategoryUseCase

/-- One call on the category use case, with its arguments and inputs. -/
inductive CategoryCall where
  | create (req : CreateCategoryRequest) (now : Time) (fresh : String)
  | update (categoryID : String) (req : UpdateCategoryRequest) (now : Time)
  | delete (categoryID : String)

/-- Perform one call and keep the state it leaves. -/
def CategoryCall.apply (uc : CategoryUseCase) : CategoryCall → CategoryUseCase
  | .create req now fresh => (uc.CreateCategory req now fresh).1
  | .update categoryID req now => (uc.UpdateCategory categoryID req now).1
  | .delete categoryID => (uc.DeleteCategory categoryID).1

/-- Perform calls one after the other (a serial run). -/
def runCategoryCalls (uc : CategoryUseCase) : List CategoryCall → CategoryUseCase
  | [] => uc
  | c :: cs => runCategoryCalls (c.apply uc) cs

/-! ## The expense use case (`usecase/expense_usecase.go`) -/

structure CreateExpenseRequest where
  CategoryID : String
  Amount : F64
  Currency : String
  Title : String
  Description : String
  Date : Time
deriving DecidableEq, Repr

structure UpdateExpenseRequest where
  CategoryID : String
  Amount : F64
  Currency : String
  Title : String
  Description : String
  Date : Time
deriving DecidableEq, Repr

/-- The `ExpenseResponse` struct; `Category` is a pointer. -/
structure ExpenseResponse where
  ID : String
  UserID : String
  CategoryID : String
  Category : Option CategoryResponse
  Amount : F64
  Currency : String
  Title : String
  Description : String
  Date : Time
  Status : String
  CreatedAt : Time
  UpdatedAt : Time
deriving DecidableEq, Repr

/-- The expense use case: the state it works on is its three repositories. -/
structure ExpenseUseCase where
  expenseRepo : MemoryExpenseRepository
  userRepo : MemoryUserRepository
  categoryRepo : MemoryCategoryRepository
deriving DecidableEq, Repr

namespace ExpenseUseCase

/-- `buildExpenseResponse`; the user is passed and not used, as in the source. -/
def buildExpenseResponse (expense : Expense) (_user : User) (category : Category) :
    ExpenseResponse :=
  { ID := expense.id.String
    UserID := expense.userID.String
    CategoryID := expense.categoryID.String
    Category := some (categoryResponse category)
    Amount := expense.amount.Amount
    Currency := expense.amount.Currency
    Title := expense.title
    Description := expense.description
    Date := expense.date
    Status := expense.status
    CreatedAt := expense.createdAt
    UpdatedAt := expense.updatedAt }

/-- `buildExpenseListResponse`: the loop over the expenses, left at the first expense
whose category is not found. -/
def buildExpenseListResponse (uc : ExpenseUseCase) (user : User) :
    List Expense → Except Error (List ExpenseResponse)
  | [] => .ok []
  | expense :: rest =>
    match uc.categoryRepo.FindByID expense.categoryID with
    | .error _ => .error (NewApplicationError CategoryNotFound "カテゴリが見つかりません")
    | .ok category =>
      match buildExpenseListResponse uc user rest with
      | .error err => .error err
      | .ok responses => .ok (buildExpenseResponse expense user category :: responses)

/-- `CreateExpense`: the use case after the call, and the result. Clock readings `t1`,
`t2`, `now` and the id `fresh` are the inputs of `NewExpense`. -/
def CreateExpense (uc : ExpenseUseCase) (userID : String) (req : CreateExpenseRequest)
    (t1 t2 now : Time) (fresh : String) : ExpenseUseCase × Except Error ExpenseResponse :=
  match NewUserID userID with
  | .error err => (uc, .error (NewApplicationError ValidationFailed err.Error))
  | .ok uid =>
  match uc.userRepo.FindByID uid with
  | .error _ => (uc, .error (NewApplicationError UserNotFound "ユーザーが見つかりません"))
  | .ok user =>
  match NewCategoryID req.CategoryID with
  | .error err => (uc, .error (NewApplicationError ValidationFailed err.Error))
  | .ok cid =>
  match uc.categoryRepo.FindByID cid with
  | .error _ => (uc, .error (NewApplicationError CategoryNotFound "カテゴリが見つかりません"))
  | .ok category =>
    let currency := if req.Currency == "" then "JPY" else req.Currency
    match NewMoney req.Amount currency with
    | .error err => (uc, .error (NewApplicationError ValidationFailed err.Error))
    | .ok amount =>
    match NewExpense (some uid) (some cid) (some amount) req.Title req.Description req.Date
        t1 t2 now fresh with
    | .error err => (uc, .error (NewApplicationError ValidationFailed err.Error))
    | .ok expense =>
    match uc.expenseRepo.Save expense with
    | (repo, some _) =>
      ({ uc with expenseRepo := repo },
        .error (NewApplicationError "EXPENSE_CREATION_FAILED" "経費の作成に失敗しました"))
    | (repo, none) =>
      ({ uc with expenseRepo := repo }, .ok (buildExpenseResponse expense user category))

/-- `GetExpense`; it changes nothing, so only the result is returned. -/
def GetExpense (uc : ExpenseUseCase) (expenseID : String) : Except Error ExpenseResponse :=
  match NewExpenseID expenseID with
  | .error err => .error (NewApplicationError ValidationFailed err.Error)
  | .ok id =>
  match uc.expenseRepo.FindByID id with
  | .error _ => .error (NewApplicationError ExpenseNotFound "経費が見つかりません")
  | .ok expense =>
  match uc.userRepo.FindByID expense.userID with
  | .error _ => .error (NewApplicationError UserNotFound "ユーザーが見つかりません")
  | .ok user =>
  match uc.categoryRepo.FindByID expense.categoryID with
  | .error _ => .error (NewApplicationError CategoryNotFound "カテゴリが見つかりません")
  | .ok category => .ok (buildExpenseResponse expense user category)

/-- `GetExpensesByUser`; it changes nothing, so only the result is returned. -/
def GetExpensesByUser (uc : ExpenseUseCase) (userID : String) :
    Except Error (List ExpenseResponse) :=
  match NewUserID userID with
  | .error err => .error (NewApplicationError ValidationFailed err.Error)
  | .ok uid =>
  match uc.userRepo.FindByID uid with
  | .error _ => .error (NewApplicationError UserNotFound "ユーザーが見つかりません")
  | .ok user =>
  match uc.expenseRepo.FindByUserID uid with
  | .error _ =>
    .error (NewApplicationError "EXPENSE_FETCH_FAILED" "経費一覧の取得に失敗しました")
  | .ok expenses => uc.buildExpenseListResponse user expenses

/-- `GetExpensesByUserAndStatus`; it changes nothing, so only the result is returned. -/
def GetExpensesByUserAndStatus (uc : ExpenseUseCase) (userID : String) (status : String) :
    Except Error (List ExpenseResponse) :=
  match NewUserID userID with
  | .error err => .error (NewApplicationError ValidationFailed err.Error)
  | .ok uid =>
  match uc.userRepo.FindByID uid with
  | .error _ => .error (NewApplicationError UserNotFound "ユーザーが見つかりません")
  | .ok user =>
    let expenseStatus : ExpenseStatus := status
    if !(expenseStatus == ExpenseStatusDraft || expenseStatus == ExpenseStatusSubmitted ||
        expenseStatus == ExpenseStatusApproved || expenseStatus == ExpenseStatusRejected) then
      .error (NewApplicationError ValidationFailed "無効なステータスです")
    else
    match uc.expenseRepo.FindByUserIDAndStatus uid expenseStatus with
    | .error _ =>
      .error (NewApplicationError "EXPENSE_FETCH_FAILED" "経費一覧の取得に失敗しました")
    | .ok expenses => uc.buildExpenseListResponse user expenses

/-- `UpdateExpense`: the use case after the call, and the result. `FindByID` hands out
the pointer held by the map, so a successful `UpdateDetails` already changes the stored
expense; this is the write to `repo1` before the repository `Update`. Clock readings
`t1`, `t2`, `now` are the inputs of `UpdateDetails`. -/
def UpdateExpense (uc : ExpenseUseCase) (expenseID : String) (req : UpdateExpenseRequest)
    (t1 t2 now : Time) : ExpenseUseCase × Except Error ExpenseResponse :=
  match NewExpenseID expenseID with
  | .error err => (uc, .error (NewApplicationError ValidationFailed err.Error))
  | .ok id =>
  match uc.expenseRepo.FindByID id with
  | .error _ => (uc, .error (NewApplicationError ExpenseNotFound "経費が見つかりません"))
  | .ok expense =>
  match NewCategoryID req.CategoryID with
  | .error err => (uc, .error (NewApplicationError ValidationFailed err.Error))
  | .ok cid =>
  match uc.categoryRepo.FindByID cid with
  | .error _ => (uc, .error (NewApplicationError CategoryNotFound "カテゴリが見つかりません"))
  | .ok category =>
    let currency := if req.Currency == "" then "JPY" else req.Currency
    match NewMoney req.Amount currency with
    | .error err => (uc, .error (NewApplicationError ValidationFailed err.Error))
    | .ok amount =>
    match expense.UpdateDetails (some cid) (some amount) req.Title req.Description req.Date
        t1 t2 now with
    | (_, some err) => (uc, .error (NewApplicationError ValidationFailed err.Error))
    | (expense1, none) =>
      let repo1 : MemoryExpenseRepository := ⟨uc.expenseRepo.expenses.set id.String expense1⟩
      match repo1.Update expense1 with
      | (repo2, some _) =>
        ({ uc with expenseRepo := repo2 },
          .error (NewApplicationError ExpenseUpdateFailed "経費の更新に失敗しました"))
      | (repo2, none) =>
        match uc.userRepo.FindByID expense1.userID with
        | .error _ =>
          ({ uc with expenseRepo := repo2 },
            .error (NewApplicationError UserNotFound "ユーザーが見つかりません"))
        | .ok user =>
          ({ uc with expenseRepo := repo2 }, .ok (buildExpenseResponse expense1 user category))

/-- `DeleteExpense`: the use case after the call, and the error. -/
def DeleteExpense (uc : ExpenseUseCase) (expenseID : String) :
    ExpenseUseCase × Option Error :=
  match NewExpenseID expenseID with
  | .error err => (uc, some (NewApplicationError ValidationFailed err.Error))
  | .ok id =>
  match uc.expenseRepo.Exists id with
  | .error _ =>
    (uc, some (NewApplicationError ExpenseDeletionFailed "経費の削除チェックに失敗しました"))
  | .ok false => (uc, some (NewApplicationError ExpenseNotFound "経費が見つかりません"))
  | .ok true =>
  match uc.expenseRepo.Delete id with
  | (repo, some _) =>
    ({ uc with expenseRepo := repo },
      some (NewApplicationError ExpenseDeletionFailed "経費の削除に失敗しました"))
  | (repo, none) => ({ uc with expenseRepo := repo }, none)

/-- `changeExpenseStatus`: the use case after the call, and the result. The transition is
made on the pointer that `FindByID` hands out, so a successful transition already
changes the stored expense (the write to `repo1`); the repository `Update` and the two
lookups for the response come after it. `now` is the clock reading of the transition. -/
def changeExpenseStatus (uc : ExpenseUseCase) (expenseID : String) (action : String)
    (now : Time) : ExpenseUseCase × Except Error ExpenseResponse :=
  match NewExpenseID expenseID with
  | .error err => (uc, .error (NewApplicationError ValidationFailed err.Error))
  | .ok id =>
  match uc.expenseRepo.FindByID id with
  | .error _ => (uc, .error (NewApplicationError ExpenseNotFound "経費が見つかりません"))
  | .ok expense =>
    let changed : Option (Expense × Option Error) :=
      if action == "submit" then some (expense.Submit now)
      else if action == "approve" then some (expense.Approve now)
      else if action == "reject" then some (expense.Reject now)
      else none
    match changed with
    | none => (uc, .error (NewApplicationError ValidationFailed "無効なアクションです"))
    | some (_, some err) => (uc, .error (NewApplicationError ValidationFailed err.Error))
    | some (expense1, none) =>
      let repo1 : MemoryExpenseRepository := ⟨uc.expenseRepo.expenses.set id.String expense1⟩
      match repo1.Update expense1 with
      | (repo2, some _) =>
        ({ uc with expenseRepo := repo2 },
          .error (NewApplicationError ExpenseUpdateFailed
            "経費のステータス更新に失敗しました"))
      | (repo2, none) =>
        match uc.userRepo.FindByID expense1.userID with
        | .error _ =>
          ({ uc with expenseRepo := repo2 },
            .error (NewApplicationError UserNotFound "ユーザーが見つかりません"))
        | .ok user =>
        match uc.categoryRepo.FindByID expense1.categoryID with
        | .error _ =>
          ({ uc with expenseRepo := repo2 },
            .error (NewApplicationError CategoryNotFound "カテゴリが見つかりません"))
        | .ok category =>
          ({ uc with expenseRepo := repo2 },
            .ok (buildExpenseResponse expense1 user category))

def SubmitExpense (uc : ExpenseUseCase) (expenseID : String) (now : Time) :
    ExpenseUseCase × Except Error ExpenseResponse :=
  uc.changeExpenseStatus expenseID "submit" now

def ApproveExpense (uc : ExpenseUseCase) (expenseID : String) (now : Time) :
    ExpenseUseCase × Except Error ExpenseResponse :=
  uc.changeExpenseStatus expenseID "approve" now

def RejectExpense (uc : ExpenseUseCase) (expenseID : String) (now : Time) :
    ExpenseUseCase × Except Error ExpenseResponse :=
  uc.changeExpenseStatus expenseID "reject" now

end ExpenseUseCase

/-! ## The server: three repositories shared by the three use cases (`cmd/api/main.go`) -/

/-- The state of the server: `main` creates one repository of each kind and hands the
same three to the use cases. -/
structure Server where
  userRepo : MemoryUserRepository
  categoryRepo : MemoryCategoryRepository
  expenseRepo : MemoryExpenseRepository
deriving DecidableEq, Repr

/-- The server at its start: three empty repositories. -/
def NewServer : Server :=
  ⟨NewMemoryUserRepository, NewMemoryCategoryRepository, NewMemoryExpenseRepository⟩

namespace Server

/-- The user use case on the repositories of the server. -/
def userUseCase (s : Server) : UserUseCase := ⟨s.userRepo⟩

/-- The category use case on the repositories of the server. -/
def categoryUseCase (s : Server) : CategoryUseCase := ⟨s.categoryRepo, s.expenseRepo⟩

/-- The expense use case on the repositories of the server. -/
def expenseUseCase (s : Server) : ExpenseUseCase := ⟨s.expenseRepo, s.userRepo, s.categoryRepo⟩

/-- The server after a call on the user use case. -/
def withUser (s : Server) (uc : UserUseCase) : Server := { s with userRepo := uc.userRepo }

/-- The server after a call on the category use case. -/
def withCategory (s : Server) (uc : CategoryUseCase) : Server :=
  { s with categoryRepo := uc.categoryRepo, expenseRepo := uc.expenseRepo }

/-- The server after a call on the expense use case. -/
def withExpense (_s : Server) (uc : ExpenseUseCase) : Server :=
  ⟨uc.userRepo, uc.categoryRepo, uc.expenseRepo⟩

end Server

/-- One call on a use case that can change a repository, with its arguments, the clock
readings and the generated id it consumes. -/
inductive ServerCall where
  | createUser (req : CreateUserRequest) (now : Time) (fresh : String)
  | updateUser (userID : String) (req : UpdateUserRequest) (now : Time)
  | deleteUser (userID : String)
  | createCategory (req : CreateCategoryRequest) (now : Time) (fresh : String)
  | updateCategory (categoryID : String) (req : UpdateCategoryRequest) (now : Time)
  | deleteCategory (categoryID : String)
  | createExpense (userID : String) (req : CreateExpenseRequest) (t1 t2 now : Time)
      (fresh : String)
  | updateExpense (expenseID : String) (req : UpdateExpenseRequest) (t1 t2 now : Time)
  | deleteExpense (expenseID : String)
  | submitExpense (expenseID : String) (now : Time)
  | approveExpense (expenseID : String) (now : Time)
  | rejectExpense (expenseID : String) (now : Time)

/-- Perform one call and keep the state it leaves, whether the call succeeds or not. -/
def ServerCall.apply (s : Server) : ServerCall → Server
  | .createUser req now fresh => s.withUser (s.userUseCase.CreateUser req now fresh).1
  | .updateUser userID req now => s.withUser (s.userUseCase.UpdateUser userID req now).1
  | .deleteUser userID => s.withUser (s.userUseCase.DeleteUser userID).1
  | .createCategory req now fresh =>
    s.withCategory (s.categoryUseCase.CreateCategory req now fresh).1
  | .updateCategory categoryID req now =>
    s.withCategory (s.categoryUseCase.UpdateCategory categoryID req now).1
  | .deleteCategory categoryID => s.withCategory (s.categoryUseCase.DeleteCategory categoryID).1
  | .createExpense userID req t1 t2 now fresh =>
    s.withExpense (s.expenseUseCase.CreateExpense userID req t1 t2 now fresh).1
  | .updateExpense expenseID req t1 t2 now =>
    s.withExpense (s.expenseUseCase.UpdateExpense expenseID req t1 t2 now).1
  | .deleteExpense expenseID => s.withExpense (s.expenseUseCase.DeleteExpense expenseID).1
  | .submitExpense expenseID now => s.withExpense (s.expenseUseCase.SubmitExpense expenseID now).1
  | .approveExpense expenseID now =>
    s.withExpense (s.expenseUseCase.ApproveExpense expenseID now).1
  | .rejectExpense expenseID now => s.withExpense (s.expenseUseCase.RejectExpense expenseID now).1

/-- Perform calls one after the other (a serial run). -/
def runServerCalls (s : Server) : List ServerCall → Server
  | [] => s
  | c :: cs => runServerCalls (c.apply s) cs

/-- Every stored expense names a category that the category repository holds. -/
def Server.CategoriesPresent (s : Server) : Prop :=
  ∀ p ∈ s.expenseRepo.expenses,
    ∃ c, s.categoryRepo.categories.get p.2.categoryID.String = some c


/-- What the list of entries owes to being a Go map filled by `Save` and `Update`: no key
occurs twice, and every expense sits under the text of its own id. -/
def MemoryExpenseRepository.WellFormed (r : MemoryExpenseRepository) : Prop :=
  (r.expenses.map (fun p => p.1)).Nodup ∧ ∀ p ∈ r.expenses, p.1 = p.2.id.String

/-! ## The transport's error mapping (`web/handler/error_handler.go`) -/

namespace http

def StatusBadRequest : Nat := 400
def StatusNotFound : Nat := 404
def StatusConflict : Nat := 409
def StatusInternalServerError : Nat := 500

end http

/-- The `ErrorResponse` struct: the JSON body of an error answer. -/
structure ErrorResponse where
  Error : String
  Message : String
  Details : String
deriving DecidableEq, Repr

/-- A value of the Go interface `error` as `handleError` receives it: an error of one of
the two types of `pkg/errors`, or an error of any other type, of which the handler uses
the text of `Error()` only. -/
inductive AnyError where
  | core (e : Error)
  | other (text : String)
deriving DecidableEq, Repr

/-- `handleDomainError`: the status code and the body handed to `c.JSON`. -/
def handleDomainError (code message : String) : Nat × ErrorResponse :=
  let statusCode :=
    if code == UserNotFound || code == CategoryNotFound || code == ExpenseNotFound then
      http.StatusNotFound
    else if code == InvalidUserID || code == InvalidCategoryID ||
        code == InvalidExpenseAmount then
      http.StatusBadRequest
    else http.StatusBadRequest
  (statusCode, { Error := code, Message := message, Details := "" })

/-- `handleApplicationError`: the status code and the body handed to `c.JSON`. -/
def handleApplicationError (code message : String) : Nat × ErrorResponse :=
  let statusCode :=
    if code == ValidationFailed then http.StatusBadRequest
    else if code == ExpenseCreationFailed || code == ExpenseUpdateFailed ||
        code == ExpenseDeletionFailed then
      http.StatusInternalServerError
    else if code == "USER_CREATION_FAILED" || code == "USER_UPDATE_FAILED" ||
        code == "USER_DELETE_FAILED" then
      http.StatusInternalServerError
    else if code == "CATEGORY_CREATION_FAILED" || code == "CATEGORY_UPDATE_FAILED" ||
        code == "CATEGORY_DELETE_FAILED" then
      http.StatusInternalServerError
    else if code == "EMAIL_ALREADY_EXISTS" || code == "CATEGORY_NAME_ALREADY_EXISTS" then
      http.StatusConflict
    else if code == "CATEGORY_IN_USE" then http.StatusConflict
    else http.StatusInternalServerError
  (statusCode, { Error := code, Message := message, Details := "" })

/-- `handleError`: the type switch on the error, and the status code and body handed to
`c.JSON`. -/
def handleError : AnyError → Nat × ErrorResponse
  | .core (.domain code message) => handleDomainError code message
  | .core (.application code message) => handleApplicationError code message
  | .other text =>
    (http.StatusInternalServerError,
      { Error := "INTERNAL_SERVER_ERROR"
        Message := "内部サーバーエラーが発生しました"
        Details := text })

/-! ## Sample values for the concrete instances -/

/-- A clock reading: 2024-06-15 12:00:00 at UTC+9. -/
def sampleNow : Time := Time.Date 2024 6 15 12 0 0 0 32400

/-- An expense date one day before `sampleNow`. -/
def sampleDate : Time := Time.Date 2024 6 14 9 0 0 0 32400

def sampleUserID : UserID := ⟨"11111111-1111-4111-8111-111111111111"⟩
def sampleCategoryID : CategoryID := ⟨"22222222-2222-4222-8222-222222222222"⟩
def sampleMoney : Money := ⟨F64.ofNat 1500, "JPY"⟩

/-- An expense as `NewExpense` builds it, with the given status. -/
def sampleExpense (status : ExpenseStatus) : Expense :=
  { id := ⟨"33333333-3333-4333-8333-333333333333"⟩
    userID := sampleUserID
    categoryID := sampleCategoryID
    amount := sampleMoney
    title := "Taxi"
    description := ""
    date := sampleDate
    status := status
    createdAt := sampleNow
    updatedAt := sampleNow }

/-- A state in which an expense refers to a category that the category repository does
not hold. -/
def orphanExpenseState : CategoryUseCase :=
  { categoryRepo := NewMemoryCategoryRepository
    expenseRepo := (NewMemoryExpenseRepository.Save (sampleExpense "draft")).1 }

/-- A category with the id of `sampleCategoryID`. -/
def sampleCategory : Category :=
  { id := sampleCategoryID
    name := "交通費"
    description := ""
    color := "#FF6B6B"
    createdAt := sampleNow
    updatedAt := sampleNow }

/-- A state in which a stored category is referred to by a stored expense. -/
def categoryInUseState : CategoryUseCase :=
  { categoryRepo := (NewMemoryCategoryRepository.Save sampleCategory).1
    expenseRepo := (NewMemoryExpenseRepository.Save (sampleExpense "draft")).1 }

/-- The user use case after one user with email `t@e.com` was created from the empty
repository. -/
def oneUserState : UserUseCase :=
  (UserUseCase.CreateUser ⟨NewMemoryUserRepository⟩ ⟨"田中太郎", "t@e.com"⟩ sampleNow
    "11111111-1111-4111-8111-111111111111").1

/-- The user use case after a second user with email `s@e.com` was created. -/
def twoUserState : UserUseCase :=
  (oneUserState.CreateUser ⟨"佐藤花子", "s@e.com"⟩ sampleNow
    "44444444-4444-4444-8444-444444444444").1

/-- The category use case on empty repositories. -/
def emptyCategoryState : CategoryUseCase :=
  { categoryRepo := NewMemoryCategoryRepository, expenseRepo := NewMemoryExpenseRepository }

/-- A stored user with the id of `sampleUserID`. -/
def sampleUser : User :=
  { id := sampleUserID
    name := "田中太郎"
    email := "t@e.com"
    createdAt := sampleNow
    updatedAt := sampleNow }

/-- The expense use case on empty repositories. -/
def emptyExpenseState : ExpenseUseCase :=
  { expenseRepo := NewMemoryExpenseRepository
    userRepo := NewMemoryUserRepository
    categoryRepo := NewMemoryCategoryRepository }

/-- One user and one category are stored, no expense yet. -/
def readyExpenseState : ExpenseUseCase :=
  { expenseRepo := NewMemoryExpenseRepository
    userRepo := (NewMemoryUserRepository.Save sampleUser).1
    categoryRepo := (NewMemoryCategoryRepository.Save sampleCategory).1 }

/-- One user, one category and one expense of that user in that category are stored. -/
def oneExpenseState (status : ExpenseStatus) : ExpenseUseCase :=
  { expenseRepo := (NewMemoryExpenseRepository.Save (sampleExpense status)).1
    userRepo := (NewMemoryUserRepository.Save sampleUser).1
    categoryRepo := (NewMemoryCategoryRepository.Save sampleCategory).1 }

/-- A request for an expense of 1500 JPY in the category `sampleCategoryID`. -/
def sampleRequest : CreateExpenseRequest :=
  { CategoryID := "22222222-2222-4222-8222-222222222222"
    Amount := F64.ofNat 1500
    Currency := "JPY"
    Title := "Taxi"
    Description := ""
    Date := sampleDate }

/-- The response for `sampleExpense`. -/
def sampleResponse (status : ExpenseStatus) : ExpenseResponse :=
  ExpenseUseCase.buildExpenseResponse (sampleExpense status) sampleUser sampleCategory

/-- A user with the id of `sampleUser` and another name. -/
def renamedUser : User := { sampleUser with name := "田中次郎" }

/-- A title of 100 characters of three bytes each. -/
def wideTitle : String := ⟨List.replicate 100 'あ'⟩

/-- A title of the given number of letters `a`. -/
def plainTitle (n : Nat) : String := ⟨List.replicate n 'a'⟩

/-- An expense like `sampleExpense "draft"` whose title begins with a blank and whose
`updatedAt` is one day after `sampleNow`, as `ReconstructExpense` rebuilds it from stored
values. -/
def rebuiltExpense : Expense :=
  { sampleExpense "draft" with title := " Taxi", updatedAt := sampleNow.AddDate 0 0 1 }

/-- The sample draft expense after its title is set to `Bus`. -/
def busExpense : Expense :=
  { sampleExpense "draft" with title := "Bus", updatedAt := sampleNow }

/-- A version-4 UUID written with capital letters. -/
def upperText : String := "AAAAAAAA-AAAA-4AAA-8AAA-AAAAAAAAAAAA"

/-- The same UUID in its canonical form. -/
def lowerText : String := "aaaaaaaa-aaaa-4aaa-8aaa-aaaaaaaaaaaa"

/-- The state `oneExpenseState "draft"` after `DeleteUser` of the owner of the expense:
the draft expense is stored, its owner is not. -/
def ownerDeletedState : ExpenseUseCase :=
  { oneExpenseState "draft" with
    userRepo := (UserUseCase.DeleteUser ⟨(oneExpenseState "draft").userRepo⟩
      "11111111-1111-4111-8111-111111111111").1.userRepo }

/-- The day after `sampleNow`, at noon. -/
def nextNoon : Time := Time.Date 2024 6 16 12 0 0 0 32400

/-- The sample draft expense after `Submit` at `nextNoon`. -/
def submittedExpense : Expense :=
  { sampleExpense "draft" with status := ExpenseStatusSubmitted, updatedAt := nextNoon }

/-- The error of `SubmitExpense` for an expense that is not a draft. -/
def submitRefused : Error :=
  NewApplicationError ValidationFailed
    (NewDomainError "EXPENSE_SUBMIT_NOT_ALLOWED" "下書き状態の経費のみ申請できます").Error

/-- A run that creates a user, a category and an expense of that user in that category,
submits the expense, and then asks for the category to be deleted. -/
def sampleCalls : List ServerCall :=
  [ .createUser ⟨"田中太郎", "t@e.com"⟩ sampleNow "11111111-1111-4111-8111-111111111111",
    .createCategory ⟨"交通費", "", "#FF6B6B"⟩ sampleNow "22222222-2222-4222-8222-222222222222",
    .createExpense "11111111-1111-4111-8111-111111111111" sampleRequest sampleNow sampleNow
      sampleNow "33333333-3333-4333-8333-333333333333",
    .submitExpense "33333333-3333-4333-8333-333333333333" nextNoon,
    .deleteCategory "22222222-2222-4222-8222-222222222222" ]

/-- C1. `Submit` succeeds exactly when the status before the call is `draft`; when it
fails it returns an error and hands back the expense with every field as it was. -/
theorem Submit_succeeds_iff_draft (e : Expense) (now : Time) :
    ((e.Submit now).2 = none ↔ e.status = ExpenseStatusDraft) ∧
    (e.status ≠ ExpenseStatusDraft →
      (∃ err, (e.Submit now).2 = some err) ∧ (e.Submit now).1 = e) := by
  by_cases h : e.status = ExpenseStatusDraft <;> simp [Expense.Submit, h]

/-- C1, at a submitted expense: `Submit` fails and nothing changes. -/
theorem Submit_succeeds_iff_draft_witness :
    (∃ err, ((sampleExpense "submitted").Submit sampleNow).2 = some err) ∧
      ((sampleExpense "submitted").Submit sampleNow).1 = sampleExpense "submitted" :=
  (Submit_succeeds_iff_draft (sampleExpense "submitted") sampleNow).2 (by decide)

/-- C2. `Approve` and `Reject` each succeed exactly when the prior status is
`submitted`; on success the status is `approved`, respectively `rejected`; on failure
the expense is handed back unchanged. -/
theorem Approve_Reject_succeed_iff_submitted (e : Expense) (now : Time) :
    ((e.Approve now).2 = none ↔ e.status = ExpenseStatusSubmitted) ∧
    ((e.Reject now).2 = none ↔ e.status = ExpenseStatusSubmitted) ∧
    ((e.Approve now).2 = none → (e.Approve now).1.status = ExpenseStatusApproved) ∧
    ((e.Reject now).2 = none → (e.Reject now).1.status = ExpenseStatusRejected) ∧
    ((e.Approve now).2 ≠ none → (e.Approve now).1 = e) ∧
    ((e.Reject now).2 ≠ none → (e.Reject now).1 = e) := by
  by_cases h : e.status = ExpenseStatusSubmitted <;>
    simp [Expense.Approve, Expense.Reject, h]

/-- C2, at a submitted expense: `Approve` yields status `approved`. -/
theorem Approve_Reject_succeed_iff_submitted_witness :
    ((sampleExpense "submitted").Approve sampleNow).1.status = ExpenseStatusApproved :=
  (Approve_Reject_succeed_iff_submitted (sampleExpense "submitted") sampleNow).2.2.1
    (by decide)

/-- C3, as stated, fails: a `draft` expense rejects an update whose title is blank. -/
theorem UpdateDetails_draft_blank_title_fails :
    (sampleExpense "draft").status = ExpenseStatusDraft ∧
    ((sampleExpense "draft").UpdateDetails (some sampleCategoryID) (some sampleMoney)
        "  " "" sampleDate sampleNow sampleNow sampleNow).2 =
      some (Error.domain "INVALID_EXPENSE_TITLE" "経費タイトルは必須です") := by
  decide

/-- C3, amended. `UpdateDetails` succeeds exactly when the prior status is `draft` and
the arguments pass the checks of the function (category id and amount not `nil`; title,
description and date valid). When the status is not `draft` it fails with
`EXPENSE_UPDATE_NOT_ALLOWED`, and whenever it does not succeed the expense is handed
back with every field as it was. -/
theorem UpdateDetails_succeeds_iff (e : Expense) (categoryID : Option CategoryID)
    (amount : Option Money) (title description : String) (date t1 t2 now : Time) :
    ((e.UpdateDetails categoryID amount title description date t1 t2 now).2 = none ↔
      (e.status = ExpenseStatusDraft ∧ categoryID ≠ none ∧ amount ≠ none ∧
        validateExpenseTitle title = none ∧
        validateExpenseDescription description = none ∧
        validateExpenseDate t1 t2 date = none)) ∧
    (e.status ≠ ExpenseStatusDraft →
      ∃ msg, (e.UpdateDetails categoryID amount title description date t1 t2 now).2 =
        some (Error.domain "EXPENSE_UPDATE_NOT_ALLOWED" msg)) ∧
    ((e.UpdateDetails categoryID amount title description date t1 t2 now).2 ≠ none →
      (e.UpdateDetails categoryID amount title description date t1 t2 now).1 = e) := by
  unfold Expense.UpdateDetails
  by_cases h : e.status = ExpenseStatusDraft
  · cases categoryID <;> cases amount <;>
      cases ht : validateExpenseTitle title <;>
      cases hd : validateExpenseDescription description <;>
      cases hv : validateExpenseDate t1 t2 date <;>
      simp [h, NewDomainError]
  · simp [h, NewDomainError]

/-- C3 amended, at a submitted expense: the update is refused and nothing changes. -/
theorem UpdateDetails_succeeds_iff_witness :
    ((sampleExpense "submitted").UpdateDetails (some sampleCategoryID) (some sampleMoney)
        "Bus" "" sampleDate sampleNow sampleNow sampleNow).1 = sampleExpense "submitted" :=
  (UpdateDetails_succeeds_iff (sampleExpense "submitted") (some sampleCategoryID)
    (some sampleMoney) "Bus" "" sampleDate sampleNow sampleNow sampleNow).2.2 (by decide)

/-- On an approved or rejected expense every call fails and hands the expense back. -/
theorem ExpenseOp.apply_terminal (e : Expense)
    (h : e.status = ExpenseStatusApproved ∨ e.status = ExpenseStatusRejected)
    (op : ExpenseOp) : (op.apply e).2 ≠ none ∧ (op.apply e).1 = e := by
  have hd : e.status ≠ ExpenseStatusDraft := by
    rcases h with h | h <;> rw [h] <;> decide
  have hs : e.status ≠ ExpenseStatusSubmitted := by
    rcases h with h | h <;> rw [h] <;> decide
  cases op <;>
    simp [ExpenseOp.apply, Expense.Submit, Expense.Approve, Expense.Reject,
      Expense.UpdateDetails, hd, hs]

/-- A run of calls on an approved or rejected expense leaves it as it was. -/
theorem runOps_terminal (ops : List ExpenseOp) (e : Expense)
    (h : e.status = ExpenseStatusApproved ∨ e.status = ExpenseStatusRejected) :
    runOps e ops = e := by
  induction ops with
  | nil => rfl
  | cons op ops ih =>
    simp only [runOps]
    rw [(ExpenseOp.apply_terminal e h op).2]
    exact ih

/-- C4. `approved` and `rejected` are terminal: on an expense in one of these states
each of `Submit`, `Approve`, `Reject` and `UpdateDetails` (any arguments) fails, and
after any sequence of these calls the status is what it was. -/
theorem approved_rejected_terminal (e : Expense)
    (h : e.status = ExpenseStatusApproved ∨ e.status = ExpenseStatusRejected) :
    (∀ now, (e.Submit now).2 ≠ none) ∧
    (∀ now, (e.Approve now).2 ≠ none) ∧
    (∀ now, (e.Reject now).2 ≠ none) ∧
    (∀ categoryID amount title description date t1 t2 now,
      (e.UpdateDetails categoryID amount title description date t1 t2 now).2 ≠ none) ∧
    (∀ ops : List ExpenseOp, (runOps e ops).status = e.status) := by
  refine ⟨fun now => ?_, fun now => ?_, fun now => ?_, ?_, fun ops => ?_⟩
  · exact (ExpenseOp.apply_terminal e h (.submit now)).1
  · exact (ExpenseOp.apply_terminal e h (.approve now)).1
  · exact (ExpenseOp.apply_terminal e h (.reject now)).1
  · intro c a t d dt t1 t2 now
    exact (ExpenseOp.apply_terminal e h (.updateDetails c a t d dt t1 t2 now)).1
  · rw [runOps_terminal ops e h]

/-- C4, at an approved expense: submitting and then rejecting leaves it approved. -/
theorem approved_rejected_terminal_witness :
    (runOps (sampleExpense "approved")
      [ExpenseOp.submit sampleNow, ExpenseOp.reject sampleNow]).status = "approved" :=
  (approved_rejected_terminal (sampleExpense "approved") (Or.inl rfl)).2.2.2.2 _

/-- One call keeps the status inside the four states. -/
theorem ExpenseOp.apply_isValidStatus (e : Expense) (op : ExpenseOp)
    (h : isValidStatus e.status = true) : isValidStatus (op.apply e).1.status = true := by
  cases op <;>
    simp only [ExpenseOp.apply, Expense.Submit, Expense.Approve, Expense.Reject,
      Expense.UpdateDetails] <;>
    repeat (first | exact h | rfl | split)

/-- A run of calls keeps the status inside the four states. -/
theorem runOps_isValidStatus (ops : List ExpenseOp) (e : Expense)
    (h : isValidStatus e.status = true) : isValidStatus (runOps e ops).status = true := by
  induction ops generalizing e with
  | nil => exact h
  | cons op ops ih => exact ih _ (ExpenseOp.apply_isValidStatus e op h)

/-- The function `isValidStatus` accepts exactly the four status texts. -/
theorem isValidStatus_iff (s : ExpenseStatus) :
    isValidStatus s = true ↔
      (s = "draft" ∨ s = "submitted" ∨ s = "approved" ∨ s = "rejected") := by
  simp [isValidStatus, ExpenseStatusDraft, ExpenseStatusSubmitted, ExpenseStatusApproved,
    ExpenseStatusRejected, or_assoc]

/-- An expense built by `NewExpense` is a draft. -/
theorem NewExpense_status (userID : Option UserID) (categoryID : Option CategoryID)
    (amount : Option Money) (title description : String) (date t1 t2 now : Time)
    (fresh : String) (e : Expense)
    (h : NewExpense userID categoryID amount title description date t1 t2 now fresh = .ok e) :
    e.status = ExpenseStatusDraft := by
  unfold NewExpense at h
  repeat (split at h <;> try cases h)
  rfl

/-- An expense built by `ReconstructExpense` has a status that `isValidStatus` accepts. -/
theorem ReconstructExpense_status (id : Option ExpenseID) (userID : Option UserID)
    (categoryID : Option CategoryID) (amount : Option Money) (title description : String)
    (date : Time) (status : ExpenseStatus) (createdAt updatedAt t1 t2 : Time) (e : Expense)
    (h : ReconstructExpense id userID categoryID amount title description date status
      createdAt updatedAt t1 t2 = .ok e) :
    isValidStatus e.status = true := by
  unfold ReconstructExpense at h
  repeat (split at h <;> try cases h)
  simp_all

/-- C5. An expense returned by `NewExpense` or by a successful `ReconstructExpense` has
its status among `draft`, `submitted`, `approved`, `rejected`, and so has the expense
after any sequence (the empty one included) of `Submit`, `Approve`, `Reject` and
`UpdateDetails` calls, whether they succeed or fail. -/
theorem status_always_one_of_four (e : Expense)
    (h : (∃ userID categoryID amount title description date t1 t2 now fresh,
            NewExpense userID categoryID amount title description date t1 t2 now fresh
              = .ok e) ∨
         (∃ id userID categoryID amount title description date status createdAt updatedAt
            t1 t2,
            ReconstructExpense id userID categoryID amount title description date status
              createdAt updatedAt t1 t2 = .ok e))
    (ops : List ExpenseOp) :
    (runOps e ops).status = "draft" ∨ (runOps e ops).status = "submitted" ∨
      (runOps e ops).status = "approved" ∨ (runOps e ops).status = "rejected" := by
  have h0 : isValidStatus e.status = true := by
    rcases h with ⟨u, c, a, t, d, dt, t1, t2, now, fresh, h⟩ |
      ⟨id, u, c, a, t, d, dt, st, ca, ua, t1, t2, h⟩
    · rw [NewExpense_status u c a t d dt t1 t2 now fresh e h]
      rfl
    · exact ReconstructExpense_status id u c a t d dt st ca ua t1 t2 e h
  exact (isValidStatus_iff _).1 (runOps_isValidStatus ops e h0)

/-- C5, at the expense built by a concrete `NewExpense` call, after `Submit` and
`Approve`. -/
theorem status_always_one_of_four_witness :
    (runOps (sampleExpense "draft")
        [ExpenseOp.submit sampleNow, ExpenseOp.approve sampleNow]).status = "draft" ∨
      (runOps (sampleExpense "draft")
        [ExpenseOp.submit sampleNow, ExpenseOp.approve sampleNow]).status = "submitted" ∨
      (runOps (sampleExpense "draft")
        [ExpenseOp.submit sampleNow, ExpenseOp.approve sampleNow]).status = "approved" ∨
      (runOps (sampleExpense "draft")
        [ExpenseOp.submit sampleNow, ExpenseOp.approve sampleNow]).status = "rejected" :=
  status_always_one_of_four (sampleExpense "draft")
    (Or.inl ⟨some sampleUserID, some sampleCategoryID, some sampleMoney, " Taxi", "",
      sampleDate, sampleNow, sampleNow, sampleNow,
      "33333333-3333-4333-8333-333333333333", rfl⟩) _

/-- C6. An expense returned by `NewExpense` is a draft with `CanEdit` and `CanSubmit`
true; for every expense `CanEdit` and `CanSubmit` both say whether the status is
`draft`; and after a successful `Submit` both are false. -/
theorem NewExpense_draft_CanEdit_CanSubmit (userID : Option UserID)
    (categoryID : Option CategoryID) (amount : Option Money) (title description : String)
    (date t1 t2 now : Time) (fresh : String) (e : Expense)
    (h : NewExpense userID categoryID amount title description date t1 t2 now fresh = .ok e)
    (x : Expense) (t : Time) :
    (e.status = ExpenseStatusDraft ∧ e.CanEdit = true ∧ e.CanSubmit = true) ∧
    ((x.CanEdit = true ↔ x.status = ExpenseStatusDraft) ∧
      (x.CanSubmit = true ↔ x.status = ExpenseStatusDraft)) ∧
    ((x.Submit t).2 = none →
      (x.Submit t).1.CanEdit = false ∧ (x.Submit t).1.CanSubmit = false) := by
  have hs := NewExpense_status userID categoryID amount title description date t1 t2 now
    fresh e h
  refine ⟨⟨hs, ?_, ?_⟩, ⟨?_, ?_⟩, ?_⟩
  · simp [Expense.CanEdit, hs]
  · simp [Expense.CanSubmit, hs]
  · simp [Expense.CanEdit]
  · simp [Expense.CanSubmit]
  · by_cases hx : x.status = ExpenseStatusDraft
    · intro _
      simp [Expense.Submit, hx, Expense.CanEdit, Expense.CanSubmit]
      decide
    · simp [Expense.Submit, hx]

/-- C6, at a concrete `NewExpense` call and the draft it returns. -/
theorem NewExpense_draft_CanEdit_CanSubmit_witness :
    ((sampleExpense "draft").status = ExpenseStatusDraft ∧
      (sampleExpense "draft").CanEdit = true ∧ (sampleExpense "draft").CanSubmit = true) ∧
    (((sampleExpense "draft").Submit sampleNow).1.CanEdit = false ∧
      ((sampleExpense "draft").Submit sampleNow).1.CanSubmit = false) :=
  have h := NewExpense_draft_CanEdit_CanSubmit (some sampleUserID) (some sampleCategoryID)
    (some sampleMoney) " Taxi" "" sampleDate sampleNow sampleNow sampleNow
    "33333333-3333-4333-8333-333333333333" (sampleExpense "draft") rfl
    (sampleExpense "draft") sampleNow
  ⟨h.1, h.2.2 (by decide)⟩

/-! ## Deleting a category -/

/-- C7, as stated, fails: when the category is not stored, `DeleteCategory` answers
`CATEGORY_NOT_FOUND` although `FindByCategoryID` finds an expense for the id. -/
theorem DeleteCategory_absent_category_not_in_use_error :
    NewCategoryID "22222222-2222-4222-8222-222222222222" = .ok sampleCategoryID ∧
    orphanExpenseState.expenseRepo.FindByCategoryID sampleCategoryID
      = .ok [sampleExpense "draft"] ∧
    (orphanExpenseState.DeleteCategory "22222222-2222-4222-8222-222222222222").2
      = some (Error.application "CATEGORY_NOT_FOUND" "カテゴリが見つかりません") := by
  refine ⟨rfl, rfl, rfl⟩

/-- C7, amended. For a well-formed category id, `DeleteCategory` fails with
`CATEGORY_IN_USE` exactly when the category is stored and `FindByCategoryID` for the id
is non-empty at the time of the call; when the category is not stored it fails with
`CATEGORY_NOT_FOUND`. -/
theorem DeleteCategory_in_use_iff (uc : CategoryUseCase) (categoryID : String)
    (id : CategoryID) (h : NewCategoryID categoryID = .ok id) :
    (((uc.DeleteCategory categoryID).2.map Error.code = some "CATEGORY_IN_USE") ↔
      (uc.categoryRepo.Exists id = .ok true ∧
        ∃ expenses, uc.expenseRepo.FindByCategoryID id = .ok expenses ∧ expenses ≠ [])) ∧
    (uc.categoryRepo.Exists id = .ok false →
      (uc.DeleteCategory categoryID).2.map Error.code = some "CATEGORY_NOT_FOUND") := by
  unfold CategoryUseCase.DeleteCategory
  rw [h]
  cases hex : (uc.categoryRepo.categories.get id.String).isSome
  · simp [MemoryCategoryRepository.Exists, hex, NewApplicationError, Error.code,
      CategoryNotFound]
  · have hget : ∃ c, uc.categoryRepo.categories.get id.String = some c :=
      Option.isSome_iff_exists.1 hex
    obtain ⟨c, hc⟩ := hget
    cases hl : uc.expenseRepo.expenses.values.filter
        (fun expense => expense.categoryID.Equals (some id)) with
    | nil =>
      simp [MemoryCategoryRepository.Exists, hex, MemoryExpenseRepository.FindByCategoryID,
        hl, MemoryCategoryRepository.Delete, hc]
    | cons x xs =>
      simp [MemoryCategoryRepository.Exists, hex, MemoryExpenseRepository.FindByCategoryID,
        hl, NewApplicationError, Error.code]

/-- C7 amended, at a state where the category is stored and used by an expense. -/
theorem DeleteCategory_in_use_iff_witness :
    (categoryInUseState.DeleteCategory "22222222-2222-4222-8222-222222222222").2.map
      Error.code = some "CATEGORY_IN_USE" :=
  (DeleteCategory_in_use_iff categoryInUseState "22222222-2222-4222-8222-222222222222"
    sampleCategoryID rfl).1.2 ⟨rfl, [sampleExpense "draft"], rfl, by simp⟩

/-! ## Uniqueness of emails and category names -/

/-- C8 at the failing input. A user with email `t@e.com` is stored; a create request
whose email is ` t@e.com` (one leading blank) trims to the stored email, yet `CreateUser`
succeeds and afterwards two users with email `t@e.com` are stored. -/
theorem CreateUser_padded_email_stores_duplicate :
    oneUserState.userRepo.users.values.map (fun u => u.email) = ["t@e.com"] ∧
    TrimSpace " t@e.com" = "t@e.com" ∧
    (oneUserState.CreateUser ⟨"佐藤花子", " t@e.com"⟩ sampleNow
        "44444444-4444-4444-8444-444444444444").2
      = .ok { ID := "44444444-4444-4444-8444-444444444444", Name := "佐藤花子",
              Email := "t@e.com", CreatedAt := sampleNow, UpdatedAt := sampleNow } ∧
    (oneUserState.CreateUser ⟨"佐藤花子", " t@e.com"⟩ sampleNow
        "44444444-4444-4444-8444-444444444444").1.userRepo.users.values.map
      (fun u => (u.id.String, u.email))
      = [("11111111-1111-4111-8111-111111111111", "t@e.com"),
         ("44444444-4444-4444-8444-444444444444", "t@e.com")] := by
  refine ⟨rfl, rfl, rfl, rfl⟩

/-- C9 at the failing input. Starting from the empty repository, creating a category
named `交通費` and then one named `交通費` followed by a blank leaves two stored
categories with the same name. -/
theorem CreateCategory_padded_name_stores_duplicate :
    (runCategoryCalls emptyCategoryState
        [CategoryCall.create ⟨"交通費", "", "#FF6B6B"⟩ sampleNow
           "22222222-2222-4222-8222-222222222222",
         CategoryCall.create ⟨"交通費 ", "", "#00FF00"⟩ sampleNow
           "55555555-5555-4555-8555-555555555555"]).categoryRepo.categories.values.map
      (fun c => (c.id.String, c.name))
      = [("22222222-2222-4222-8222-222222222222", "交通費"),
         ("55555555-5555-4555-8555-555555555555", "交通費")] := by
  rfl

/-- A value found under a key is an entry of the map. -/
theorem GoMap.mem_of_get {α : Type} (m : GoMap α) (k : String) (v : α)
    (h : m.get k = some v) : (k, v) ∈ m := by
  induction m with
  | nil => simp [GoMap.get] at h
  | cons p rest ih =>
    obtain ⟨k1, v1⟩ := p
    by_cases hk : k1 = k
    · simp [GoMap.get, hk] at h
      simp [hk, h]
    · simp [GoMap.get, hk] at h
      exact List.mem_cons_of_mem _ (ih h)

/-- In a well-formed user repository two stored users with the same id are the same. -/
theorem MemoryUserRepository.WellFormed.eq_of_id_eq {r : MemoryUserRepository}
    (hwf : r.WellFormed) {k1 k2 : String} {u1 u2 : User} (h1 : (k1, u1) ∈ r.users)
    (h2 : (k2, u2) ∈ r.users) (hid : u1.id = u2.id) : u1 = u2 := by
  have e1 := hwf.2 _ h1
  have e2 := hwf.2 _ h2
  have hk : k1 = k2 := by
    simp only at e1 e2
    rw [e1, e2, hid]
  have := List.inj_on_of_nodup_map hwf.1 h1 h2 hk
  exact (Prod.mk.inj this).2

/-- C10. `UpdateUser` on a stored user, with a request email that differs from the
user's current email and is the email of a stored user with another id, fails with
`EMAIL_ALREADY_EXISTS` and leaves the repository as it was; and a request that carries
the user's own current email is never refused with that code. -/
theorem UpdateUser_email_of_other_user_rejected (uc : UserUseCase)
    (hwf : uc.userRepo.WellFormed) (userID : String) (id : UserID) (user : User)
    (req : UpdateUserRequest) (now : Time)
    (hid : NewUserID userID = .ok id) (hfound : uc.userRepo.FindByID id = .ok user) :
    (req.Email ≠ user.email →
      (∃ other ∈ uc.userRepo.users.values, other.id ≠ user.id ∧ other.email = req.Email) →
      ∃ msg, uc.UpdateUser userID req now =
        (uc, .error (Error.application "EMAIL_ALREADY_EXISTS" msg))) ∧
    (req.Email = user.email →
      ∀ err, (uc.UpdateUser userID req now).2 = .error err →
        err.code ≠ "EMAIL_ALREADY_EXISTS") := by
  have hget : uc.userRepo.users.get id.String = some user := by
    unfold MemoryUserRepository.FindByID at hfound
    split at hfound
    · cases hfound
    · next u hu => cases hfound; exact hu
  have hmemUser : (id.String, user) ∈ uc.userRepo.users := GoMap.mem_of_get _ _ _ hget
  constructor
  · intro hne ⟨other, hother, hoid, hoemail⟩
    cases hf : uc.userRepo.users.values.find? (fun u => u.email == req.Email) with
    | none =>
      rw [List.find?_eq_none] at hf
      have := hf other hother
      simp [hoemail] at this
    | some x =>
      have hxemail : x.email = req.Email := by
        have := List.find?_some hf
        simpa using this
      have hxmem : x ∈ uc.userRepo.users.values := List.mem_of_find?_eq_some hf
      obtain ⟨p, hp, hpx⟩ := List.mem_map.1 hxmem
      have hxid : x.id ≠ user.id := by
        intro heq
        have hp2 : (p.1, x) ∈ uc.userRepo.users := by
          rw [← hpx]; exact hp
        have hxu : x = user := hwf.eq_of_id_eq hp2 hmemUser heq
        exact hne (by rw [← hxemail, hxu])
      have hval : x.id.value ≠ user.id.value := by
        intro hv
        apply hxid
        cases hx : x.id
        cases hu : user.id
        simp_all
      refine ⟨"このメールアドレスは既に使用されています", ?_⟩
      simp [UserUseCase.UpdateUser, hid, hfound, MemoryUserRepository.FindByEmail, hf,
        UserID.Equals, hne, hval, NewApplicationError]
  · intro heq err herr
    unfold UserUseCase.UpdateUser at herr
    simp only [hid, hfound, heq, bne_self_eq_false, Bool.false_and] at herr
    rcases hup : user.UpdateProfile req.Name user.email now with ⟨u1, _ | e1⟩
    · simp only [hup, Bool.false_eq_true, if_false] at herr
      rcases hrepo : MemoryUserRepository.Update ⟨uc.userRepo.users.set id.String u1⟩ u1
        with ⟨r2, _ | e2⟩
      · simp [hrepo] at herr
      · simp [hrepo, NewApplicationError] at herr
        rw [← herr]
        decide
    · simp [hup, NewApplicationError] at herr
      rw [← herr]
      simp [Error.code, ValidationFailed]

/-- C10, at a repository with two users: giving the first the email of the second is
refused and the repository stays as it was. -/
theorem UpdateUser_email_of_other_user_rejected_witness :
    ∃ msg, twoUserState.UpdateUser "11111111-1111-4111-8111-111111111111"
        ⟨"田中太郎", "s@e.com"⟩ sampleNow =
      (twoUserState, .error (Error.application "EMAIL_ALREADY_EXISTS" msg)) :=
  (UpdateUser_email_of_other_user_rejected twoUserState ⟨by decide, by decide⟩
    "11111111-1111-4111-8111-111111111111" sampleUserID
    { id := sampleUserID, name := "田中太郎", email := "t@e.com", createdAt := sampleNow,
      updatedAt := sampleNow }
    ⟨"田中太郎", "s@e.com"⟩ sampleNow rfl rfl).1 (by decide)
    ⟨{ id := ⟨"44444444-4444-4444-8444-444444444444"⟩, name := "佐藤花子",
       email := "s@e.com", createdAt := sampleNow, updatedAt := sampleNow },
      by decide, by decide, rfl⟩

/-- The keys after `m[k] = v`. -/
theorem GoMap.keys_set {α : Type} (m : GoMap α) (k : String) (v : α) :
    (m.set k v).map (fun p => p.1) =
      if k ∈ m.map (fun p => p.1) then m.map (fun p => p.1)
      else m.map (fun p => p.1) ++ [k] := by
  induction m with
  | nil => simp [GoMap.set]
  | cons p rest ih =>
    obtain ⟨k1, v1⟩ := p
    by_cases hk : k1 = k
    · simp [GoMap.set, hk]
    · have hk2 : ¬ k = k1 := fun h => hk h.symm
      by_cases hin : k ∈ rest.map (fun p => p.1)
      · simp [GoMap.set, hk, hk2, ih, hin]
      · simp [GoMap.set, hk, hk2, ih, hin]

/-- An entry after `m[k] = v` is the new entry or an old one. -/
theorem GoMap.mem_set {α : Type} (m : GoMap α) (k : String) (v : α) (p : String × α)
    (h : p ∈ m.set k v) : p = (k, v) ∨ p ∈ m := by
  induction m with
  | nil => simpa [GoMap.set] using h
  | cons q rest ih =>
    obtain ⟨k1, v1⟩ := q
    by_cases hk : k1 = k
    · simp [GoMap.set, hk] at h
      rcases h with h | h
      · exact Or.inl h
      · exact Or.inr (List.mem_cons_of_mem _ h)
    · simp [GoMap.set, hk] at h
      rcases h with h | h
      · exact Or.inr (by simp [h])
      · rcases ih h with h1 | h1
        · exact Or.inl h1
        · exact Or.inr (List.mem_cons_of_mem _ h1)

/-- The empty user repository is well formed. -/
theorem NewMemoryUserRepository_WellFormed : NewMemoryUserRepository.WellFormed := by
  simp [MemoryUserRepository.WellFormed, NewMemoryUserRepository]

/-- Storing a user under the text of its id keeps the repository well formed. -/
theorem MemoryUserRepository.WellFormed.set {r : MemoryUserRepository} (hwf : r.WellFormed)
    (user : User) : MemoryUserRepository.WellFormed ⟨r.users.set user.id.String user⟩ := by
  constructor
  · show ((r.users.set user.id.String user).map (fun p => p.1)).Nodup
    rw [GoMap.keys_set]
    split
    · exact hwf.1
    · next hnot =>
      exact List.Nodup.append hwf.1 (List.nodup_singleton _) (by simpa using hnot)
  · intro p hp
    rcases GoMap.mem_set _ _ _ _ hp with h | h
    · rw [h]
    · exact hwf.2 p h

/-- `Save` and `Update` keep the user repository well formed. -/
theorem MemoryUserRepository.WellFormed.preserved {r : MemoryUserRepository}
    (hwf : r.WellFormed) (user : User) :
    (r.Save user).1.WellFormed ∧ (r.Update user).1.WellFormed := by
  refine ⟨hwf.set user, ?_⟩
  unfold MemoryUserRepository.Update
  split
  · exact hwf
  · exact hwf.set user

/-- `Delete` keeps the user repository well formed. -/
theorem MemoryUserRepository.WellFormed.delete {r : MemoryUserRepository}
    (hwf : r.WellFormed) (id : UserID) : (r.Delete id).1.WellFormed := by
  unfold MemoryUserRepository.Delete
  split
  · exact hwf
  · constructor
    · exact hwf.1.sublist ((List.filter_sublist _).map _)
    · intro p hp
      exact hwf.2 p (List.mem_of_mem_filter hp)

/-- The user use case keeps its repository well formed. -/
theorem UserUseCase.WellFormed_preserved (uc : UserUseCase) (hwf : uc.userRepo.WellFormed)
    (creq : CreateUserRequest) (ureq : UpdateUserRequest) (userID : String) (now : Time)
    (fresh : String) :
    (uc.CreateUser creq now fresh).1.userRepo.WellFormed ∧
      (uc.UpdateUser userID ureq now).1.userRepo.WellFormed ∧
      (uc.DeleteUser userID).1.userRepo.WellFormed := by
  refine ⟨?_, ?_, ?_⟩
  · unfold UserUseCase.CreateUser
    repeat (first | exact hwf | exact hwf.set _ | split)
  · unfold UserUseCase.UpdateUser
    split
    · exact hwf
    next id hid =>
    split
    · exact hwf
    next user hfound =>
    dsimp only
    split
    · exact hwf
    split
    · exact hwf
    next user1 hup =>
    have hget : uc.userRepo.users.get id.String = some user := by
      unfold MemoryUserRepository.FindByID at hfound
      split at hfound
      · cases hfound
      · next u hu => cases hfound; exact hu
    have hkey : id.String = user.id.String :=
      hwf.2 _ (GoMap.mem_of_get _ _ _ hget)
    have hid1 : user1.id = user.id := by
      unfold User.UpdateProfile at hup
      repeat (split at hup <;> try cases hup)
      rfl
    have hwf1 : MemoryUserRepository.WellFormed ⟨uc.userRepo.users.set id.String user1⟩ := by
      rw [hkey, ← hid1]
      exact hwf.set user1
    have hwf2 := (hwf1.preserved user1).2
    split
    · next r2 e2 hr => rw [hr] at hwf2; exact hwf2
    · next r2 hr => rw [hr] at hwf2; exact hwf2
  · unfold UserUseCase.DeleteUser
    split
    · exact hwf
    next id hid =>
    have hwf2 := hwf.delete id
    split
    · exact hwf
    · exact hwf
    · split
      · next r2 e2 hr => rw [hr] at hwf2; exact hwf2
      · next r2 hr => rw [hr] at hwf2; exact hwf2

/-! ## Creating and reading expenses -/

/-- `NewMoney` refuses an amount below zero. -/
theorem NewMoney_negative (amount : F64) (currency : String)
    (h : amount.lt (F64.ofNat 0) = true) : ∃ err, NewMoney amount currency = .error err := by
  simp [NewMoney, h]

/-- `NewExpense` refuses an empty title, whatever the other arguments. -/
theorem NewExpense_empty_title (userID : Option UserID) (categoryID : Option CategoryID)
    (amount : Option Money) (description : String) (date t1 t2 now : Time) (fresh : String) :
    ∃ err, NewExpense userID categoryID amount "" description date t1 t2 now fresh
      = .error err := by
  have ht : validateExpenseTitle "" =
      some (NewDomainError "INVALID_EXPENSE_TITLE" "経費タイトルは必須です") := by decide
  unfold NewExpense
  cases userID <;> cases categoryID <;> cases amount <;> simp [ht]

/-- `CreateExpense` with the always successful `Save` carried out. -/
theorem CreateExpense_eq (uc : ExpenseUseCase) (userID : String)
    (req : CreateExpenseRequest) (t1 t2 now : Time) (fresh : String) :
    uc.CreateExpense userID req t1 t2 now fresh =
      (match NewUserID userID with
       | .error err => (uc, .error (NewApplicationError ValidationFailed err.Error))
       | .ok uid =>
       match uc.userRepo.FindByID uid with
       | .error _ => (uc, .error (NewApplicationError UserNotFound "ユーザーが見つかりません"))
       | .ok user =>
       match NewCategoryID req.CategoryID with
       | .error err => (uc, .error (NewApplicationError ValidationFailed err.Error))
       | .ok cid =>
       match uc.categoryRepo.FindByID cid with
       | .error _ =>
         (uc, .error (NewApplicationError CategoryNotFound "カテゴリが見つかりません"))
       | .ok category =>
       match NewMoney req.Amount (if req.Currency == "" then "JPY" else req.Currency) with
       | .error err => (uc, .error (NewApplicationError ValidationFailed err.Error))
       | .ok amount =>
       match NewExpense (some uid) (some cid) (some amount) req.Title req.Description
           req.Date t1 t2 now fresh with
       | .error err => (uc, .error (NewApplicationError ValidationFailed err.Error))
       | .ok expense =>
         ({ uc with
              expenseRepo := ⟨uc.expenseRepo.expenses.set expense.id.String expense⟩ },
           .ok (ExpenseUseCase.buildExpenseResponse expense user category))) := by
  unfold ExpenseUseCase.CreateExpense
  rfl

/-- `CreateExpense` either fails and leaves the use case as it was, or every step
succeeded, the expense built by `NewExpense` was stored under its id and the response
was built from it. -/
theorem CreateExpense_cases (uc : ExpenseUseCase) (userID : String)
    (req : CreateExpenseRequest) (t1 t2 now : Time) (fresh : String) :
    (∃ err, uc.CreateExpense userID req t1 t2 now fresh = (uc, .error err)) ∨
    (∃ uid user cid category amount expense,
      NewUserID userID = .ok uid ∧ uc.userRepo.FindByID uid = .ok user ∧
      NewCategoryID req.CategoryID = .ok cid ∧
      uc.categoryRepo.FindByID cid = .ok category ∧
      NewMoney req.Amount (if req.Currency == "" then "JPY" else req.Currency)
        = .ok amount ∧
      NewExpense (some uid) (some cid) (some amount) req.Title req.Description req.Date
        t1 t2 now fresh = .ok expense ∧
      uc.CreateExpense userID req t1 t2 now fresh =
        ({ uc with expenseRepo := ⟨uc.expenseRepo.expenses.set expense.id.String expense⟩ },
          .ok (ExpenseUseCase.buildExpenseResponse expense user category))) := by
  rw [CreateExpense_eq]
  generalize (if req.Currency == "" then "JPY" else req.Currency) = currency
  cases hu : NewUserID userID with
  | error e => exact Or.inl ⟨_, rfl⟩
  | ok uid =>
    dsimp only
    cases hf : uc.userRepo.FindByID uid with
    | error e => exact Or.inl ⟨_, rfl⟩
    | ok user =>
      dsimp only
      cases hc : NewCategoryID req.CategoryID with
      | error e => exact Or.inl ⟨_, rfl⟩
      | ok cid =>
        dsimp only
        cases hcf : uc.categoryRepo.FindByID cid with
        | error e => exact Or.inl ⟨_, rfl⟩
        | ok category =>
          dsimp only
          cases hm : NewMoney req.Amount currency with
          | error e => exact Or.inl ⟨_, rfl⟩
          | ok amount =>
            dsimp only
            cases hn : NewExpense (some uid) (some cid) (some amount) req.Title
                req.Description req.Date t1 t2 now fresh with
            | error e => exact Or.inl ⟨_, rfl⟩
            | ok expense =>
              exact Or.inr ⟨uid, user, cid, category, amount, expense, rfl, hf, rfl, hcf,
                rfl, hn, rfl⟩

/-- What a successful `CreateExpense` went through. -/
theorem CreateExpense_ok_inv (uc : ExpenseUseCase) (userID : String)
    (req : CreateExpenseRequest) (t1 t2 now : Time) (fresh : String) (r : ExpenseResponse)
    (h : (uc.CreateExpense userID req t1 t2 now fresh).2 = .ok r) :
    ∃ uid user cid category amount expense,
      NewUserID userID = .ok uid ∧ uc.userRepo.FindByID uid = .ok user ∧
      NewCategoryID req.CategoryID = .ok cid ∧
      uc.categoryRepo.FindByID cid = .ok category ∧
      NewMoney req.Amount (if req.Currency == "" then "JPY" else req.Currency)
        = .ok amount ∧
      NewExpense (some uid) (some cid) (some amount) req.Title req.Description req.Date
        t1 t2 now fresh = .ok expense ∧
      uc.CreateExpense userID req t1 t2 now fresh =
        ({ uc with expenseRepo := ⟨uc.expenseRepo.expenses.set expense.id.String expense⟩ },
          .ok (ExpenseUseCase.buildExpenseResponse expense user category)) ∧
      r = ExpenseUseCase.buildExpenseResponse expense user category := by
  rcases CreateExpense_cases uc userID req t1 t2 now fresh with ⟨err, he⟩ |
    ⟨uid, user, cid, category, amount, expense, hu, hf, hc, hcf, hm, hn, heq⟩
  · rw [he] at h; cases h
  · refine ⟨uid, user, cid, category, amount, expense, hu, hf, hc, hcf, hm, hn, heq, ?_⟩
    rw [heq] at h
    cases h
    rfl

/-- C11. `CreateExpense` with a well-formed owner id that is not in the user repository
fails with `USER_NOT_FOUND`; with a stored owner and a well-formed category id that is
not in the category repository it fails with `CATEGORY_NOT_FOUND`; with a malformed
owner id, a malformed category id, a negative amount or an empty title it fails; and
whenever it fails no response is returned and the repositories are as before (no
expense is stored). -/
theorem CreateExpense_failures (uc : ExpenseUseCase) (userID : String)
    (req : CreateExpenseRequest) (t1 t2 now : Time) (fresh : String) :
    (∀ uid, NewUserID userID = .ok uid → uc.userRepo.users.get uid.String = none →
      ((uc.CreateExpense userID req t1 t2 now fresh).2.toOption = none ∧
        ∃ msg, (uc.CreateExpense userID req t1 t2 now fresh).2
          = .error (Error.application "USER_NOT_FOUND" msg))) ∧
    (∀ uid user cid, NewUserID userID = .ok uid →
      uc.userRepo.users.get uid.String = some user →
      NewCategoryID req.CategoryID = .ok cid →
      uc.categoryRepo.categories.get cid.String = none →
      ∃ msg, (uc.CreateExpense userID req t1 t2 now fresh).2
        = .error (Error.application "CATEGORY_NOT_FOUND" msg)) ∧
    (((∃ e, NewUserID userID = .error e) ∨ (∃ e, NewCategoryID req.CategoryID = .error e) ∨
        req.Amount.lt (F64.ofNat 0) = true ∨ req.Title = "") →
      ∃ err, (uc.CreateExpense userID req t1 t2 now fresh).2 = .error err) ∧
    (∀ err, (uc.CreateExpense userID req t1 t2 now fresh).2 = .error err →
      (uc.CreateExpense userID req t1 t2 now fresh).1 = uc) := by
  refine ⟨?_, ?_, ?_, ?_⟩
  · intro uid hid hget
    simp [ExpenseUseCase.CreateExpense, hid, MemoryUserRepository.FindByID, hget,
      NewApplicationError, UserNotFound, Except.toOption]
  · intro uid user cid hid hget hcid hcget
    simp [ExpenseUseCase.CreateExpense, hid, MemoryUserRepository.FindByID, hget, hcid,
      MemoryCategoryRepository.FindByID, hcget, NewApplicationError, CategoryNotFound]
  · intro h
    cases hres : (uc.CreateExpense userID req t1 t2 now fresh).2 with
    | error e => exact ⟨e, rfl⟩
    | ok r =>
      exfalso
      obtain ⟨uid, user, cid, category, amount, expense, hu, hf, hc, hcf, hm, hn, -, -⟩ :=
        CreateExpense_ok_inv uc userID req t1 t2 now fresh r hres
      rcases h with ⟨e, he⟩ | ⟨e, he⟩ | hneg | htitle
      · rw [hu] at he; cases he
      · rw [hc] at he; cases he
      · obtain ⟨err, herr⟩ := NewMoney_negative req.Amount
          (if req.Currency == "" then "JPY" else req.Currency) hneg
        rw [hm] at herr; cases herr
      · rw [htitle] at hn
        obtain ⟨err, herr⟩ := NewExpense_empty_title (some uid) (some cid)
          (some amount) req.Description req.Date t1 t2 now fresh
        rw [hn] at herr; cases herr
  · intro err herr
    rcases CreateExpense_cases uc userID req t1 t2 now fresh with ⟨e, he⟩ |
      ⟨uid, user, cid, category, amount, expense, -, -, -, -, -, -, heq⟩
    · rw [he]
    · rw [heq] at herr; cases herr

/-- C11, at the empty repositories: the owner is well formed and not stored. -/
theorem CreateExpense_failures_witness :
    (emptyExpenseState.CreateExpense "11111111-1111-4111-8111-111111111111" sampleRequest
        sampleNow sampleNow sampleNow "33333333-3333-4333-8333-333333333333").2.toOption
      = none ∧
    ∃ msg, (emptyExpenseState.CreateExpense "11111111-1111-4111-8111-111111111111"
        sampleRequest sampleNow sampleNow sampleNow
        "33333333-3333-4333-8333-333333333333").2
      = .error (Error.application "USER_NOT_FOUND" msg) :=
  (CreateExpense_failures emptyExpenseState "11111111-1111-4111-8111-111111111111"
    sampleRequest sampleNow sampleNow sampleNow "33333333-3333-4333-8333-333333333333").1
    sampleUserID rfl rfl

/-- Reading a key just written gives the value written. -/
theorem GoMap.get_set_self {α : Type} (m : GoMap α) (k : String) (v : α) :
    (m.set k v).get k = some v := by
  induction m with
  | nil => simp [GoMap.set, GoMap.get]
  | cons p rest ih =>
    obtain ⟨k1, v1⟩ := p
    by_cases hk : k1 = k
    · simp [GoMap.set, GoMap.get, hk]
    · simp [GoMap.set, GoMap.get, hk, ih]

/-- After `delete(m, k)` the key `k` is absent. -/
theorem GoMap.get_delete_self {α : Type} (m : GoMap α) (k : String) :
    (m.delete k).get k = none := by
  induction m with
  | nil => simp [GoMap.delete, GoMap.get]
  | cons p rest ih =>
    obtain ⟨k1, v1⟩ := p
    by_cases hk : k1 = k
    · simpa [GoMap.delete, hk] using ih
    · simpa [GoMap.delete, GoMap.get, hk] using ih

/-- Reading a key other than the first one skips the first entry. -/
theorem GoMap.get_cons_ne {α : Type} (k1 k2 : String) (v1 : α) (rest : GoMap α)
    (h : ¬ k1 = k2) : GoMap.get ((k1, v1) :: rest) k2 = GoMap.get rest k2 := by
  simp [GoMap.get, h]

/-- `delete(m, k)` leaves every other key as it was. -/
theorem GoMap.get_delete_ne {α : Type} (m : GoMap α) (k k2 : String) (h : k2 ≠ k) :
    (m.delete k).get k2 = m.get k2 := by
  induction m with
  | nil => simp [GoMap.delete, GoMap.get]
  | cons p rest ih =>
    obtain ⟨k1, v1⟩ := p
    unfold GoMap.delete at ih ⊢
    by_cases hk : k1 = k
    · subst hk
      have hk2 : ¬ k1 = k2 := fun e => h e.symm
      rw [List.filter_cons_of_neg (by simp), GoMap.get_cons_ne _ _ _ _ hk2]
      exact ih
    · rw [List.filter_cons_of_pos (by simpa using hk)]
      by_cases hk2 : k1 = k2
      · simp [GoMap.get, hk2]
      · rw [GoMap.get_cons_ne _ _ _ _ hk2, GoMap.get_cons_ne _ _ _ _ hk2]
        exact ih

/-- The fields of an expense built by `NewExpense`. -/
theorem NewExpense_fields (uid : UserID) (cid : CategoryID) (amount : Money)
    (title description : String) (date t1 t2 now : Time) (fresh : String) (e : Expense)
    (h : NewExpense (some uid) (some cid) (some amount) title description date t1 t2 now
      fresh = .ok e) :
    e = { id := ⟨fresh⟩, userID := uid, categoryID := cid, amount := amount,
          title := TrimSpace title, description := TrimSpace description, date := date,
          status := ExpenseStatusDraft, createdAt := now, updatedAt := now } := by
  unfold NewExpense at h
  simp only at h
  repeat (split at h <;> try cases h)
  rfl

/-- C12. In a state where user U is stored and a stored expense E has U as its owner,
`DeleteUser(U)` succeeds; afterwards U is absent from the user repository and every
other key holds what it held; the expense repository is untouched, so E is still stored;
and `GetExpense(E)` on the state after the deletion fails with `USER_NOT_FOUND`. -/
theorem DeleteUser_keeps_expenses (uc : ExpenseUseCase) (userID : String) (uid : UserID)
    (u : User) (expenseID : String) (eid : ExpenseID) (E : Expense)
    (hid : NewUserID userID = .ok uid)
    (hu : uc.userRepo.users.get uid.String = some u)
    (heid : NewExpenseID expenseID = .ok eid)
    (hE : uc.expenseRepo.expenses.get eid.String = some E)
    (hown : E.userID.Equals (some uid) = true) :
    (UserUseCase.DeleteUser ⟨uc.userRepo⟩ userID).2 = none ∧
    (UserUseCase.DeleteUser ⟨uc.userRepo⟩ userID).1.userRepo.users.get uid.String = none ∧
    (∀ k, k ≠ uid.String →
      (UserUseCase.DeleteUser ⟨uc.userRepo⟩ userID).1.userRepo.users.get k
        = uc.userRepo.users.get k) ∧
    ({ uc with userRepo := (UserUseCase.DeleteUser ⟨uc.userRepo⟩ userID).1.userRepo }
        : ExpenseUseCase).expenseRepo.expenses.get eid.String = some E ∧
    ∃ msg, ExpenseUseCase.GetExpense
        { uc with userRepo := (UserUseCase.DeleteUser ⟨uc.userRepo⟩ userID).1.userRepo }
        expenseID = .error (Error.application "USER_NOT_FOUND" msg) := by
  have hdel : UserUseCase.DeleteUser ⟨uc.userRepo⟩ userID =
      (⟨⟨uc.userRepo.users.delete uid.String⟩⟩, none) := by
    simp [UserUseCase.DeleteUser, hid, MemoryUserRepository.Exists, hu,
      MemoryUserRepository.Delete]
  have hEu : E.userID.String = uid.String := by
    simpa [UserID.Equals, UserID.String] using hown
  refine ⟨by rw [hdel], ?_, ?_, hE, ?_⟩
  · rw [hdel]
    exact GoMap.get_delete_self _ _
  · intro k hk
    rw [hdel]
    exact GoMap.get_delete_ne _ _ _ hk
  · rw [hdel]
    refine ⟨"ユーザーが見つかりません", ?_⟩
    simp [ExpenseUseCase.GetExpense, heid, MemoryExpenseRepository.FindByID, hE,
      MemoryUserRepository.FindByID, hEu, GoMap.get_delete_self, NewApplicationError,
      UserNotFound]

/-- C12, at a state with one user owning one expense. -/
theorem DeleteUser_keeps_expenses_witness :
    (UserUseCase.DeleteUser ⟨(oneExpenseState "draft").userRepo⟩
        "11111111-1111-4111-8111-111111111111").2 = none ∧
    ∃ msg, ExpenseUseCase.GetExpense
        { oneExpenseState "draft" with
          userRepo := (UserUseCase.DeleteUser ⟨(oneExpenseState "draft").userRepo⟩
            "11111111-1111-4111-8111-111111111111").1.userRepo }
        "33333333-3333-4333-8333-333333333333"
      = .error (Error.application "USER_NOT_FOUND" msg) :=
  have h := DeleteUser_keeps_expenses (oneExpenseState "draft")
    "11111111-1111-4111-8111-111111111111" sampleUserID sampleUser
    "33333333-3333-4333-8333-333333333333" ⟨"33333333-3333-4333-8333-333333333333"⟩
    (sampleExpense "draft") rfl rfl rfl rfl rfl
  ⟨h.1, h.2.2.2.2⟩

/-- C13. After a successful `CreateExpense` returning `r` (the generated id being the
text of a UUID), `GetExpense(r.ID)` on the state left by the call succeeds and returns
`r` itself: the same id, user id, category id, inlined category, amount, currency,
title, description, date and status, and the status is `draft`. -/
theorem CreateExpense_then_GetExpense (uc : ExpenseUseCase) (userID : String)
    (req : CreateExpenseRequest) (t1 t2 now : Time) (fresh : String) (r : ExpenseResponse)
    (hfresh : NewExpenseID fresh = .ok ⟨fresh⟩)
    (h : (uc.CreateExpense userID req t1 t2 now fresh).2 = .ok r) :
    (uc.CreateExpense userID req t1 t2 now fresh).1.GetExpense r.ID = .ok r ∧
    r.Status = "draft" := by
  obtain ⟨uid, user, cid, category, amount, expense, hu, hf, hc, hcf, hm, hn, heq, hr⟩ :=
    CreateExpense_ok_inv uc userID req t1 t2 now fresh r h
  have hfields := NewExpense_fields uid cid amount req.Title req.Description req.Date
    t1 t2 now fresh expense hn
  have hidv : expense.id = ⟨fresh⟩ := by rw [hfields]
  have huid : expense.userID = uid := by rw [hfields]
  have hcid : expense.categoryID = cid := by rw [hfields]
  have hst : expense.status = ExpenseStatusDraft := by rw [hfields]
  have hrid : r.ID = fresh := by
    rw [hr]
    simp [ExpenseUseCase.buildExpenseResponse, hidv, ExpenseID.String]
  constructor
  · rw [heq, hrid]
    simp only [ExpenseUseCase.GetExpense, hfresh, MemoryExpenseRepository.FindByID, hidv,
      ExpenseID.String, GoMap.get_set_self]
    simp only [huid, hf, hcid, hcf, hr]
  · rw [hr]
    simp [ExpenseUseCase.buildExpenseResponse, hst, ExpenseStatusDraft]

/-- C13, at a state with one user and one category. -/
theorem CreateExpense_then_GetExpense_witness :
    (readyExpenseState.CreateExpense "11111111-1111-4111-8111-111111111111" sampleRequest
        sampleNow sampleNow sampleNow
        "33333333-3333-4333-8333-333333333333").1.GetExpense (sampleResponse "draft").ID
      = .ok (sampleResponse "draft") ∧
    (sampleResponse "draft").Status = "draft" :=
  CreateExpense_then_GetExpense readyExpenseState "11111111-1111-4111-8111-111111111111"
    sampleRequest sampleNow sampleNow sampleNow "33333333-3333-4333-8333-333333333333"
    (sampleResponse "draft") rfl rfl

/-! ## Listing the expenses of a user -/

/-- When the category of every expense of the list is stored, the list response holds
one response per expense, in the same order, built from that expense and its category;
a property `P` of all the expenses is carried along. -/
theorem buildExpenseListResponse_ok (uc : ExpenseUseCase) (user : User) (es : List Expense)
    (P : Expense → Prop)
    (h : ∀ e ∈ es, P e ∧ ∃ c, uc.categoryRepo.FindByID e.categoryID = .ok c) :
    ∃ rs, uc.buildExpenseListResponse user es = .ok rs ∧
      List.Forall₂ (fun r e => P e ∧ ∃ c, uc.categoryRepo.FindByID e.categoryID = .ok c ∧
        r = ExpenseUseCase.buildExpenseResponse e user c) rs es := by
  induction es with
  | nil => exact ⟨[], rfl, List.Forall₂.nil⟩
  | cons e rest ih =>
    obtain ⟨hp, c, hc⟩ := h e (List.mem_cons_self _ _)
    obtain ⟨rs, hrs, hall⟩ := ih (fun x hx => h x (List.mem_cons_of_mem _ hx))
    refine ⟨ExpenseUseCase.buildExpenseResponse e user c :: rs, ?_,
      List.Forall₂.cons ⟨hp, c, hc, rfl⟩ hall⟩
    simp [ExpenseUseCase.buildExpenseListResponse, hc, hrs]

/-- The ids of the responses are the ids of the expenses they were built from. -/
theorem response_ids (uc : ExpenseUseCase) (user : User) (rs : List ExpenseResponse)
    (es : List Expense) (P : Expense → Prop)
    (h : List.Forall₂ (fun r e => P e ∧ ∃ c, uc.categoryRepo.FindByID e.categoryID = .ok c ∧
        r = ExpenseUseCase.buildExpenseResponse e user c) rs es) :
    rs.map (fun r => r.ID) = es.map (fun e => e.id.String) := by
  induction h with
  | nil => rfl
  | cons hre _ ih =>
    obtain ⟨_, c, _, hr⟩ := hre
    simp [hr, ExpenseUseCase.buildExpenseResponse, ih]

/-- In a well-formed expense repository the stored expenses have pairwise different
ids. -/
theorem MemoryExpenseRepository.WellFormed.ids_nodup {r : MemoryExpenseRepository}
    (hwf : r.WellFormed) : (r.expenses.values.map (fun e => e.id.String)).Nodup := by
  have : r.expenses.values.map (fun e => e.id.String) = r.expenses.map (fun p => p.1) := by
    unfold GoMap.values
    rw [List.map_map]
    apply List.map_congr_left
    intro p hp
    exact (hwf.2 p hp).symm
  rw [this]
  exact hwf.1

/-- The filter of `FindByUserID` keeps the expenses whose owner is the user. -/
theorem UserID.Equals_some_iff (a b : UserID) : a.Equals (some b) = true ↔ a = b := by
  cases a
  cases b
  simp [UserID.Equals]

/-- C14. When the user is stored and the category of each of the user's stored expenses
is stored, `GetExpensesByUser` returns one response per stored expense whose owner is
that user and no other: the responses pair off with those expenses, each carrying the
id, owner, title and amount of its expense and the category inlined, and in a
well-formed repository no id occurs twice. For a malformed user id, and for a
well-formed one that is not stored, it fails and returns no list. -/
theorem GetExpensesByUser_exact (uc : ExpenseUseCase) (userID : String) :
    (∀ uid user, NewUserID userID = .ok uid → uc.userRepo.FindByID uid = .ok user →
      (∀ e ∈ uc.expenseRepo.expenses.values, e.userID = uid →
        ∃ c, uc.categoryRepo.FindByID e.categoryID = .ok c) →
      ∃ rs, uc.GetExpensesByUser userID = .ok rs ∧
        List.Forall₂ (fun r e =>
            r.ID = e.id.String ∧ r.UserID = uid.String ∧ r.Title = e.title ∧
              r.Amount = e.amount.amount ∧
              ∃ c, uc.categoryRepo.FindByID e.categoryID = .ok c ∧
                r.Category = some (categoryResponse c))
          rs (uc.expenseRepo.expenses.values.filter (fun e => decide (e.userID = uid))) ∧
        (uc.expenseRepo.WellFormed → (rs.map (fun r => r.ID)).Nodup)) ∧
    ((∃ e, NewUserID userID = .error e) → ∃ err, uc.GetExpensesByUser userID = .error err) ∧
    (∀ uid, NewUserID userID = .ok uid → uc.userRepo.users.get uid.String = none →
      ∃ err, uc.GetExpensesByUser userID = .error err) := by
  refine ⟨?_, ?_, ?_⟩
  · intro uid user hid hu hcat
    have hfilter : uc.expenseRepo.expenses.values.filter
          (fun expense => expense.userID.Equals (some uid))
        = uc.expenseRepo.expenses.values.filter (fun e => decide (e.userID = uid)) := by
      apply List.filter_congr
      intro e _
      by_cases he : e.userID = uid
      · simp [he, (UserID.Equals_some_iff uid uid).2 rfl]
      · have : e.userID.Equals (some uid) = false := by
          cases hb : e.userID.Equals (some uid)
          · rfl
          · exact absurd ((UserID.Equals_some_iff _ _).1 hb) he
        simp [he, this]
    obtain ⟨rs, hrs, hall⟩ := buildExpenseListResponse_ok uc user
      (uc.expenseRepo.expenses.values.filter (fun e => decide (e.userID = uid)))
      (fun e => e.userID = uid)
      (fun e he => by
        rw [List.mem_filter] at he
        have hown : e.userID = uid := by simpa using he.2
        exact ⟨hown, hcat e he.1 hown⟩)
    refine ⟨rs, ?_, ?_, ?_⟩
    · simp [ExpenseUseCase.GetExpensesByUser, hid, hu, MemoryExpenseRepository.FindByUserID,
        hfilter, hrs]
    · refine hall.imp ?_
      intro r e hre
      obtain ⟨hown, c, hc, hr⟩ := hre
      refine ⟨by rw [hr]; rfl, ?_, by rw [hr]; rfl, by rw [hr]; rfl, c, hc, by rw [hr]; rfl⟩
      rw [hr, ← hown]
      rfl
    · intro hwf
      rw [response_ids uc user rs _ _ hall]
      exact hwf.ids_nodup.sublist ((List.filter_sublist _).map _)
  · rintro ⟨e, he⟩
    exact ⟨NewApplicationError ValidationFailed e.Error,
      by simp [ExpenseUseCase.GetExpensesByUser, he]⟩
  · intro uid hid hget
    exact ⟨NewApplicationError UserNotFound "ユーザーが見つかりません",
      by simp [ExpenseUseCase.GetExpensesByUser, hid, MemoryUserRepository.FindByID, hget]⟩

/-- C14, at a state with one user owning one expense: the list is returned and no id
occurs twice. -/
theorem GetExpensesByUser_exact_witness :
    ∃ rs, (oneExpenseState "draft").GetExpensesByUser "11111111-1111-4111-8111-111111111111"
        = .ok rs ∧ (rs.map (fun r => r.ID)).Nodup :=
  have h := (GetExpensesByUser_exact (oneExpenseState "draft")
    "11111111-1111-4111-8111-111111111111").1 sampleUserID sampleUser rfl rfl
    (fun e he _ => by
      have : e = sampleExpense "draft" := by
        simpa [oneExpenseState, MemoryExpenseRepository.Save, NewMemoryExpenseRepository,
          GoMap.set, GoMap.values] using he
      rw [this]
      exact ⟨sampleCategory, rfl⟩)
  h.imp (fun _ hrs => ⟨hrs.1, hrs.2.2 ⟨by decide, by decide⟩⟩)

/-- C15. For a stored owner, `GetExpensesByUserAndStatus` fails with
`VALIDATION_FAILED` when the status text is not one of `draft`, `submitted`, `approved`,
`rejected`. When it is one of them and the categories of the matching expenses are
stored, it returns one response per stored expense of that owner with that status and
no other, each carrying the id, owner and status of its expense and the category
inlined; when no stored expense matches, the list is empty. -/
theorem GetExpensesByUserAndStatus_exact (uc : ExpenseUseCase) (userID status : String)
    (uid : UserID) (user : User) (hid : NewUserID userID = .ok uid)
    (hu : uc.userRepo.FindByID uid = .ok user) :
    (¬ (status = "draft" ∨ status = "submitted" ∨ status = "approved" ∨
          status = "rejected") →
      ∃ msg, uc.GetExpensesByUserAndStatus userID status
        = .error (Error.application "VALIDATION_FAILED" msg)) ∧
    ((status = "draft" ∨ status = "submitted" ∨ status = "approved" ∨
          status = "rejected") →
      (∀ e ∈ uc.expenseRepo.expenses.values, e.userID = uid → e.status = status →
        ∃ c, uc.categoryRepo.FindByID e.categoryID = .ok c) →
      ∃ rs, uc.GetExpensesByUserAndStatus userID status = .ok rs ∧
        List.Forall₂ (fun r e =>
            r.ID = e.id.String ∧ r.UserID = uid.String ∧ r.Status = status ∧
              r.Title = e.title ∧ r.Amount = e.amount.amount ∧
              ∃ c, uc.categoryRepo.FindByID e.categoryID = .ok c ∧
                r.Category = some (categoryResponse c))
          rs (uc.expenseRepo.expenses.values.filter
            (fun e => decide (e.userID = uid ∧ e.status = status))) ∧
        ((∀ e ∈ uc.expenseRepo.expenses.values, ¬ (e.userID = uid ∧ e.status = status)) →
          rs = [])) := by
  constructor
  · intro hbad
    refine ⟨"無効なステータスです", ?_⟩
    have h4 : (status == ExpenseStatusDraft || status == ExpenseStatusSubmitted ||
        status == ExpenseStatusApproved || status == ExpenseStatusRejected) = false := by
      simpa [ExpenseStatusDraft, ExpenseStatusSubmitted, ExpenseStatusApproved,
        ExpenseStatusRejected, not_or, and_assoc] using hbad
    simp only [ExpenseUseCase.GetExpensesByUserAndStatus, hid, hu, h4]
    rfl
  · intro hgood hcat
    have h4 : (status == ExpenseStatusDraft || status == ExpenseStatusSubmitted ||
        status == ExpenseStatusApproved || status == ExpenseStatusRejected) = true := by
      simpa [ExpenseStatusDraft, ExpenseStatusSubmitted, ExpenseStatusApproved,
        ExpenseStatusRejected, or_assoc] using hgood
    have hfilter : uc.expenseRepo.expenses.values.filter
          (fun expense => expense.userID.Equals (some uid) && expense.status == status)
        = uc.expenseRepo.expenses.values.filter
          (fun e => decide (e.userID = uid ∧ e.status = status)) := by
      apply List.filter_congr
      intro e _
      by_cases he : e.userID = uid
      · by_cases hs : e.status = status
        · simp [he, hs, (UserID.Equals_some_iff uid uid).2 rfl]
        · simp [he, hs, (UserID.Equals_some_iff uid uid).2 rfl]
      · have : e.userID.Equals (some uid) = false := by
          cases hb : e.userID.Equals (some uid)
          · rfl
          · exact absurd ((UserID.Equals_some_iff _ _).1 hb) he
        simp [he, this]
    obtain ⟨rs, hrs, hall⟩ := buildExpenseListResponse_ok uc user
      (uc.expenseRepo.expenses.values.filter
        (fun e => decide (e.userID = uid ∧ e.status = status)))
      (fun e => e.userID = uid ∧ e.status = status)
      (fun e he => by
        rw [List.mem_filter] at he
        have hown : e.userID = uid ∧ e.status = status := by simpa using he.2
        exact ⟨hown, hcat e he.1 hown.1 hown.2⟩)
    refine ⟨rs, ?_, ?_, ?_⟩
    · simp only [ExpenseUseCase.GetExpensesByUserAndStatus, hid, hu, h4,
        MemoryExpenseRepository.FindByUserIDAndStatus, hfilter, hrs]
      rfl
    · refine hall.imp ?_
      intro r e hre
      obtain ⟨⟨hown, hst⟩, c, hc, hr⟩ := hre
      refine ⟨by rw [hr]; rfl, ?_, ?_, by rw [hr]; rfl, by rw [hr]; rfl, c, hc,
        by rw [hr]; rfl⟩
      · rw [hr, ← hown]
        rfl
      · rw [hr, ← hst]
        rfl
    · intro hnone
      have hempty : uc.expenseRepo.expenses.values.filter
          (fun e => decide (e.userID = uid ∧ e.status = status)) = [] := by
        rw [List.filter_eq_nil_iff]
        intro e he
        simpa using hnone e he
      rw [hempty] at hall
      cases hall
      rfl

/-- C15, at a state with one user owning one approved expense: asking for `draft`
gives the empty list. -/
theorem GetExpensesByUserAndStatus_exact_witness :
    ∃ rs, (oneExpenseState "approved").GetExpensesByUserAndStatus
        "11111111-1111-4111-8111-111111111111" "draft" = .ok rs ∧ rs = [] :=
  have h := (GetExpensesByUserAndStatus_exact (oneExpenseState "approved")
    "11111111-1111-4111-8111-111111111111" "draft" sampleUserID sampleUser rfl rfl).2
    (Or.inl rfl)
    (fun e he _ hst => by
      have : e = sampleExpense "approved" := by
        simpa [oneExpenseState, MemoryExpenseRepository.Save, NewMemoryExpenseRepository,
          GoMap.set, GoMap.values] using he
      rw [this] at hst
      exact absurd hst (by decide))
  h.imp (fun _ hrs => ⟨hrs.1, hrs.2.2 (fun e he hboth => by
    have : e = sampleExpense "approved" := by
      simpa [oneExpenseState, MemoryExpenseRepository.Save, NewMemoryExpenseRepository,
        GoMap.set, GoMap.values] using he
    rw [this] at hboth
    exact absurd hboth.2 (by decide))⟩)

/-! ## Rounding to `float64` -/

/-- The binary search keeps a power of two below `n`. -/
theorem ilog2Down_le (n : Nat) (j k : Nat) (h : 2 ^ k ≤ n) : 2 ^ ilog2Down n j k ≤ n := by
  induction j generalizing k with
  | zero => simpa [ilog2Down] using h
  | succ j ih =>
    unfold ilog2Down
    split
    · next hle => exact ih _ hle
    · exact ih _ h

/-- The leading bit is not above the number. -/
theorem ilog2_le (n : Nat) (h : 1 ≤ n) : 2 ^ ilog2 n ≤ n :=
  ilog2Down_le n _ 0 (by simpa using h)

/-- Rounding an exact multiple gives the quotient. -/
theorem rneDiv_mul (k d : Nat) (hd : 0 < d) : rneDiv (k * d) d = k := by
  simp [rneDiv, Nat.mul_div_cancel _ hd, hd]

/-- The rounded quotient is at least the integer quotient. -/
theorem le_rneDiv (n d : Nat) : n / d ≤ rneDiv n d := by
  unfold rneDiv
  simp only
  split
  · exact Nat.le_refl _
  · split
    · exact Nat.le_succ _
    · split
      · exact Nat.le_refl _
      · exact Nat.le_succ _

/-- Rounding does not pass a whole bound. -/
theorem rneDiv_le (n d K : Nat) (hd : 0 < d) (h : n ≤ K * d) : rneDiv n d ≤ K := by
  have hf : n / d ≤ K := by
    calc n / d ≤ K * d / d := Nat.div_le_div_right h
      _ = K := Nat.mul_div_cancel _ hd
  have hstep : 0 < n % d → n / d + 1 ≤ K := by
    intro hr
    by_contra hlt
    have hK : n / d = K := by omega
    have hn := Nat.div_add_mod n d
    rw [hK] at hn
    have : d * K = K * d := Nat.mul_comm _ _
    omega
  unfold rneDiv
  simp only
  split
  · exact hf
  · split
    · next h1 h2 => exact hstep (by omega)
    · split
      · exact hf
      · next h1 h2 _ => exact hstep (by omega)

/-- The number of bits dropped for a magnitude below a representable one divides the
representable one. -/
theorem Representable.pow_dvd {L : Nat} (hL : Representable L) (n : Nat) (h1 : 1 ≤ n)
    (h : n ≤ L) : ∃ K, L = K * 2 ^ (ilog2 n - 52) := by
  obtain ⟨m, t, hm, rfl⟩ := hL
  have hlow := ilog2_le n h1
  have hlt : 2 ^ ilog2 n < 2 ^ (53 + t) := by
    calc 2 ^ ilog2 n ≤ n := hlow
      _ ≤ m * 2 ^ t := h
      _ < 2 ^ 53 * 2 ^ t := Nat.mul_lt_mul_of_pos_right hm (Nat.two_pow_pos _)
      _ = 2 ^ (53 + t) := (Nat.pow_add 2 53 t).symm
  have hs : ilog2 n < 53 + t := (Nat.pow_lt_pow_iff_right (by decide)).1 hlt
  have hst : ilog2 n - 52 ≤ t := by omega
  refine ⟨m * 2 ^ (t - (ilog2 n - 52)), ?_⟩
  rw [Nat.mul_assoc, ← Nat.pow_add, Nat.sub_add_cancel hst]

/-- A representable magnitude is kept by rounding: `x * d / d` rounds to `x`. -/
theorem roundQ_exact (x d : Nat) (hx : Representable x) (hd : 0 < d) :
    roundQ (x * d) d = x := by
  unfold roundQ
  simp only [Nat.mul_div_cancel _ hd]
  by_cases h0 : x = 0
  · subst h0
    have : ilog2 0 = 0 := by decide
    simp [this, rneDiv, hd]
  · obtain ⟨K, hK⟩ := hx.pow_dvd x (by omega) (Nat.le_refl _)
    have hpos : 0 < d * 2 ^ (ilog2 x - 52) := Nat.mul_pos hd (Nat.two_pow_pos _)
    have hxd : x * d = K * (d * 2 ^ (ilog2 x - 52)) := by
      conv_lhs => rw [hK]
      ring
    rw [hxd, rneDiv_mul _ _ hpos]
    exact hK.symm

/-- A quotient of at least one does not round to zero. -/
theorem roundQ_pos (n d : Nat) (hd : 0 < d) (h : d ≤ n) : 1 ≤ roundQ n d := by
  unfold roundQ
  simp only
  have hq : 1 ≤ n / d := (Nat.one_le_div_iff hd).2 h
  have hlow := ilog2_le (n / d) hq
  have hpow : 2 ^ (ilog2 (n / d) - 52) ≤ n / d :=
    Nat.le_trans (Nat.pow_le_pow_right (by decide) (Nat.sub_le _ _)) hlow
  have hpos : 0 < d * 2 ^ (ilog2 (n / d) - 52) := Nat.mul_pos hd (Nat.two_pow_pos _)
  have hle : d * 2 ^ (ilog2 (n / d) - 52) ≤ n := by
    calc d * 2 ^ (ilog2 (n / d) - 52) ≤ d * (n / d) := Nat.mul_le_mul_left _ hpow
      _ ≤ n := Nat.mul_div_le n d
  have h1 : 1 ≤ n / (d * 2 ^ (ilog2 (n / d) - 52)) := (Nat.one_le_div_iff hpos).2 hle
  have h2 := le_rneDiv n (d * 2 ^ (ilog2 (n / d) - 52))
  calc 1 = 1 * 1 := rfl
    _ ≤ rneDiv n (d * 2 ^ (ilog2 (n / d) - 52)) * 2 ^ (ilog2 (n / d) - 52) :=
      Nat.mul_le_mul (Nat.le_trans h1 h2) (Nat.two_pow_pos _)

/-- Rounding a whole magnitude does not pass a representable bound. -/
theorem roundQ_le (n L : Nat) (hL : Representable L) (h : n ≤ L) : roundQ n 1 ≤ L := by
  unfold roundQ
  simp only [Nat.div_one, Nat.one_mul]
  by_cases h0 : n = 0
  · subst h0
    have : ilog2 0 = 0 := by decide
    simp [this, rneDiv]
  · obtain ⟨K, hK⟩ := hL.pow_dvd n (by omega) h
    have hpos : 0 < 2 ^ (ilog2 n - 52) := Nat.two_pow_pos _
    have hle := rneDiv_le n (2 ^ (ilog2 n - 52)) K hpos (by rw [← hK]; exact h)
    calc rneDiv n (2 ^ (ilog2 n - 52)) * 2 ^ (ilog2 n - 52)
        ≤ K * 2 ^ (ilog2 n - 52) := Nat.mul_le_mul_right _ hle
      _ = L := hK.symm

/-- The rounded quotient is within half of the exact one. -/
theorem rneDiv_err (n d : Nat) (hd : 0 < d) :
    2 * (rneDiv n d * d) ≤ 2 * n + d ∧ 2 * n ≤ 2 * (rneDiv n d * d) + d := by
  have hn := Nat.div_add_mod n d
  have hr := Nat.mod_lt n hd
  have hc : d * (n / d) = n / d * d := Nat.mul_comm _ _
  unfold rneDiv
  simp only
  split
  · omega
  · split
    · rw [Nat.add_mul]; omega
    · split
      · omega
      · rw [Nat.add_mul]; omega

/-- The relative error of rounding to 53 bits is at most `2^-53`, for a quotient of at
least `2^52` units. -/
theorem roundQ_err (n d : Nat) (hd : 0 < d) (hq : 2 ^ 52 ≤ n / d) :
    2 ^ 53 * (roundQ n d * d) ≤ 2 ^ 53 * n + n ∧ 2 ^ 53 * n ≤ 2 ^ 53 * (roundQ n d * d) + n := by
  have hs : d * 2 ^ (ilog2 (n / d) - 52) * 2 ^ 52 ≤ n := by
    have hdq : d * (n / d) ≤ n := Nat.mul_div_le n d
    have hpow : 2 ^ (ilog2 (n / d) - 52) * 2 ^ 52 ≤ n / d := by
      by_cases h52 : 52 ≤ ilog2 (n / d)
      · rw [← Nat.pow_add, Nat.sub_add_cancel h52]
        exact ilog2_le _ (by omega)
      · have : ilog2 (n / d) - 52 = 0 := by omega
        rw [this]
        simpa using hq
    calc d * 2 ^ (ilog2 (n / d) - 52) * 2 ^ 52
        = d * (2 ^ (ilog2 (n / d) - 52) * 2 ^ 52) := Nat.mul_assoc _ _ _
      _ ≤ d * (n / d) := Nat.mul_le_mul_left _ hpow
      _ ≤ n := hdq
  have hpos : 0 < d * 2 ^ (ilog2 (n / d) - 52) := Nat.mul_pos hd (Nat.two_pow_pos _)
  obtain ⟨h1, h2⟩ := rneDiv_err n (d * 2 ^ (ilog2 (n / d) - 52)) hpos
  have heq : roundQ n d * d
      = rneDiv n (d * 2 ^ (ilog2 (n / d) - 52)) * (d * 2 ^ (ilog2 (n / d) - 52)) := by
    unfold roundQ
    simp only
    ring
  rw [heq]
  generalize rneDiv n (d * 2 ^ (ilog2 (n / d) - 52)) * (d * 2 ^ (ilog2 (n / d) - 52)) = P at *
  generalize d * 2 ^ (ilog2 (n / d) - 52) = D at *
  omega

/-- The error of rounding a magnitude `n * c / c`, with the common factor removed. -/
theorem roundQ_err_mul (n c : Nat) (hc : 0 < c) (hq : 2 ^ 52 ≤ n) :
    2 ^ 53 * roundQ (n * c) c ≤ 2 ^ 53 * n + n ∧ 2 ^ 53 * n ≤ 2 ^ 53 * roundQ (n * c) c + n := by
  obtain ⟨h1, h2⟩ := roundQ_err (n * c) c hc (by rwa [Nat.mul_div_cancel _ hc])
  have e1 : 2 ^ 53 * (roundQ (n * c) c * c) = 2 ^ 53 * roundQ (n * c) c * c := by ring
  have e2 : 2 ^ 53 * (n * c) + n * c = (2 ^ 53 * n + n) * c := by ring
  have e3 : 2 ^ 53 * (n * c) = 2 ^ 53 * n * c := by ring
  have e4 : 2 ^ 53 * (roundQ (n * c) c * c) + n * c = (2 ^ 53 * roundQ (n * c) c + n) * c := by
    ring
  rw [e1, e2] at h1
  rw [e3, e4] at h2
  exact ⟨Nat.le_of_mul_le_mul_right h1 hc, Nat.le_of_mul_le_mul_right h2 hc⟩

/-! ## Facts about `float64` operations on magnitudes -/

theorem F64.unit_pos : 0 < F64.unit := Nat.two_pow_pos _

/-- A representable magnitude below the overflow bound is packed as it is. -/
theorem F64.pack_exact (neg : Bool) (x d : Nat) (hx : Representable x) (hd : 0 < d)
    (hlt : x < F64.top) :
    F64.pack neg (x * d) d = .fin (if neg then - (x : Int) else x) := by
  unfold F64.pack
  simp only [roundQ_exact x d hx hd]
  rw [if_neg (by omega)]

/-- Whole numbers below `2^53` are `float64` values. -/
theorem F64.ofNat_eq (n : Nat) (h : n < 2 ^ 53) : F64.ofNat n = .fin ((n * F64.unit : Nat) : Int) := by
  unfold F64.ofNat
  have hx : Representable (n * F64.unit) := ⟨n, 1074, h, rfl⟩
  have hlt : n * F64.unit < F64.top := by
    have h1 : n * F64.unit < 2 ^ 53 * 2 ^ 1074 :=
      Nat.mul_lt_mul_of_pos_right h F64.unit_pos
    have h2 : (2 : Nat) ^ 53 * 2 ^ 1074 ≤ F64.top := by decide
    omega
  have := F64.pack_exact false (n * F64.unit) 1 hx (by decide) hlt
  simpa using this

theorem F64.ofNat_zero : F64.ofNat 0 = .fin 0 := by
  simpa using F64.ofNat_eq 0 (by decide)

theorem F64.mul_fin_nat (x y : Nat) :
    F64.mul (.fin (x : Int)) (.fin (y : Int)) = F64.pack false (x * y) F64.unit := by
  have hx : ¬ ((x : Int) < 0) := by omega
  have hy : ¬ ((y : Int) < 0) := by omega
  simp [F64.mul, hx, hy]

theorem F64.div_fin_nat (x y : Nat) (hy : y ≠ 0) :
    F64.div (.fin (x : Int)) (.fin (y : Int)) = F64.pack false (x * F64.unit) y := by
  have hx : ¬ ((x : Int) < 0) := by omega
  have hy2 : ¬ ((y : Int) < 0) := by omega
  simp [F64.div, hx, hy2, hy]

theorem F64.add_fin_nat (x y : Nat) :
    F64.add (.fin (x : Int)) (.fin (y : Int)) = F64.pack false (x + y) 1 := by
  have hxy : ¬ ((x : Int) + (y : Int) < 0) := by omega
  have habs : ((x : Int) + (y : Int)).natAbs = x + y := by omega
  simp [F64.add, hxy, habs]

/-- `math.Round` keeps a whole number. -/
theorem F64.Round_whole (n : Nat) :
    F64.Round (.fin ((n * F64.unit : Nat) : Int)) = .fin ((n * F64.unit : Nat) : Int) := by
  have hx : ¬ (((n * F64.unit : Nat) : Int) < 0) := by omega
  have hdiv : (2 * (n * F64.unit) + F64.unit) / (2 * F64.unit) = n := by
    have : 2 * (n * F64.unit) + F64.unit = (2 * n + 1) * F64.unit := by ring
    rw [this, Nat.mul_div_mul_right _ _ F64.unit_pos]
    omega
  simp only [F64.Round, Int.natAbs_ofNat, hdiv, hx, if_false]

theorem maxAmount_eq : maxAmount = .fin (maxAmountUnits : Int) := by decide

theorem maxAmountUnits_representable : Representable maxAmountUnits :=
  ⟨maxAmountUnits / 2 ^ 2039, 2039, by decide, by decide⟩

theorem maxAmountUnits_ge : 2 ^ 53 * F64.unit ≤ maxAmountUnits := by decide

theorem F64.unit_ge : 2 ^ 60 ≤ F64.unit := by decide

theorem F64.unit_top : 2 ^ 60 * F64.unit ≤ F64.top := by decide

theorem F64.ofNat_100 : F64.ofNat 100 = .fin ((100 * F64.unit : Nat) : Int) :=
  F64.ofNat_eq 100 (by decide)

/-- The `float64` nearest to `k/100` (the quotient of the two whole numbers, computed in
`float64`) is finite and within the relative error `2^-53` of `k/100`. -/
theorem F64.cents_fin (k : Nat) (hk : k < 2 ^ 53) :
    ∃ x : Nat, (F64.ofNat k).div (F64.ofNat 100) = .fin (x : Int) ∧
      2 ^ 53 * (100 * x) ≤ 2 ^ 53 * (k * F64.unit) + k * F64.unit ∧
      2 ^ 53 * (k * F64.unit) ≤ 2 ^ 53 * (100 * x) + k * F64.unit := by
  have hu := F64.unit_pos
  have hge := F64.unit_ge
  have htop := F64.unit_top
  by_cases h0 : k = 0
  · subst h0
    exact ⟨0, by decide, by simp, by simp⟩
  · have hne : 100 * F64.unit ≠ 0 := by omega
    have hku : F64.unit ≤ k * F64.unit := Nat.le_mul_of_pos_left _ (by omega)
    have hkU : k * F64.unit ≤ 2 ^ 53 * F64.unit := Nat.mul_le_mul_right _ (by omega)
    have hform : k * F64.unit * F64.unit = k * F64.unit / 100 * 0 + k * F64.unit * F64.unit := by
      simp
    obtain ⟨h1, h2⟩ := roundQ_err (k * F64.unit * F64.unit) (100 * F64.unit) (by omega) (by
      rw [Nat.mul_div_mul_right _ _ hu, Nat.le_div_iff_mul_le (by decide)]
      omega)
    have e1 : 2 ^ 53 * (roundQ (k * F64.unit * F64.unit) (100 * F64.unit) * (100 * F64.unit))
        = 2 ^ 53 * (100 * roundQ (k * F64.unit * F64.unit) (100 * F64.unit)) * F64.unit := by ring
    have e2 : 2 ^ 53 * (k * F64.unit * F64.unit) + k * F64.unit * F64.unit
        = (2 ^ 53 * (k * F64.unit) + k * F64.unit) * F64.unit := by ring
    have e3 : 2 ^ 53 * (k * F64.unit * F64.unit) = 2 ^ 53 * (k * F64.unit) * F64.unit := by ring
    have e4 : 2 ^ 53 * (100 * roundQ (k * F64.unit * F64.unit) (100 * F64.unit)) * F64.unit
          + k * F64.unit * F64.unit
        = (2 ^ 53 * (100 * roundQ (k * F64.unit * F64.unit) (100 * F64.unit)) + k * F64.unit)
          * F64.unit := by ring
    rw [e1, e2] at h1
    rw [e1, e3, e4] at h2
    have h1 := Nat.le_of_mul_le_mul_right h1 hu
    have h2 := Nat.le_of_mul_le_mul_right h2 hu
    refine ⟨roundQ (k * F64.unit * F64.unit) (100 * F64.unit), ?_, h1, h2⟩
    rw [F64.ofNat_eq k hk, F64.ofNat_100, F64.div_fin_nat _ _ hne]
    unfold F64.pack
    simp only
    rw [if_neg (by omega)]
    simp

theorem F64.cents_zero : (F64.ofNat 0).div (F64.ofNat 100) = .fin 0 := by decide

theorem F64.pack_zero : F64.pack false 0 1 = .fin 0 := by decide

/-! ## Money -/

/-- C16, as stated, fails: the whole number 9007199254740985 (no decimal places, far
below the limit) is accepted, but the stored amount is 9007199254740986, because the
product `amount*100` is not a `float64` value and is rounded. -/
theorem NewMoney_large_whole_amount_changes :
    F64.ofNat 9007199254740985 = .fin (9007199254740985 * F64.unit) ∧
    NewMoney (F64.ofNat 9007199254740985) "JPY"
      = .ok ⟨F64.ofNat 9007199254740986, "JPY"⟩ ∧
    F64.ofNat 9007199254740986 ≠ F64.ofNat 9007199254740985 := by
  refine ⟨by decide, rfl, by decide⟩

/-- An amount with at most two decimal places whose hundredfold is below `2^53` passes
through the rounding of `NewMoney` unchanged. -/
theorem NewMoney_round_exact (x n : Nat) (hx : Representable x)
    (hn : x * 100 = n * F64.unit) (h53 : n < 2 ^ 53) :
    ((F64.mul (.fin (x : Int)) (F64.ofNat 100)).Round).div (F64.ofNat 100)
      = .fin (x : Int) := by
  have hu := F64.unit_pos
  have h100 : F64.ofNat 100 = .fin ((100 * F64.unit : Nat) : Int) := F64.ofNat_eq 100 (by decide)
  have hrepr : Representable (n * F64.unit) := ⟨n, 1074, h53, rfl⟩
  have hntop : n * F64.unit < F64.top := by
    have h1 : n * F64.unit < 2 ^ 53 * 2 ^ 1074 := Nat.mul_lt_mul_of_pos_right h53 hu
    have h2 : (2 : Nat) ^ 53 * 2 ^ 1074 ≤ F64.top := by decide
    omega
  have hxtop : x < F64.top := by
    have : x ≤ x * 100 := Nat.le_mul_of_pos_right _ (by decide)
    omega
  have hmul : F64.mul (.fin (x : Int)) (F64.ofNat 100) = .fin ((n * F64.unit : Nat) : Int) := by
    rw [h100, F64.mul_fin_nat]
    have : x * (100 * F64.unit) = n * F64.unit * F64.unit := by
      rw [← Nat.mul_assoc, hn]
    rw [this, F64.pack_exact false _ _ hrepr hu hntop]
    rfl
  have hne : 100 * F64.unit ≠ 0 := by omega
  rw [hmul, F64.Round_whole, h100, F64.div_fin_nat _ _ hne]
  have : n * F64.unit * F64.unit = x * (100 * F64.unit) := by
    rw [← Nat.mul_assoc, hn]
  rw [this, F64.pack_exact false _ _ hx (by omega) hxtop]
  rfl

/-- `NewMoney` on an amount with at most two decimal places whose hundredfold is below
`2^53`: it succeeds and stores the amount as given. -/
theorem NewMoney_exact (x n : Nat) (currency : String) (hx : Representable x)
    (hn : x * 100 = n * F64.unit) (h53 : n < 2 ^ 53) :
    NewMoney (.fin (x : Int)) currency
      = .ok ⟨.fin (x : Int), if currency = "" then "JPY" else currency⟩ := by
  have hu := F64.unit_pos
  have h1 : F64.lt (.fin (x : Int)) (F64.ofNat 0) = false := by
    rw [F64.ofNat_zero]
    simp [F64.lt]
  have h2 : maxAmount.lt (.fin (x : Int)) = false := by
    rw [maxAmount_eq]
    have hge := maxAmountUnits_ge
    have hxle : x ≤ x * 100 := Nat.le_mul_of_pos_right _ (by decide)
    have hnlt : n * F64.unit < 2 ^ 53 * F64.unit := Nat.mul_lt_mul_of_pos_right h53 hu
    have : ¬ ((maxAmountUnits : Int) < (x : Int)) := by omega
    simp [F64.lt, this]
  unfold NewMoney
  simp only [h1, h2, Bool.false_eq_true, if_false, NewMoney_round_exact x n hx hn h53]
  simp

/-- Whole numbers with hundredfold below `2^53` are stored by `NewMoney` as given. -/
theorem NewMoney_whole (k : Nat) (currency : String) (hk : 100 * k < 2 ^ 53) :
    NewMoney (F64.ofNat k) currency
      = .ok ⟨F64.ofNat k, if currency = "" then "JPY" else currency⟩ := by
  have hk53 : k < 2 ^ 53 := by omega
  rw [F64.ofNat_eq k hk53]
  exact NewMoney_exact (k * F64.unit) (100 * k) currency ⟨k, 1074, hk53, rfl⟩ (by ring) hk

/-- `NewMoney` fails exactly on the two range checks. -/
theorem NewMoney_error_iff (amount : F64) (currency : String) :
    (∃ err, NewMoney amount currency = .error err) ↔
      (amount.lt (F64.ofNat 0) = true ∨ maxAmount.lt amount = true) := by
  unfold NewMoney
  by_cases h1 : amount.lt (F64.ofNat 0) = true
  · simp [h1]
  · by_cases h2 : maxAmount.lt amount = true
    · simp [h1, h2]
    · simp [h1, h2]

/-- The Money that a successful `NewMoney` returns. -/
theorem NewMoney_ok_eq (amount : F64) (currency : String) (m : Money)
    (h : NewMoney amount currency = .ok m) :
    m = ⟨((amount.mul (F64.ofNat 100)).Round).div (F64.ofNat 100),
      if currency = "" then "JPY" else currency⟩ := by
  unfold NewMoney at h
  split at h
  · cases h
  · split at h
    · cases h
    · cases h
      simp

/-- `NewMoney` succeeds on an amount that passes the two range checks. -/
theorem NewMoney_ok_of_range (amount : F64) (currency : String)
    (h1 : amount.lt (F64.ofNat 0) = false) (h2 : maxAmount.lt amount = false) :
    NewMoney amount currency =
      .ok ⟨((amount.mul (F64.ofNat 100)).Round).div (F64.ofNat 100),
        if currency = "" then "JPY" else currency⟩ := by
  unfold NewMoney
  simp [h1, h2]

/-- A finite value between zero and the limit passes the range checks of `NewMoney`. -/
theorem NewMoney_range_fin (r : Nat) (h : r ≤ maxAmountUnits) :
    F64.lt (.fin (r : Int)) (F64.ofNat 0) = false ∧ maxAmount.lt (.fin (r : Int)) = false := by
  rw [F64.ofNat_zero, maxAmount_eq]
  simp only [F64.lt, decide_eq_false_iff_not]
  exact ⟨by omega, by omega⟩

/-- `NewMoney` takes every finite amount that is close to `k/100` to the `float64`
nearest to `k/100`: the product with 100 rounds to the whole number `k`. -/
theorem NewMoney_snap (t k : Nat) (currency : String) (hk : k < 2 ^ 53)
    (hbig : 2 ^ 52 ≤ 100 * t)
    (h1 : 2 ^ 54 * (100 * t) + 200 * t < 2 ^ 54 * (k * F64.unit) + 2 ^ 53 * F64.unit)
    (h2 : 2 ^ 54 * (k * F64.unit) + 200 * t < 2 ^ 54 * (100 * t) + 2 ^ 53 * F64.unit) :
    NewMoney (.fin (t : Int)) currency
      = .ok ⟨(F64.ofNat k).div (F64.ofNat 100), if currency = "" then "JPY" else currency⟩ := by
  have hu := F64.unit_pos
  have hge := F64.unit_ge
  have htop := F64.unit_top
  have hmax := maxAmountUnits_ge
  have hkU : k * F64.unit ≤ 2 ^ 53 * F64.unit := Nat.mul_le_mul_right _ (by omega)
  have hne : 100 * F64.unit ≠ 0 := by omega
  obtain ⟨hr1, hr2⟩ := NewMoney_range_fin t (by omega)
  obtain ⟨hp1, hp2⟩ := roundQ_err_mul (100 * t) F64.unit hu hbig
  have hprod : t * (100 * F64.unit) = 100 * t * F64.unit := by ring
  have hmul : F64.mul (.fin (t : Int)) (F64.ofNat 100)
      = .fin ((roundQ (100 * t * F64.unit) F64.unit : Nat) : Int) := by
    rw [F64.ofNat_100, F64.mul_fin_nat, hprod]
    unfold F64.pack
    simp only
    rw [if_neg (by omega)]
    simp
  have hround : F64.Round (.fin ((roundQ (100 * t * F64.unit) F64.unit : Nat) : Int))
      = .fin ((k * F64.unit : Nat) : Int) := by
    have hnn : ¬ (((roundQ (100 * t * F64.unit) F64.unit : Nat) : Int) < 0) := by omega
    have hdiv : (2 * roundQ (100 * t * F64.unit) F64.unit + F64.unit) / (2 * F64.unit) = k := by
      have e : k * (2 * F64.unit) = 2 * (k * F64.unit) := by ring
      apply Nat.div_eq_of_lt_le
      · rw [e]; omega
      · have e2 : (k + 1) * (2 * F64.unit) = 2 * (k * F64.unit) + 2 * F64.unit := by ring
        rw [e2]; omega
    simp only [F64.Round, Int.natAbs_ofNat, hdiv, hnn, if_false]
  rw [NewMoney_ok_of_range _ _ hr1 hr2, hmul, hround, ← F64.ofNat_eq k hk]

/-- `NewMoney` stores the `float64` nearest to a two-decimal amount `k/100`, for
`k < 2^50`, as it is. -/
theorem NewMoney_cents (k : Nat) (currency : String) (hk : k < 2 ^ 50) :
    NewMoney ((F64.ofNat k).div (F64.ofNat 100)) currency
      = .ok ⟨(F64.ofNat k).div (F64.ofNat 100), if currency = "" then "JPY" else currency⟩ := by
  have hge := F64.unit_ge
  by_cases h0 : k = 0
  · subst h0
    have : (F64.ofNat 0).div (F64.ofNat 100) = F64.ofNat 0 := by decide
    rw [this]
    exact NewMoney_whole 0 currency (by decide)
  · obtain ⟨x, hx, h1, h2⟩ := F64.cents_fin k (by omega)
    have hku : F64.unit ≤ k * F64.unit := Nat.le_mul_of_pos_left _ (by omega)
    have hkU : k * F64.unit ≤ (2 ^ 50 - 1) * F64.unit := Nat.mul_le_mul_right _ (by omega)
    have := NewMoney_snap x k currency (by omega) (by omega) (by omega) (by omega)
    rw [hx] at this ⊢
    exact this

/-- C16, amended. `NewMoney` fails exactly when the amount is negative or exceeds
`MaxFloat64/100`; when it succeeds the currency is the given one, or `JPY` when the
given one is empty (so amount 0 with no currency gives 0 JPY); and the stored amount
equals the input whenever the input is exactly a two-decimal amount whose hundredfold is
below `2^53`, and whenever it is the `float64` nearest to a two-decimal amount `k/100`
with `k < 2^50` (beyond that `amount*100` is rounded in `float64` and the stored amount
can differ). -/
theorem NewMoney_result (amount : F64) (currency : String) :
    ((∃ err, NewMoney amount currency = .error err) ↔
      (amount.lt (F64.ofNat 0) = true ∨ maxAmount.lt amount = true)) ∧
    (∀ m, NewMoney amount currency = .ok m →
      m.currency = (if currency = "" then "JPY" else currency)) ∧
    NewMoney (F64.ofNat 0) "" = .ok ⟨F64.ofNat 0, "JPY"⟩ ∧
    (∀ x n : Nat, amount = .fin (x : Int) → Representable x → x * 100 = n * F64.unit →
      n < 2 ^ 53 →
      NewMoney amount currency = .ok ⟨amount, if currency = "" then "JPY" else currency⟩) ∧
    (∀ k : Nat, k < 2 ^ 50 → amount = (F64.ofNat k).div (F64.ofNat 100) →
      NewMoney amount currency = .ok ⟨amount, if currency = "" then "JPY" else currency⟩) := by
  refine ⟨NewMoney_error_iff amount currency, ?_, rfl, ?_, ?_⟩
  · intro m hm
    rw [NewMoney_ok_eq amount currency m hm]
  · intro x n hamount hx hn h53
    subst hamount
    exact NewMoney_exact x n currency hx hn h53
  · intro k hk hamount
    subst hamount
    exact NewMoney_cents k currency hk

/-- C16 amended, at the amount 100.55 (the `float64` nearest to it) with no currency:
the result is 100.55 JPY. -/
theorem NewMoney_result_witness :
    NewMoney ((F64.ofNat 10055).div (F64.ofNat 100)) ""
      = .ok ⟨(F64.ofNat 10055).div (F64.ofNat 100), "JPY"⟩ :=
  (NewMoney_result ((F64.ofNat 10055).div (F64.ofNat 100)) "").2.2.2.2 10055 (by decide) rfl

/-- C17. For two Money values with different currencies, `Add` and `Subtract` return an
error (and no Money), and `IsGreaterThan`, `IsLessThan` and `Equals` return false,
whatever the amounts. -/
theorem Money_different_currencies (a b : Money) (h : a.currency ≠ b.currency) :
    (∃ err, a.Add b = .error err) ∧ (∃ err, a.Subtract b = .error err) ∧
    a.IsGreaterThan b = false ∧ a.IsLessThan b = false ∧ a.Equals (some b) = false := by
  simp [Money.Add, Money.Subtract, Money.IsGreaterThan, Money.IsLessThan, Money.Equals, h]

/-- C17, at 100 JPY and 100 USD. -/
theorem Money_different_currencies_witness :
    (∃ err, (Money.mk (F64.ofNat 100) "JPY").Add (Money.mk (F64.ofNat 100) "USD")
        = .error err) ∧
    (∃ err, (Money.mk (F64.ofNat 100) "JPY").Subtract (Money.mk (F64.ofNat 100) "USD")
        = .error err) ∧
    (Money.mk (F64.ofNat 100) "JPY").IsGreaterThan (Money.mk (F64.ofNat 100) "USD") = false ∧
    (Money.mk (F64.ofNat 100) "JPY").IsLessThan (Money.mk (F64.ofNat 100) "USD") = false ∧
    (Money.mk (F64.ofNat 100) "JPY").Equals (some (Money.mk (F64.ofNat 100) "USD")) = false :=
  Money_different_currencies _ _ (by decide)

/-- The product of two finite values one of which is zero is zero. -/
theorem F64.mul_zero_product (z w : Int) (h : z = 0 ∨ w = 0) :
    F64.mul (.fin z) (.fin w) = .fin 0 := by
  have hn : z.natAbs * w.natAbs = 0 := by
    rcases h with h | h <;> simp [h]
  have hr : roundQ 0 F64.unit = 0 := by
    simpa using roundQ_exact 0 F64.unit ⟨0, 0, by decide, by simp⟩ F64.unit_pos
  have htop : ¬ F64.top ≤ 0 := by decide
  simp only [F64.mul, F64.pack, hn, hr, htop, if_false]
  split <;> simp

/-- `NewMoney` stores the amount zero as zero. -/
theorem NewMoney_zero (currency : String) :
    NewMoney (.fin 0) currency = .ok ⟨.fin 0, if currency = "" then "JPY" else currency⟩ :=
  NewMoney_exact 0 0 currency ⟨0, 0, by decide, by simp⟩ (by simp) (by decide)

/-- A product of a positive and a negative finite value whose exact magnitude is at
least one unit is below zero. -/
theorem F64.mul_neg_lt_zero (z w : Int) (hz : 0 < z) (hw : w < 0)
    (hbig : (F64.unit : Int) ≤ z * (-w)) :
    (F64.mul (.fin z) (.fin w)).lt (F64.ofNat 0) = true := by
  have hzn : ¬ z < 0 := by omega
  have hn : F64.unit ≤ z.natAbs * w.natAbs := by
    have h1 : ((z.natAbs * w.natAbs : Nat) : Int) = z * (-w) := by
      rw [Nat.cast_mul, Int.natAbs_of_nonneg (by omega : 0 ≤ z),
        Int.ofNat_natAbs_of_nonpos (by omega : w ≤ 0)]
    omega
  have hpos := roundQ_pos (z.natAbs * w.natAbs) F64.unit F64.unit_pos hn
  rw [F64.ofNat_zero]
  simp only [F64.mul, F64.pack, hzn, hw, decide_False, decide_True]
  split
  · rfl
  · simp only [F64.lt]
    simp
    omega

/-- C19 at the failing input. The Money of amount zero (as `NewMoney(0, "JPY")` returns
it) multiplied by the negative number -1: `Multiply` has no check of the multiplier, the
product zero passes the checks of `NewMoney`, and the call succeeds with amount zero,
where a negative multiplier is to be refused. -/
theorem Multiply_zero_by_negative_succeeds :
    NewMoney (F64.ofNat 0) "JPY" = .ok ⟨.fin 0, "JPY"⟩ ∧
    (F64.neg (F64.ofNat 1)).lt (F64.ofNat 0) = true ∧
    (Money.mk (.fin 0) "JPY").Multiply (F64.neg (F64.ofNat 1)) = .ok ⟨.fin 0, "JPY"⟩ := by
  refine ⟨rfl, by decide, rfl⟩

/-- What `Multiply` computes for a Money `m` of finite amount. The only refusal is the one
of `NewMoney` for a product below zero: with a negative finite multiplier the call fails
whenever the amount is positive and the exact product has a magnitude of at least
`2^-1074` (so whenever the amount is at least 1), and it fails for the multiplier minus
infinity and a positive amount; with amount zero the product is zero whatever the finite
multiplier, negative ones included, and the call returns zero; and for the multiplier 0
it returns zero; the result is in `m`'s currency (`JPY` when that is empty). -/
theorem Multiply_result (m : Money) (k : F64) (z : Int) (hz : m.amount = .fin z) :
    (∀ w, k = .fin w → w < 0 → 0 < z → (F64.unit : Int) ≤ z * (-w) →
      ∃ err, m.Multiply k = .error err) ∧
    (∀ w, k = .fin w → w < 0 → (F64.unit : Int) ≤ z → ∃ err, m.Multiply k = .error err) ∧
    (k = .inf true → 0 < z → ∃ err, m.Multiply k = .error err) ∧
    (∀ w, k = .fin w → z = 0 →
      m.Multiply k = .ok ⟨.fin 0, if m.currency = "" then "JPY" else m.currency⟩) ∧
    (k = F64.ofNat 0 →
      m.Multiply k = .ok ⟨F64.ofNat 0, if m.currency = "" then "JPY" else m.currency⟩) := by
  have hu := F64.unit_pos
  refine ⟨?_, ?_, ?_, ?_, ?_⟩
  · intro w hk hw hzpos hbig
    unfold Money.Multiply
    rw [hz, hk]
    exact NewMoney_negative _ _ (F64.mul_neg_lt_zero z w hzpos hw hbig)
  · intro w hk hw hz1
    unfold Money.Multiply
    rw [hz, hk]
    have hzpos : 0 < z := by omega
    have hbig : (F64.unit : Int) ≤ z * (-w) := by
      have h1 : z * 1 ≤ z * (-w) := Int.mul_le_mul_of_nonneg_left (by omega) (by omega)
      omega
    exact NewMoney_negative _ _ (F64.mul_neg_lt_zero z w hzpos hw hbig)
  · intro hk hzpos
    unfold Money.Multiply
    rw [hz, hk]
    have hz0 : ¬ z = 0 := by omega
    have hzn : ¬ z < 0 := by omega
    refine NewMoney_negative _ _ ?_
    rw [F64.ofNat_zero]
    simp [F64.mul, hz0, hzn, F64.lt]
  · intro w hk hz0
    unfold Money.Multiply
    rw [hz, hk, F64.mul_zero_product z w (Or.inl hz0)]
    exact NewMoney_zero _
  · intro hk
    unfold Money.Multiply
    rw [hz, hk, F64.ofNat_zero, F64.mul_zero_product z 0 (Or.inr rfl)]
    exact NewMoney_zero _

/-- At 100 JPY and the multiplier -2 the call fails. -/
theorem Multiply_result_witness :
    ∃ err, (Money.mk (.fin (100 * F64.unit)) "JPY").Multiply (.fin (-2 * F64.unit))
      = .error err :=
  (Multiply_result (Money.mk (.fin (100 * F64.unit)) "JPY") (.fin (-2 * F64.unit))
    (100 * F64.unit) rfl).2.1 (-2 * F64.unit) rfl (by decide) (by decide)

theorem maxAmountUnits_lt_top : maxAmountUnits < F64.top := by decide

/-- What `InRange` says of a finite amount. -/
theorem Money.InRange.fin {c : String} {z : Int} (h : Money.InRange ⟨.fin z, c⟩) :
    0 ≤ z ∧ z ≤ (maxAmountUnits : Int) ∧ Representable z.natAbs := by
  obtain ⟨hf, h1, h2⟩ := h
  rw [F64.ofNat_zero] at h1
  rw [maxAmount_eq] at h2
  simp only [F64.lt, decide_eq_false_iff_not] at h1 h2
  exact ⟨by omega, by omega, hf⟩

/-- An infinite amount is not in range. -/
theorem Money.InRange.not_inf {c : String} {s : Bool} (h : Money.InRange ⟨.inf s, c⟩) :
    False := by
  obtain ⟨_, h1, h2⟩ := h
  rw [F64.ofNat_zero] at h1
  rw [maxAmount_eq] at h2
  cases s <;> simp [F64.lt] at h1 h2

theorem F64.sub_fin (za zb : Int) :
    F64.sub (.fin za) (.fin zb) = F64.pack (decide (za - zb < 0)) (za - zb).natAbs 1 := by
  simp [F64.sub, F64.neg, F64.add, Int.sub_eq_add_neg]

/-- The difference of a smaller and a larger finite value is below zero. -/
theorem F64.sub_lt_zero (za zb : Int) (h : za < zb) :
    (F64.sub (.fin za) (.fin zb)).lt (F64.ofNat 0) = true := by
  have hneg : za - zb < 0 := by omega
  have hn : 1 ≤ (za - zb).natAbs := by omega
  have hpos := roundQ_pos (za - zb).natAbs 1 (by decide) hn
  rw [F64.sub_fin, F64.ofNat_zero]
  simp only [F64.pack, hneg, decide_True, if_true]
  split
  · rfl
  · simp [F64.lt]
    omega

/-- The difference of two finite values in range, the first not smaller, is a finite
value in range. -/
theorem F64.sub_in_range (za zb : Int) (h : zb ≤ za) (h0 : 0 ≤ zb)
    (hL : za ≤ (maxAmountUnits : Int)) :
    ∃ r : Nat, F64.sub (.fin za) (.fin zb) = .fin (r : Int) ∧ r ≤ maxAmountUnits := by
  have hneg : ¬ za - zb < 0 := by omega
  have hle : (za - zb).natAbs ≤ maxAmountUnits := by omega
  have hr := roundQ_le (za - zb).natAbs maxAmountUnits maxAmountUnits_representable hle
  have htop := maxAmountUnits_lt_top
  refine ⟨roundQ (za - zb).natAbs 1, ?_, hr⟩
  rw [F64.sub_fin]
  simp only [F64.pack, hneg, decide_False]
  rw [if_neg (by omega)]
  simp

/-- `NewMoney` on the `float64` difference of two two-decimal amounts `ka/100` and
`kb/100` below `2^48/100`: the amount stored is the `float64` nearest to the exact
difference `(ka - kb)/100`. -/
theorem NewMoney_sub_cents (ka kb : Nat) (currency : String) (hle : kb ≤ ka)
    (hka : ka < 2 ^ 48) :
    NewMoney (((F64.ofNat ka).div (F64.ofNat 100)).sub ((F64.ofNat kb).div (F64.ofNat 100)))
        currency
      = .ok ⟨(F64.ofNat (ka - kb)).div (F64.ofNat 100),
          if currency = "" then "JPY" else currency⟩ := by
  have hu := F64.unit_pos
  have hge := F64.unit_ge
  have htop := F64.unit_top
  by_cases heq : ka = kb
  · subst heq
    obtain ⟨x, hx, -, -⟩ := F64.cents_fin ka (by omega)
    rw [hx, F64.sub_fin, Nat.sub_self]
    simp only [Int.sub_self, Int.natAbs_zero, Int.lt_irrefl, decide_False]
    rw [F64.pack_zero, ← F64.cents_zero]
    exact NewMoney_cents 0 currency (by decide)
  · obtain ⟨xa, hxa, ha1, ha2⟩ := F64.cents_fin ka (by omega)
    obtain ⟨xb, hxb, hb1, hb2⟩ := F64.cents_fin kb (by omega)
    have hkaU : ka * F64.unit ≤ (2 ^ 48 - 1) * F64.unit := Nat.mul_le_mul_right _ (by omega)
    have hstep : (kb + 1) * F64.unit ≤ ka * F64.unit := Nat.mul_le_mul_right _ (by omega)
    rw [Nat.add_mul, Nat.one_mul] at hstep
    have hsubU : (ka - kb) * F64.unit = ka * F64.unit - kb * F64.unit := Nat.sub_mul _ _ _
    have hxle : xb ≤ xa := by omega
    have hneg : ¬ ((xa : Int) - (xb : Int) < 0) := by omega
    have habs : ((xa : Int) - (xb : Int)).natAbs = xa - xb := by omega
    obtain ⟨hd1, hd2⟩ := roundQ_err_mul (xa - xb) 1 (by decide) (by omega)
    rw [Nat.mul_one] at hd1 hd2
    have hsub : F64.sub (.fin (xa : Int)) (.fin (xb : Int))
        = .fin ((roundQ (xa - xb) 1 : Nat) : Int) := by
      rw [F64.sub_fin, habs]
      simp only [hneg, decide_False]
      unfold F64.pack
      simp only
      rw [if_neg (by omega)]
      simp
    rw [hxa, hxb, hsub]
    exact NewMoney_snap (roundQ (xa - xb) 1) (ka - kb) currency (by omega) (by omega)
      (by omega) (by omega)

/-- C18, as stated, fails: 9007199254740986 JPY minus 1 JPY (both as `NewMoney` returns
them) is accepted, the `float64` difference is 9007199254740985, and the Money returned
holds 9007199254740986, not the difference. -/
theorem Subtract_large_amount_not_difference :
    NewMoney (F64.ofNat 9007199254740986) "JPY"
      = .ok ⟨F64.ofNat 9007199254740986, "JPY"⟩ ∧
    NewMoney (F64.ofNat 1) "JPY" = .ok ⟨F64.ofNat 1, "JPY"⟩ ∧
    (F64.ofNat 9007199254740986).sub (F64.ofNat 1) = F64.ofNat 9007199254740985 ∧
    (Money.mk (F64.ofNat 9007199254740986) "JPY").Subtract (Money.mk (F64.ofNat 1) "JPY")
      = .ok ⟨F64.ofNat 9007199254740986, "JPY"⟩ ∧
    F64.ofNat 9007199254740986 ≠ F64.ofNat 9007199254740985 := by
  refine ⟨rfl, rfl, by decide, rfl, by decide⟩

/-- C18, amended. For two Money values `a` and `b` of the same currency whose amounts
are `float64` values within the range that `NewMoney` accepts, `a.Subtract(b)` fails
exactly when `a`'s amount is smaller than `b`'s; otherwise it returns a Money of that
currency (`JPY` when it is empty) whose amount is the `float64` difference rounded to
two decimals by `NewMoney`; this is the exact difference when both amounts are whole
numbers and the hundredfold of `a`'s is below `2^53`, and it is the `float64` nearest to
the exact difference `(ka - kb)/100` when the amounts are the `float64` values nearest
to two-decimal amounts `ka/100` and `kb/100` with `ka < 2^48`. -/
theorem Subtract_result (a b : Money) (hcur : a.currency = b.currency)
    (ha : a.InRange) (hb : b.InRange) :
    ((∃ err, a.Subtract b = .error err) ↔ a.amount.lt b.amount = true) ∧
    (∀ r, a.Subtract b = .ok r →
      r = ⟨(((a.amount.sub b.amount).mul (F64.ofNat 100)).Round).div (F64.ofNat 100),
        if a.currency = "" then "JPY" else a.currency⟩) ∧
    (∀ x y : Nat, a.amount = F64.ofNat x → b.amount = F64.ofNat y → y ≤ x →
      100 * x < 2 ^ 53 →
      a.Subtract b = .ok ⟨F64.ofNat (x - y), if a.currency = "" then "JPY" else a.currency⟩) ∧
    (∀ ka kb : Nat, a.amount = (F64.ofNat ka).div (F64.ofNat 100) →
      b.amount = (F64.ofNat kb).div (F64.ofNat 100) → kb ≤ ka → ka < 2 ^ 48 →
      a.Subtract b = .ok ⟨(F64.ofNat (ka - kb)).div (F64.ofNat 100),
        if a.currency = "" then "JPY" else a.currency⟩) := by
  have hdef : a.Subtract b = NewMoney (a.amount.sub b.amount) a.currency := by
    simp [Money.Subtract, hcur]
  refine ⟨?_, ?_, ?_, ?_⟩
  · rw [hdef, NewMoney_error_iff]
    obtain ⟨aa, ac⟩ := a
    obtain ⟨ba, bc⟩ := b
    cases aa with
    | nan => simp [F64.sub, F64.add, F64.lt]
    | inf s => exact absurd ha.not_inf id
    | fin za =>
      cases ba with
      | nan => simp [F64.sub, F64.neg, F64.add, F64.lt]
      | inf s => exact absurd hb.not_inf id
      | fin zb =>
        obtain ⟨ha0, haL, _⟩ := ha.fin
        obtain ⟨hb0, hbL, _⟩ := hb.fin
        dsimp only
        by_cases hlt : za < zb
        · exact ⟨fun _ => by simp [F64.lt, hlt], fun _ => Or.inl (F64.sub_lt_zero za zb hlt)⟩
        · obtain ⟨r, hr, hrL⟩ := F64.sub_in_range za zb (by omega) hb0 haL
          obtain ⟨h1, h2⟩ := NewMoney_range_fin r hrL
          rw [hr, h1, h2]
          simp [F64.lt, hlt]
  · intro r hr
    rw [hdef] at hr
    exact NewMoney_ok_eq _ _ r hr
  · intro x y hax hby hyx hx
    have hx53 : x < 2 ^ 53 := by omega
    have hy53 : y < 2 ^ 53 := by omega
    have hsub : a.amount.sub b.amount = F64.ofNat (x - y) := by
      rw [hax, hby, F64.ofNat_eq x hx53, F64.ofNat_eq y hy53, F64.ofNat_eq (x - y) (by omega),
        F64.sub_fin]
      have hmul : y * F64.unit ≤ x * F64.unit := Nat.mul_le_mul_right _ hyx
      have hneg : ¬ (((x * F64.unit : Nat) : Int) - ((y * F64.unit : Nat) : Int) < 0) := by
        omega
      have habs : (((x * F64.unit : Nat) : Int) - ((y * F64.unit : Nat) : Int)).natAbs
          = (x - y) * F64.unit := by
        rw [Nat.sub_mul]
        omega
      rw [habs]
      simp only [hneg, decide_False]
      have := F64.pack_exact false ((x - y) * F64.unit) 1 ⟨x - y, 1074, by omega, rfl⟩
        (by decide) (by
          have h1 : (x - y) * F64.unit < 2 ^ 53 * 2 ^ 1074 :=
            Nat.mul_lt_mul_of_pos_right (by omega) F64.unit_pos
          have h2 : (2 : Nat) ^ 53 * 2 ^ 1074 ≤ F64.top := by decide
          omega)
      simpa using this
    rw [hdef, hsub]
    exact NewMoney_whole (x - y) a.currency (by omega)
  · intro ka kb hax hby hle hka
    rw [hdef, hax, hby]
    exact NewMoney_sub_cents ka kb a.currency hle hka

/-- C18 amended, at 100 JPY minus 30 JPY: the result is 70 JPY. -/
theorem Subtract_result_witness :
    (Money.mk (F64.ofNat 100) "JPY").Subtract (Money.mk (F64.ofNat 30) "JPY")
      = .ok ⟨F64.ofNat 70, "JPY"⟩ :=
  (Subtract_result (Money.mk (F64.ofNat 100) "JPY") (Money.mk (F64.ofNat 30) "JPY") rfl
    ⟨⟨100, 1074, by decide, by decide⟩, by decide, by decide⟩
    ⟨⟨30, 1074, by decide, by decide⟩, by decide, by decide⟩).2.2.1 100 30 rfl rfl
    (by decide) (by decide)

/-- A value packed with the positive sign is not below zero. -/
theorem F64.pack_false_not_lt (n d : Nat) : (F64.pack false n d).lt (.fin 0) = false := by
  unfold F64.pack
  simp only
  split
  · rfl
  · simp [F64.lt]

/-- A value packed with the positive sign is plus infinity or a finite value that is not
negative. -/
theorem F64.pack_false_cases (n d : Nat) :
    F64.pack false n d = .inf false ∨ ∃ r : Nat, F64.pack false n d = .fin (r : Int) := by
  unfold F64.pack
  simp only
  split
  · exact Or.inl rfl
  · exact Or.inr ⟨roundQ n d, by simp⟩

/-- Multiplying by a positive whole magnitude, rounding to a whole number and dividing by
the magnitude again takes a value that is not below zero to one that is not below zero. -/
theorem F64.mul_Round_div_not_lt (amount : F64) (c : Nat) (hc : c ≠ 0)
    (h : amount.lt (.fin 0) = false) :
    (((amount.mul (.fin (c : Int))).Round).div (.fin (c : Int))).lt (.fin 0) = false := by
  have hne : ¬ (c : Int) = 0 := by omega
  have hnn : ¬ (c : Int) < 0 := by omega
  cases amount with
  | nan => rfl
  | inf s =>
    cases s
    · simp [F64.mul, F64.Round, F64.div, F64.lt, hne, hnn, hc]
    · simp [F64.lt] at h
  | fin z =>
    have hz : ¬ z < 0 := by simpa [F64.lt] using h
    have hmul : F64.mul (.fin z) (.fin (c : Int)) = F64.pack false (z.natAbs * c) F64.unit := by
      simp [F64.mul, hz, hnn]
    rw [hmul]
    rcases F64.pack_false_cases (z.natAbs * c) F64.unit with hp | ⟨r, hp⟩
    · rw [hp]
      simp [F64.Round, F64.div, F64.lt, hnn]
    · rw [hp]
      have hr : ¬ ((r : Int) < 0) := by omega
      have hround : F64.Round (.fin (r : Int))
          = .fin (((2 * r + F64.unit) / (2 * F64.unit) * F64.unit : Nat) : Int) := by
        simp only [F64.Round, Int.natAbs_ofNat, hr, if_false]
      rw [hround, F64.div_fin_nat _ _ hc]
      exact F64.pack_false_not_lt _ _

/-- The rounding of `NewMoney` takes an amount that is not below zero to one that is not
below zero. -/
theorem NewMoney_round_not_lt (amount : F64) (h : amount.lt (.fin 0) = false) :
    (((amount.mul (F64.ofNat 100)).Round).div (F64.ofNat 100)).lt (.fin 0) = false := by
  have h100 : F64.ofNat 100 = .fin ((100 * F64.unit : Nat) : Int) := F64.ofNat_eq 100 (by decide)
  have hu := F64.unit_pos
  rw [h100]
  exact F64.mul_Round_div_not_lt amount (100 * F64.unit) (by omega) h

/-- A Money returned by `NewMoney` has a currency and an amount that is not below zero. -/
theorem NewMoney_built (amount : F64) (currency : String) (m : Money)
    (h : NewMoney amount currency = .ok m) : m.Built := by
  have hm := NewMoney_ok_eq amount currency m h
  have hlt : amount.lt (.fin 0) = false := by
    have hnot : ¬ ∃ err, NewMoney amount currency = .error err := by
      rintro ⟨err, he⟩
      rw [h] at he
      cases he
    rw [NewMoney_error_iff, F64.ofNat_zero] at hnot
    cases hb : amount.lt (.fin 0)
    · rfl
    · exact absurd (Or.inl hb) hnot
  rw [hm]
  constructor
  · by_cases hc : currency = ""
    · simp [hc]
    · simp [hc]
  · rw [F64.ofNat_zero]
    exact NewMoney_round_not_lt amount hlt

theorem F64.add_comm (x y : F64) : x.add y = y.add x := by
  cases x <;> cases y <;> simp [F64.add, Int.add_comm]
  next s t =>
    cases s <;> cases t <;> simp

/-- The sum of two amounts that are not below zero is not below zero. -/
theorem F64.add_not_lt (x y : F64) (hx : x.lt (.fin 0) = false) (hy : y.lt (.fin 0) = false) :
    (x.add y).lt (.fin 0) = false := by
  cases x with
  | nan => cases y <;> rfl
  | inf s =>
    cases s
    · cases y with
      | nan => rfl
      | inf t =>
        cases t
        · rfl
        · simp [F64.lt] at hy
      | fin zb => rfl
    · simp [F64.lt] at hx
  | fin za =>
    cases y with
    | nan => rfl
    | inf t =>
      cases t
      · rfl
      · simp [F64.lt] at hy
    | fin zb =>
      have ha : ¬ za < 0 := by simpa [F64.lt] using hx
      have hb : ¬ zb < 0 := by simpa [F64.lt] using hy
      have hab : ¬ za + zb < 0 := by omega
      simp only [F64.add, hab, decide_False]
      exact F64.pack_false_not_lt _ _

/-- `NewMoney` on the `float64` sum of two two-decimal amounts `ka/100` and `kb/100`
with `ka + kb < 2^48`: the amount stored is the `float64` nearest to the exact sum
`(ka + kb)/100`. -/
theorem NewMoney_add_cents (ka kb : Nat) (currency : String) (hk : ka + kb < 2 ^ 48) :
    NewMoney (((F64.ofNat ka).div (F64.ofNat 100)).add ((F64.ofNat kb).div (F64.ofNat 100)))
        currency
      = .ok ⟨(F64.ofNat (ka + kb)).div (F64.ofNat 100),
          if currency = "" then "JPY" else currency⟩ := by
  have hu := F64.unit_pos
  have hge := F64.unit_ge
  have htop := F64.unit_top
  by_cases heq : ka + kb = 0
  · have h1 : ka = 0 := by omega
    have h2 : kb = 0 := by omega
    subst h1
    subst h2
    rw [F64.cents_zero]
    have : F64.add (.fin 0) (.fin 0) = .fin 0 := by decide
    rw [this, ← F64.cents_zero]
    exact NewMoney_cents 0 currency (by decide)
  · obtain ⟨xa, hxa, ha1, ha2⟩ := F64.cents_fin ka (by omega)
    obtain ⟨xb, hxb, hb1, hb2⟩ := F64.cents_fin kb (by omega)
    have hkU : (ka + kb) * F64.unit ≤ (2 ^ 48 - 1) * F64.unit :=
      Nat.mul_le_mul_right _ (by omega)
    have hstep : 1 * F64.unit ≤ (ka + kb) * F64.unit := Nat.mul_le_mul_right _ (by omega)
    have haddU : (ka + kb) * F64.unit = ka * F64.unit + kb * F64.unit := Nat.add_mul _ _ _
    rw [haddU] at hkU hstep
    rw [Nat.one_mul] at hstep
    obtain ⟨hd1, hd2⟩ := roundQ_err_mul (xa + xb) 1 (by decide) (by omega)
    rw [Nat.mul_one] at hd1 hd2
    have hadd : F64.add (.fin (xa : Int)) (.fin (xb : Int))
        = .fin ((roundQ (xa + xb) 1 : Nat) : Int) := by
      rw [F64.add_fin_nat]
      unfold F64.pack
      simp only
      rw [if_neg (by omega)]
      simp
    rw [hxa, hxb, hadd]
    exact NewMoney_snap (roundQ (xa + xb) 1) (ka + kb) currency (by omega) (by omega)
      (by omega) (by omega)

theorem F64.eq_self (x : F64) (h : x ≠ .nan) : x.eq x = true := by
  cases x with
  | nan => exact absurd rfl h
  | inf s => simp [F64.eq]
  | fin z => simp [F64.eq]

theorem F64.pack_ne_nan (neg : Bool) (n d : Nat) : F64.pack neg n d ≠ .nan := by
  unfold F64.pack
  simp only
  split
  · exact fun h => F64.noConfusion h
  · exact fun h => F64.noConfusion h

/-- The sum of two numbers that are not below zero is a number. -/
theorem F64.add_ne_nan (x y : F64) (hx : x ≠ .nan) (hy : y ≠ .nan)
    (hx0 : x.lt (.fin 0) = false) (hy0 : y.lt (.fin 0) = false) : x.add y ≠ .nan := by
  cases x with
  | nan => exact absurd rfl hx
  | inf s =>
    cases y with
    | nan => exact absurd rfl hy
    | inf t =>
      cases s
      · cases t
        · exact fun h => F64.noConfusion h
        · simp [F64.lt] at hy0
      · simp [F64.lt] at hx0
    | fin zb => exact fun h => F64.noConfusion h
  | fin za =>
    cases y with
    | nan => exact absurd rfl hy
    | inf t => exact fun h => F64.noConfusion h
    | fin zb => exact F64.pack_ne_nan _ _ _

/-- Multiplying a number that is not below zero by a positive whole magnitude, rounding to
a whole number and dividing by the magnitude again gives a number. -/
theorem F64.mul_Round_div_ne_nan (amount : F64) (c : Nat) (hc : c ≠ 0) (h : amount ≠ .nan)
    (h0 : amount.lt (.fin 0) = false) :
    ((amount.mul (.fin (c : Int))).Round).div (.fin (c : Int)) ≠ .nan := by
  have hne : ¬ (c : Int) = 0 := by omega
  have hnn : ¬ (c : Int) < 0 := by omega
  cases amount with
  | nan => exact absurd rfl h
  | inf s =>
    cases s
    · simp [F64.mul, F64.Round, F64.div, hne, hnn, hc]
    · simp [F64.lt] at h0
  | fin z =>
    have hz : ¬ z < 0 := by simpa [F64.lt] using h0
    have hmul : F64.mul (.fin z) (.fin (c : Int)) = F64.pack false (z.natAbs * c) F64.unit := by
      simp [F64.mul, hz, hnn]
    rw [hmul]
    rcases F64.pack_false_cases (z.natAbs * c) F64.unit with hp | ⟨r, hp⟩
    · rw [hp]
      simp [F64.Round, F64.div]
    · rw [hp]
      have hr : ¬ ((r : Int) < 0) := by omega
      have hround : F64.Round (.fin (r : Int))
          = .fin (((2 * r + F64.unit) / (2 * F64.unit) * F64.unit : Nat) : Int) := by
        simp only [F64.Round, Int.natAbs_ofNat, hr, if_false]
      rw [hround, F64.div_fin_nat _ _ hc]
      exact F64.pack_ne_nan _ _ _

/-- The rounding of `NewMoney` takes a number that is not below zero to a number. -/
theorem NewMoney_round_ne_nan (amount : F64) (h : amount ≠ .nan)
    (h0 : amount.lt (.fin 0) = false) :
    ((amount.mul (F64.ofNat 100)).Round).div (F64.ofNat 100) ≠ .nan := by
  have hu := F64.unit_pos
  rw [F64.ofNat_100]
  exact F64.mul_Round_div_ne_nan amount (100 * F64.unit) (by omega) h h0

/-- C20, as stated, fails: 9007199254740984 JPY plus 1 JPY (both as `NewMoney` returns
them; the sum is far below the limit) is accepted, the `float64` sum is
9007199254740985, a whole number, and the Money returned holds 9007199254740986, not the
sum. -/
theorem Add_large_amounts_not_sum :
    NewMoney (F64.ofNat 9007199254740984) "JPY"
      = .ok ⟨F64.ofNat 9007199254740984, "JPY"⟩ ∧
    NewMoney (F64.ofNat 1) "JPY" = .ok ⟨F64.ofNat 1, "JPY"⟩ ∧
    (F64.ofNat 9007199254740984).add (F64.ofNat 1) = F64.ofNat 9007199254740985 ∧
    maxAmount.lt ((F64.ofNat 9007199254740984).add (F64.ofNat 1)) = false ∧
    (Money.mk (F64.ofNat 9007199254740984) "JPY").Add (Money.mk (F64.ofNat 1) "JPY")
      = .ok ⟨F64.ofNat 9007199254740986, "JPY"⟩ ∧
    F64.ofNat 9007199254740986 ≠ F64.ofNat 9007199254740985 := by
  refine ⟨rfl, rfl, by decide, by decide, rfl, by decide⟩

/-- C20, amended. For two Money values `a` and `b` as `NewMoney` builds them (currency
not empty, amount not below zero) of the same currency whose `float64` sum does not
exceed the limit `MaxFloat64/100`, `a.Add(b)` succeeds with that currency and with the
amount `math.Round(sum*100)/100` computed in `float64`; `a.Add(b)` and `b.Add(a)` return
the same Money, and `Equals` holds between the two when the amounts are numbers; the
amount is the exact sum for whole amounts with the hundredfold of the sum below `2^53`,
and it is the `float64` nearest to the exact sum `(ka + kb)/100` when the amounts are
the `float64` values nearest to two-decimal amounts `ka/100` and `kb/100` with
`ka + kb < 2^48`. -/
theorem Add_result (a b : Money) (hcur : a.currency = b.currency) (ha : a.Built)
    (hb : b.Built) (hsum : maxAmount.lt (a.amount.add b.amount) = false) :
    a.Add b = .ok ⟨(((a.amount.add b.amount).mul (F64.ofNat 100)).Round).div (F64.ofNat 100),
      a.currency⟩ ∧
    a.Add b = b.Add a ∧
    (a.amount ≠ .nan → b.amount ≠ .nan → ∀ r r2 : Money, a.Add b = .ok r →
      b.Add a = .ok r2 → r.Equals (some r2) = true) ∧
    (∀ x y : Nat, a.amount = F64.ofNat x → b.amount = F64.ofNat y → 100 * (x + y) < 2 ^ 53 →
      a.Add b = .ok ⟨F64.ofNat (x + y), a.currency⟩) ∧
    (∀ ka kb : Nat, a.amount = (F64.ofNat ka).div (F64.ofNat 100) →
      b.amount = (F64.ofNat kb).div (F64.ofNat 100) → ka + kb < 2 ^ 48 →
      a.Add b = .ok ⟨(F64.ofNat (ka + kb)).div (F64.ofNat 100), a.currency⟩) := by
  have hdef : a.Add b = NewMoney (a.amount.add b.amount) a.currency := by
    simp [Money.Add, hcur]
  have hdef2 : b.Add a = NewMoney (b.amount.add a.amount) b.currency := by
    simp [Money.Add, hcur]
  have hac : (if a.currency = "" then "JPY" else a.currency) = a.currency := by
    simp [ha.1]
  have ha0 : a.amount.lt (.fin 0) = false := by simpa [F64.ofNat_zero] using ha.2
  have hb0 : b.amount.lt (.fin 0) = false := by simpa [F64.ofNat_zero] using hb.2
  have h0 : (a.amount.add b.amount).lt (F64.ofNat 0) = false := by
    rw [F64.ofNat_zero]
    exact F64.add_not_lt _ _ ha0 hb0
  have hres : a.Add b
      = .ok ⟨(((a.amount.add b.amount).mul (F64.ofNat 100)).Round).div (F64.ofNat 100),
        a.currency⟩ := by
    rw [hdef, NewMoney_ok_of_range _ _ h0 hsum, hac]
  have hcomm : a.Add b = b.Add a := by
    rw [hdef, hdef2, F64.add_comm, hcur]
  refine ⟨hres, hcomm, ?_, ?_, ?_⟩
  · intro hna hnb r r2 hr hr2
    rw [← hcomm, hr] at hr2
    cases hr2
    rw [hres] at hr
    cases hr
    have hnan := NewMoney_round_ne_nan (a.amount.add b.amount)
      (F64.add_ne_nan _ _ hna hnb ha0 hb0) (by rw [← F64.ofNat_zero]; exact h0)
    simp [Money.Equals, F64.eq_self _ hnan]
  · intro x y hax hby hxy
    have hx53 : x < 2 ^ 53 := by omega
    have hy53 : y < 2 ^ 53 := by omega
    have hadd : a.amount.add b.amount = F64.ofNat (x + y) := by
      rw [hax, hby, F64.ofNat_eq x hx53, F64.ofNat_eq y hy53, F64.ofNat_eq (x + y) (by omega),
        F64.add_fin_nat, ← Nat.add_mul]
      have := F64.pack_exact false ((x + y) * F64.unit) 1 ⟨x + y, 1074, by omega, rfl⟩
        (by decide) (by
          have h1 : (x + y) * F64.unit < 2 ^ 53 * 2 ^ 1074 :=
            Nat.mul_lt_mul_of_pos_right (by omega) F64.unit_pos
          have h2 : (2 : Nat) ^ 53 * 2 ^ 1074 ≤ F64.top := by decide
          omega)
      simpa using this
    rw [hdef, hadd, NewMoney_whole (x + y) a.currency hxy, hac]
  · intro ka kb hax hby hk
    rw [hdef, hax, hby, NewMoney_add_cents ka kb a.currency hk, hac]

/-- C20 amended, at 100.55 JPY plus 50.25 JPY: the result is 150.80 JPY. -/
theorem Add_result_witness :
    (Money.mk ((F64.ofNat 10055).div (F64.ofNat 100)) "JPY").Add
        (Money.mk ((F64.ofNat 5025).div (F64.ofNat 100)) "JPY")
      = .ok ⟨(F64.ofNat 15080).div (F64.ofNat 100), "JPY"⟩ :=
  (Add_result (Money.mk ((F64.ofNat 10055).div (F64.ofNat 100)) "JPY")
    (Money.mk ((F64.ofNat 5025).div (F64.ofNat 100)) "JPY") rfl
    ⟨by decide, by decide⟩ ⟨by decide, by decide⟩ (by decide)).2.2.2.2 10055 5025 rfl rfl
    (by decide)

/-! ## Identifiers -/

/-- A text that is no UUID, read by `NewExpenseID`. -/
theorem NewExpenseID_not_a_uuid :
    NewExpenseID "not-a-uuid"
      = .error (.domain "INVALID_USER_ID" "経費IDは有効なUUID形式である必要があります") := by
  unfold NewExpenseID
  rw [if_neg (by decide), if_pos (by decide)]
  rfl

/-- A text that is no UUID, read by `NewUserID`. -/
theorem NewUserID_not_a_uuid :
    NewUserID "not-a-uuid"
      = .error (.domain "INVALID_USER_ID" "ユーザーIDは有効なUUID形式である必要があります") := by
  unfold NewUserID
  rw [if_neg (by decide), if_pos (by decide)]
  rfl

/-- A text that is no UUID, read by `NewCategoryID`. -/
theorem NewCategoryID_not_a_uuid :
    NewCategoryID "not-a-uuid"
      = .error (.domain "INVALID_CATEGORY_ID"
          "カテゴリIDは有効なUUID形式である必要があります") := by
  unfold NewCategoryID
  rw [if_neg (by decide), if_pos (by decide)]
  rfl

/-- C21. The failing inputs: the empty text, a blank text and a text that is no UUID.
`NewExpenseID` refuses each of them, and the error carries the code `INVALID_USER_ID`
of the user identifier, not a code of the expense identifier; `NewUserID` and
`NewCategoryID` report their own codes on the same text. -/
theorem NewExpenseID_invalid_text_reports_user_id_code :
    NewExpenseID "" = .error (.domain "INVALID_USER_ID" "経費IDは空文字列にできません") ∧
    NewExpenseID "  " = .error (.domain "INVALID_USER_ID" "経費IDは空文字列にできません") ∧
    NewExpenseID "not-a-uuid"
      = .error (.domain "INVALID_USER_ID" "経費IDは有効なUUID形式である必要があります") ∧
    NewUserID "not-a-uuid"
      = .error (.domain "INVALID_USER_ID" "ユーザーIDは有効なUUID形式である必要があります") ∧
    NewCategoryID "not-a-uuid"
      = .error (.domain "INVALID_CATEGORY_ID"
          "カテゴリIDは有効なUUID形式である必要があります") :=
  ⟨rfl, rfl, NewExpenseID_not_a_uuid, NewUserID_not_a_uuid, NewCategoryID_not_a_uuid⟩

/-- C22. For each of the three identifier kinds, `Equals` is reflexive, it is symmetric,
and `Equals(nil)` is false. -/
theorem id_Equals_reflexive_symmetric_nil_false :
    ((∀ a : UserID, a.Equals (some a) = true) ∧
      (∀ a b : UserID, a.Equals (some b) = b.Equals (some a)) ∧
      (∀ a : UserID, a.Equals none = false)) ∧
    ((∀ a : CategoryID, a.Equals (some a) = true) ∧
      (∀ a b : CategoryID, a.Equals (some b) = b.Equals (some a)) ∧
      (∀ a : CategoryID, a.Equals none = false)) ∧
    ((∀ a : ExpenseID, a.Equals (some a) = true) ∧
      (∀ a b : ExpenseID, a.Equals (some b) = b.Equals (some a)) ∧
      (∀ a : ExpenseID, a.Equals none = false)) := by
  refine ⟨⟨?_, ?_, ?_⟩, ⟨?_, ?_, ?_⟩, ⟨?_, ?_, ?_⟩⟩
  · intro a; simp [UserID.Equals]
  · intro a b
    by_cases h : a.value = b.value
    · simp [UserID.Equals, h]
    · have h2 : ¬ b.value = a.value := fun e => h e.symm
      simp [UserID.Equals, h, h2]
  · intro a; rfl
  · intro a; simp [CategoryID.Equals]
  · intro a b
    by_cases h : a.value = b.value
    · simp [CategoryID.Equals, h]
    · have h2 : ¬ b.value = a.value := fun e => h e.symm
      simp [CategoryID.Equals, h, h2]
  · intro a; rfl
  · intro a; simp [ExpenseID.Equals]
  · intro a b
    by_cases h : a.value = b.value
    · simp [ExpenseID.Equals, h]
    · have h2 : ¬ b.value = a.value := fun e => h e.symm
      simp [ExpenseID.Equals, h, h2]
  · intro a; rfl

/-! ## The title of an expense -/

/-- C23. The failing input: a title of 100 characters of three bytes each. Its trimmed
form has 100 characters and 300 bytes, `validateExpenseTitle` compares the number of
bytes with 100 and refuses it with the message that a title has at most 100 characters,
and so does `NewExpense`. Titles of 100 one-byte letters pass, titles of 101 letters and
blank titles fail. -/
theorem validateExpenseTitle_hundred_wide_characters_refused :
    (TrimSpace wideTitle).length = 100 ∧ len (TrimSpace wideTitle) = 300 ∧
    validateExpenseTitle wideTitle
      = some (.domain "INVALID_EXPENSE_TITLE"
          "経費タイトルは100文字以内である必要があります") ∧
    NewExpense (some sampleUserID) (some sampleCategoryID) (some sampleMoney) wideTitle ""
        sampleDate sampleNow sampleNow sampleNow "33333333-3333-4333-8333-333333333333"
      = .error (.domain "INVALID_EXPENSE_TITLE"
          "経費タイトルは100文字以内である必要があります") ∧
    validateExpenseTitle (plainTitle 100) = none ∧
    validateExpenseTitle (plainTitle 101) ≠ none ∧
    validateExpenseTitle "  " ≠ none := by
  have h : validateExpenseTitle wideTitle
      = some (.domain "INVALID_EXPENSE_TITLE"
          "経費タイトルは100文字以内である必要があります") := by decide
  refine ⟨by decide, by decide, h, ?_, by decide, by decide, by decide⟩
  unfold NewExpense
  simp only [h]

/-! ## The civil calendar -/

/-- The order of characters is the order of their code points. -/
theorem Char.le_iff_toNat (a b : Char) : a ≤ b ↔ a.toNat ≤ b.toNat := Iff.rfl

/-- The test of the colour code holds of the hexadecimal digits and of nothing else. -/
theorem isHexRune_iff (c : Char) : isHexRune c = true ↔ c ∈ hexDigits := by
  constructor
  · intro h
    simp only [isHexRune, Bool.or_eq_true, Bool.and_eq_true, decide_eq_true_eq,
      Char.le_iff_toNat] at h
    have e : c = Char.ofNat c.toNat := (Char.ofNat_toNat c).symm
    have h2 : (48 ≤ c.toNat ∧ c.toNat ≤ 57) ∨ (65 ≤ c.toNat ∧ c.toNat ≤ 70) ∨
        (97 ≤ c.toNat ∧ c.toNat ≤ 102) := by
      rcases h with (h | h) | h
      · exact Or.inl h
      · exact Or.inr (Or.inl h)
      · exact Or.inr (Or.inr h)
    generalize c.toNat = n at e h2
    subst e
    rcases h2 with ⟨h1, h2⟩ | ⟨h1, h2⟩ | ⟨h1, h2⟩ <;> interval_cases n <;> decide
  · intro h
    simp only [hexDigits, List.mem_cons, List.mem_singleton, List.not_mem_nil, or_false] at h
    rcases h with h | h | h | h | h | h | h | h | h | h | h | h | h | h | h | h | h | h | h |
      h | h | h <;> subst h <;> decide

/-- A hexadecimal digit is one byte long. -/
theorem isHexRune_utf8Size (c : Char) (h : isHexRune c = true) : c.utf8Size = 1 := by
  have hm := (isHexRune_iff c).1 h
  simp only [hexDigits, List.mem_cons, List.mem_singleton, List.not_mem_nil, or_false] at hm
  rcases hm with h | h | h | h | h | h | h | h | h | h | h | h | h | h | h | h | h | h | h |
    h | h | h <;> subst h <;> decide

/-- A text of hexadecimal digits has as many bytes as characters. -/
theorem hex_utf8Len (cs : List Char) (h : ∀ c ∈ cs, isHexRune c = true) :
    String.utf8Len cs = cs.length := by
  induction cs with
  | nil => rfl
  | cons c cs ih =>
    rw [String.utf8Len_cons, isHexRune_utf8Size c (h c (List.mem_cons_self _ _)),
      ih (fun d hd => h d (List.mem_cons_of_mem _ hd)), List.length_cons]

/-- C25. `validateCategoryColor` accepts a text if and only if its trimmed form is empty
or is `#` followed by exactly six hexadecimal digits, in either case; so the empty text,
`#ABCDEF` and `#abcdef` are accepted and `#ABCDEG` and `ABCDEF` are refused. -/
theorem validateCategoryColor_accepts_iff (color : String) :
    (validateCategoryColor color = none ↔
      (TrimSpace color = "" ∨
        ∃ cs : List Char, TrimSpace color = ⟨'#' :: cs⟩ ∧ cs.length = 6 ∧
          ∀ c ∈ cs, c ∈ hexDigits)) ∧
    validateCategoryColor "" = none ∧
    validateCategoryColor "#ABCDEF" = none ∧
    validateCategoryColor "#abcdef" = none ∧
    validateCategoryColor "#ABCDEG" ≠ none ∧
    validateCategoryColor "ABCDEF" ≠ none := by
  refine ⟨?_, by decide, by decide, by decide, by decide, by decide⟩
  unfold validateCategoryColor
  simp only
  generalize TrimSpace color = s
  obtain ⟨l⟩ := s
  by_cases h0 : (⟨l⟩ : String) = ""
  · simp [h0]
  · have hb : ((⟨l⟩ : String) == "") = false := by simpa using h0
    simp only [hb, Bool.false_eq_true, if_false, h0, false_or]
    cases l with
    | nil => exact absurd rfl h0
    | cons a cs =>
      by_cases ha : a = '#'
      · subst ha
        by_cases hall : ∀ c ∈ cs, isHexRune c = true
        · have hlen := hex_utf8Len cs hall
          have hsz : ('#' : Char).utf8Size = 1 := by decide
          by_cases h6 : cs.length = 6
          · have hl : (len ⟨'#' :: cs⟩ == 7) = true := by
              simp [len, String.utf8ByteSize_mk, String.utf8Len_cons, hlen, hsz, h6]
            have hall2 : cs.all isHexRune = true := by simpa using hall
            simp only [hl, List.head?_cons, beq_self_eq_true, Bool.and_self, if_true,
              List.tail_cons, hall2, true_iff]
            exact ⟨cs, rfl, h6, fun c hc => (isHexRune_iff c).1 (hall c hc)⟩
          · have hl : (len ⟨'#' :: cs⟩ == 7) = false := by
              simp [len, String.utf8ByteSize_mk, String.utf8Len_cons, hlen, hsz, h6]
            simp only [hl, Bool.false_and, Bool.false_eq_true, if_false]
            constructor
            · intro h
              cases h
            · rintro ⟨cs2, hcs, h62, -⟩
              have hd := (List.cons.inj (congrArg String.data hcs)).2
              subst hd
              exact absurd h62 h6
        · have hall2 : cs.all isHexRune = false := by
            simpa using hall
          have hno : ¬ ∃ cs2 : List Char, (⟨'#' :: cs⟩ : String) = ⟨'#' :: cs2⟩ ∧
              cs2.length = 6 ∧ ∀ c ∈ cs2, c ∈ hexDigits := by
            rintro ⟨cs2, hcs, -, hh⟩
            have hd := (List.cons.inj (congrArg String.data hcs)).2
            subst hd
            exact hall (fun c hc => (isHexRune_iff c).2 (hh c hc))
          simp only [List.tail_cons, hall2, Bool.false_eq_true, if_false, hno, iff_false]
          split <;> simp
      · have hhead : ((a :: cs).head? == some '#') = false := by simpa using ha
        have hno : ¬ ∃ cs2 : List Char, (⟨a :: cs⟩ : String) = ⟨'#' :: cs2⟩ ∧
            cs2.length = 6 ∧ ∀ c ∈ cs2, c ∈ hexDigits := by
          rintro ⟨cs2, hcs, -, -⟩
          exact ha (List.cons.inj (congrArg String.data hcs)).1
        simp [ha, hno]

/-! ## The answer of the transport to an error -/

/-- What `handleError` answers to the not-found codes: 404 for a domain error, 500 for
an application error. -/
theorem handleError_not_found (message : String) :
    (handleError (.core (.domain "USER_NOT_FOUND" message))).1 = 404 ∧
    (handleError (.core (.domain "CATEGORY_NOT_FOUND" message))).1 = 404 ∧
    (handleError (.core (.domain "EXPENSE_NOT_FOUND" message))).1 = 404 ∧
    (handleError (.core (.application "USER_NOT_FOUND" message))).1 = 500 ∧
    (handleError (.core (.application "CATEGORY_NOT_FOUND" message))).1 = 500 ∧
    (handleError (.core (.application "EXPENSE_NOT_FOUND" message))).1 = 500 :=
  ⟨rfl, rfl, rfl, rfl, rfl, rfl⟩

/-- C26. The failing input: `GetUser`, `GetCategory` and `GetExpense` with a well-formed
id on empty repositories. Each returns an application error with the not-found code,
and `handleError` answers it with 500, not 404; the domain errors with the same codes,
as the repositories return them, are answered with 404. -/
theorem GetUser_absent_id_answers_500 :
    UserUseCase.GetUser ⟨NewMemoryUserRepository⟩ "11111111-1111-4111-8111-111111111111"
      = .error (.application "USER_NOT_FOUND" "ユーザーが見つかりません") ∧
    handleError (.core (.application "USER_NOT_FOUND" "ユーザーが見つかりません"))
      = (500, ⟨"USER_NOT_FOUND", "ユーザーが見つかりません", ""⟩) ∧
    CategoryUseCase.GetCategory emptyCategoryState "22222222-2222-4222-8222-222222222222"
      = .error (.application "CATEGORY_NOT_FOUND" "カテゴリが見つかりません") ∧
    handleError (.core (.application "CATEGORY_NOT_FOUND" "カテゴリが見つかりません"))
      = (500, ⟨"CATEGORY_NOT_FOUND", "カテゴリが見つかりません", ""⟩) ∧
    ExpenseUseCase.GetExpense emptyExpenseState "33333333-3333-4333-8333-333333333333"
      = .error (.application "EXPENSE_NOT_FOUND" "経費が見つかりません") ∧
    handleError (.core (.application "EXPENSE_NOT_FOUND" "経費が見つかりません"))
      = (500, ⟨"EXPENSE_NOT_FOUND", "経費が見つかりません", ""⟩) ∧
    NewMemoryUserRepository.FindByID sampleUserID
      = .error (.domain "USER_NOT_FOUND" "ユーザーが見つかりません") ∧
    handleError (.core (.domain "USER_NOT_FOUND" "ユーザーが見つかりません"))
      = (404, ⟨"USER_NOT_FOUND", "ユーザーが見つかりません", ""⟩) := by
  refine ⟨?_, rfl, ?_, rfl, ?_, rfl, rfl, rfl⟩
  · have h : NewUserID "11111111-1111-4111-8111-111111111111"
        = .ok ⟨"11111111-1111-4111-8111-111111111111"⟩ := by
      unfold NewUserID
      rw [if_neg (by decide), if_neg (by decide)]
    unfold UserUseCase.GetUser
    rw [h]
    rfl
  · have h : NewCategoryID "22222222-2222-4222-8222-222222222222"
        = .ok ⟨"22222222-2222-4222-8222-222222222222"⟩ := by
      unfold NewCategoryID
      rw [if_neg (by decide), if_neg (by decide)]
    unfold CategoryUseCase.GetCategory
    rw [h]
    rfl
  · have h : NewExpenseID "33333333-3333-4333-8333-333333333333"
        = .ok ⟨"33333333-3333-4333-8333-333333333333"⟩ := by
      unfold NewExpenseID
      rw [if_neg (by decide), if_neg (by decide)]
    unfold ExpenseUseCase.GetExpense
    rw [h]
    rfl

/-- Writing a key leaves every other key as it was. -/
theorem GoMap.get_set_ne {α : Type} (m : GoMap α) (k k2 : String) (v : α) (h : k2 ≠ k) :
    (m.set k v).get k2 = m.get k2 := by
  induction m with
  | nil => simp [GoMap.set, GoMap.get, Ne.symm h]
  | cons p rest ih =>
    obtain ⟨k1, v1⟩ := p
    by_cases hk : k1 = k
    · subst hk
      simp [GoMap.set, GoMap.get, Ne.symm h]
    · by_cases hk2 : k1 = k2
      · subst hk2
        simp [GoMap.set, GoMap.get, hk]
      · simp [GoMap.set, GoMap.get, hk, hk2, ih]

/-- `Update` of the user repository. -/
theorem MemoryUserRepository.Update_user_spec (r : MemoryUserRepository) (user : User) :
    (((r.Update user).2 = none) ↔ ∃ u, r.FindByID user.id = .ok u) ∧
    ((∀ u, r.FindByID user.id ≠ .ok u) →
      r.Update user = (r, some (NewDomainError UserNotFound "ユーザーが見つかりません"))) ∧
    ((r.Update user).2 = none →
      (r.Update user).1.FindByID user.id = .ok user ∧
      ∀ id : UserID, id ≠ user.id → (r.Update user).1.FindByID id = r.FindByID id) := by
  have hne : ∀ id : UserID, id ≠ user.id → id.String ≠ user.id.String := by
    intro id hid h
    apply hid
    cases id
    cases huid : user.id
    simp [UserID.String, huid] at h
    simp [h]
  unfold MemoryUserRepository.Update MemoryUserRepository.FindByID
  cases hget : r.users.get user.id.String with
  | none =>
    refine ⟨⟨fun h => by simp at h, fun ⟨u, hu⟩ => by simp at hu⟩, fun _ => rfl,
      fun h => by simp at h⟩
  | some u0 =>
    refine ⟨⟨fun _ => ⟨u0, rfl⟩, fun _ => rfl⟩, fun h => absurd rfl (h u0), fun _ => ⟨?_, ?_⟩⟩
    · simp only [GoMap.get_set_self]
    · intro id hid
      simp only [GoMap.get_set_ne _ _ _ _ (hne id hid)]

/-- `Update` of the category repository. -/
theorem MemoryCategoryRepository.Update_category_spec (r : MemoryCategoryRepository)
    (category : Category) :
    (((r.Update category).2 = none) ↔ ∃ c, r.FindByID category.id = .ok c) ∧
    ((∀ c, r.FindByID category.id ≠ .ok c) →
      r.Update category
        = (r, some (NewDomainError CategoryNotFound "カテゴリが見つかりません"))) ∧
    ((r.Update category).2 = none →
      (r.Update category).1.FindByID category.id = .ok category ∧
      ∀ id : CategoryID, id ≠ category.id →
        (r.Update category).1.FindByID id = r.FindByID id) := by
  have hne : ∀ id : CategoryID, id ≠ category.id → id.String ≠ category.id.String := by
    intro id hid h
    apply hid
    cases id
    cases huid : category.id
    simp [CategoryID.String, huid] at h
    simp [h]
  unfold MemoryCategoryRepository.Update MemoryCategoryRepository.FindByID
  cases hget : r.categories.get category.id.String with
  | none =>
    refine ⟨⟨fun h => by simp at h, fun ⟨u, hu⟩ => by simp at hu⟩, fun _ => rfl,
      fun h => by simp at h⟩
  | some u0 =>
    refine ⟨⟨fun _ => ⟨u0, rfl⟩, fun _ => rfl⟩, fun h => absurd rfl (h u0), fun _ => ⟨?_, ?_⟩⟩
    · simp only [GoMap.get_set_self]
    · intro id hid
      simp only [GoMap.get_set_ne _ _ _ _ (hne id hid)]

/-- `Update` of the expense repository. -/
theorem MemoryExpenseRepository.Update_expense_spec (r : MemoryExpenseRepository)
    (expense : Expense) :
    (((r.Update expense).2 = none) ↔ ∃ e, r.FindByID expense.id = .ok e) ∧
    ((∀ e, r.FindByID expense.id ≠ .ok e) →
      r.Update expense = (r, some (NewDomainError ExpenseNotFound "経費が見つかりません"))) ∧
    ((r.Update expense).2 = none →
      (r.Update expense).1.FindByID expense.id = .ok expense ∧
      ∀ id : ExpenseID, id ≠ expense.id →
        (r.Update expense).1.FindByID id = r.FindByID id) := by
  have hne : ∀ id : ExpenseID, id ≠ expense.id → id.String ≠ expense.id.String := by
    intro id hid h
    apply hid
    cases id
    cases huid : expense.id
    simp [ExpenseID.String, huid] at h
    simp [h]
  unfold MemoryExpenseRepository.Update MemoryExpenseRepository.FindByID
  cases hget : r.expenses.get expense.id.String with
  | none =>
    refine ⟨⟨fun h => by simp at h, fun ⟨u, hu⟩ => by simp at hu⟩, fun _ => rfl,
      fun h => by simp at h⟩
  | some u0 =>
    refine ⟨⟨fun _ => ⟨u0, rfl⟩, fun _ => rfl⟩, fun h => absurd rfl (h u0), fun _ => ⟨?_, ?_⟩⟩
    · simp only [GoMap.get_set_self]
    · intro id hid
      simp only [GoMap.get_set_ne _ _ _ _ (hne id hid)]

/-- C28. For each of the three in-memory repositories: `Update` of an entity succeeds if
and only if `FindByID` of its id succeeds before the call; when the id is not stored it
fails with the `NOT_FOUND` code of the entity and returns the repository as it was; and
when it succeeds, `FindByID` of that id returns the given entity and `FindByID` of every
other id returns what it returned before. -/
theorem repository_Update_iff_stored :
    (∀ (r : MemoryUserRepository) (user : User),
      (((r.Update user).2 = none) ↔ ∃ u, r.FindByID user.id = .ok u) ∧
      ((∀ u, r.FindByID user.id ≠ .ok u) →
        r.Update user = (r, some (.domain "USER_NOT_FOUND" "ユーザーが見つかりません"))) ∧
      ((r.Update user).2 = none →
        (r.Update user).1.FindByID user.id = .ok user ∧
        ∀ id : UserID, id ≠ user.id → (r.Update user).1.FindByID id = r.FindByID id)) ∧
    (∀ (r : MemoryCategoryRepository) (category : Category),
      (((r.Update category).2 = none) ↔ ∃ c, r.FindByID category.id = .ok c) ∧
      ((∀ c, r.FindByID category.id ≠ .ok c) →
        r.Update category
          = (r, some (.domain "CATEGORY_NOT_FOUND" "カテゴリが見つかりません"))) ∧
      ((r.Update category).2 = none →
        (r.Update category).1.FindByID category.id = .ok category ∧
        ∀ id : CategoryID, id ≠ category.id →
          (r.Update category).1.FindByID id = r.FindByID id)) ∧
    (∀ (r : MemoryExpenseRepository) (expense : Expense),
      (((r.Update expense).2 = none) ↔ ∃ e, r.FindByID expense.id = .ok e) ∧
      ((∀ e, r.FindByID expense.id ≠ .ok e) →
        r.Update expense = (r, some (.domain "EXPENSE_NOT_FOUND" "経費が見つかりません"))) ∧
      ((r.Update expense).2 = none →
        (r.Update expense).1.FindByID expense.id = .ok expense ∧
        ∀ id : ExpenseID, id ≠ expense.id →
          (r.Update expense).1.FindByID id = r.FindByID id)) :=
  ⟨MemoryUserRepository.Update_user_spec, MemoryCategoryRepository.Update_category_spec,
    MemoryExpenseRepository.Update_expense_spec⟩

/-- C28, at the user repository that holds `sampleUser`: the update to `renamedUser`
succeeds and `FindByID` returns `renamedUser`. -/
theorem repository_Update_iff_stored_witness :
    ((NewMemoryUserRepository.Save sampleUser).1.Update renamedUser).1.FindByID sampleUserID
      = .ok renamedUser :=
  ((repository_Update_iff_stored.1 (NewMemoryUserRepository.Save sampleUser).1
    renamedUser).2.2 rfl).1

/-! ## The time stamp of `Submit` -/

/-- C29, as stated, fails: an expense in draft whose `updatedAt` is one day after the
clock reading (`ReconstructExpense` rebuilds it so from stored values) is submitted, and
its `updatedAt` after the call is the clock reading, which is earlier than before; and
an expense whose `updatedAt` is the clock reading itself keeps its `updatedAt`. -/
theorem Submit_updatedAt_not_later :
    ReconstructExpense (some ⟨"33333333-3333-4333-8333-333333333333"⟩) (some sampleUserID)
        (some sampleCategoryID) (some sampleMoney) " Taxi" "" sampleDate "draft" sampleNow
        (sampleNow.AddDate 0 0 1) sampleNow sampleNow = .ok rebuiltExpense ∧
    (rebuiltExpense.Submit sampleNow).2 = none ∧
    (rebuiltExpense.Submit sampleNow).1.updatedAt.After rebuiltExpense.updatedAt = false ∧
    ((sampleExpense "draft").Submit sampleNow).2 = none ∧
    ((sampleExpense "draft").Submit sampleNow).1.updatedAt.After
      (sampleExpense "draft").updatedAt = false := by
  refine ⟨?_, by decide, by decide, by decide, by decide⟩
  have ht : validateExpenseTitle " Taxi" = none := by decide
  have hd : validateExpenseDescription "" = none := by decide
  have hdt : validateExpenseDate sampleNow sampleNow sampleDate = none := by decide
  unfold ReconstructExpense
  simp only [ht, hd, hdt]
  rfl

/-- C29, amended. After every successful `Submit` the status is `submitted` and
`updatedAt` is the instant that `Submit` read from the clock; so `updatedAt` is strictly
later than before the call exactly when that clock reading is later than the
`updatedAt` before the call. -/
theorem Submit_status_and_updatedAt (e : Expense) (now : Time)
    (h : (e.Submit now).2 = none) :
    (e.Submit now).1.status = ExpenseStatusSubmitted ∧
    (e.Submit now).1.updatedAt = now ∧
    ((e.Submit now).1.updatedAt.After e.updatedAt = true ↔ now.After e.updatedAt = true) := by
  unfold Expense.Submit at h ⊢
  by_cases hs : (e.status != ExpenseStatusDraft) = true
  · simp [hs] at h
  · simp [hs]

/-- C29 amended, at a draft expense submitted one day after it was last stamped. -/
theorem Submit_status_and_updatedAt_witness :
    ((sampleExpense "draft").Submit (sampleNow.AddDate 0 0 1)).1.status = "submitted" ∧
    ((sampleExpense "draft").Submit (sampleNow.AddDate 0 0 1)).1.updatedAt.After
      (sampleExpense "draft").updatedAt = true :=
  ⟨(Submit_status_and_updatedAt (sampleExpense "draft") (sampleNow.AddDate 0 0 1)
      (by decide)).1,
    (Submit_status_and_updatedAt (sampleExpense "draft") (sampleNow.AddDate 0 0 1)
      (by decide)).2.2.2 (by decide)⟩

/-! ## `strings.TrimSpace` -/

/-- What `dropWhile` leaves is empty or begins with an element that fails the test. -/
theorem dropWhile_head {α : Type} (p : α → Bool) (l : List α) :
    l.dropWhile p = [] ∨ ∃ a xs, l.dropWhile p = a :: xs ∧ p a = false := by
  induction l with
  | nil => exact Or.inl rfl
  | cons b l ih =>
    by_cases hb : p b = true
    · simpa [List.dropWhile, hb] using ih
    · right
      exact ⟨b, l, by simp [List.dropWhile, hb], by simpa using hb⟩

/-- Dropping from the front of a list that ends with an element failing the test keeps
that last element. -/
theorem dropWhile_append_singleton {α : Type} (p : α → Bool) (l : List α) (a : α)
    (ha : p a = false) : (l ++ [a]).dropWhile p = l.dropWhile p ++ [a] := by
  induction l with
  | nil => simp [List.dropWhile, ha]
  | cons b l ih =>
    by_cases hb : p b = true
    · simpa [List.dropWhile, hb] using ih
    · simp [List.dropWhile, hb]

/-- Trimming the end of a list that begins with an element failing the test keeps that
first element. -/
theorem trimEnd_cons {α : Type} (p : α → Bool) (a : α) (xs : List α) (ha : p a = false) :
    ∃ ys, ((a :: xs).reverse.dropWhile p).reverse = a :: ys := by
  refine ⟨(xs.reverse.dropWhile p).reverse, ?_⟩
  rw [List.reverse_cons, dropWhile_append_singleton p _ a ha]
  simp

/-- `TrimSpace` of a trimmed text is the text itself. -/
theorem TrimSpace_idem (s : String) : TrimSpace (TrimSpace s) = TrimSpace s := by
  unfold TrimSpace
  apply congrArg String.mk
  dsimp only
  generalize hx : s.data.dropWhile isSpace = x
  have hfront : ((x.reverse.dropWhile isSpace).reverse).dropWhile isSpace
      = (x.reverse.dropWhile isSpace).reverse := by
    rcases dropWhile_head isSpace s.data with h | ⟨a, xs, h, ha⟩
    · rw [hx] at h
      subst h
      rfl
    · rw [hx] at h
      subst h
      obtain ⟨ys, hys⟩ := trimEnd_cons isSpace a xs ha
      rw [hys]
      simp [List.dropWhile, ha]
  rw [hfront, List.reverse_reverse]
  congr 1
  rcases dropWhile_head isSpace x.reverse with h | ⟨a, xs, h, ha⟩
  · rw [h]
    rfl
  · rw [h]
    simp [List.dropWhile, ha]

/-- A trimmed text is not longer than the text. -/
theorem len_TrimSpace_le (s : String) : len (TrimSpace s) ≤ len s := by
  unfold TrimSpace len
  obtain ⟨l⟩ := s
  simp only [String.utf8ByteSize_mk, String.utf8Len_reverse]
  exact Nat.le_trans
    (String.utf8Len_le_of_suffix (List.dropWhile_suffix _))
    (by rw [String.utf8Len_reverse]; exact String.utf8Len_le_of_suffix (List.dropWhile_suffix _))

/-- A title that passes `validateExpenseTitle` passes it in its trimmed form too. -/
theorem validateExpenseTitle_TrimSpace (title : String)
    (h : validateExpenseTitle title = none) : validateExpenseTitle (TrimSpace title) = none := by
  unfold validateExpenseTitle at h ⊢
  simp only [TrimSpace_idem]
  exact h

/-- A description that passes `validateExpenseDescription` passes it in its trimmed
form too. -/
theorem validateExpenseDescription_TrimSpace (description : String)
    (h : validateExpenseDescription description = none) :
    validateExpenseDescription (TrimSpace description) = none := by
  unfold validateExpenseDescription at h ⊢
  have hle := len_TrimSpace_le description
  by_cases h500 : len description > 500
  · simp [h500] at h
  · have : ¬ len (TrimSpace description) > 500 := by omega
    simp [this]

/-! ## Updating an expense with its own fields -/

/-- `UpdateDetails` of a draft expense with its own fields. -/
theorem UpdateDetails_own (e : Expense) (t1 t2 now : Time)
    (hs : e.status = ExpenseStatusDraft) (ht : validateExpenseTitle e.title = none)
    (hd : validateExpenseDescription e.description = none)
    (hdt : validateExpenseDate t1 t2 e.date = none) :
    e.UpdateDetails (some e.categoryID) (some e.amount) e.title e.description e.date t1 t2
        now
      = ({ e with title := TrimSpace e.title, description := TrimSpace e.description,
                  updatedAt := now }, none) := by
  unfold Expense.UpdateDetails
  have hs2 : (e.status != ExpenseStatusDraft) = false := by simp [hs]
  simp only [hs2, Bool.false_eq_true, if_false, ht, hd, hdt]

/-- C30, as stated, fails: the draft expense that `ReconstructExpense` rebuilds with the
title ` Taxi` (a blank in front) accepts the update with its own fields, and afterwards
its title is `Taxi`: a field other than `updatedAt` has changed. -/
theorem UpdateDetails_own_fields_trims_title :
    ReconstructExpense (some ⟨"33333333-3333-4333-8333-333333333333"⟩) (some sampleUserID)
        (some sampleCategoryID) (some sampleMoney) " Taxi" "" sampleDate "draft" sampleNow
        (sampleNow.AddDate 0 0 1) sampleNow sampleNow = .ok rebuiltExpense ∧
    rebuiltExpense.status = "draft" ∧ rebuiltExpense.title = " Taxi" ∧
    (rebuiltExpense.UpdateDetails (some rebuiltExpense.categoryID)
        (some rebuiltExpense.amount) rebuiltExpense.title rebuiltExpense.description
        rebuiltExpense.date sampleNow sampleNow sampleNow).2 = none ∧
    (rebuiltExpense.UpdateDetails (some rebuiltExpense.categoryID)
        (some rebuiltExpense.amount) rebuiltExpense.title rebuiltExpense.description
        rebuiltExpense.date sampleNow sampleNow sampleNow).1.title = "Taxi" := by
  have ht : validateExpenseTitle " Taxi" = none := by decide
  have hd : validateExpenseDescription "" = none := by decide
  have hdt : validateExpenseDate sampleNow sampleNow sampleDate = none := by decide
  have hu := UpdateDetails_own rebuiltExpense sampleNow sampleNow sampleNow rfl ht hd hdt
  refine ⟨?_, rfl, rfl, ?_, ?_⟩
  · unfold ReconstructExpense
    simp only [ht, hd, hdt]
    rfl
  · rw [hu]
  · rw [hu]
    decide

/-- C30, amended. For every expense `e` in draft whose title, description and date pass
the checks of `UpdateDetails` (the date at the instants of both calls), `UpdateDetails`
with the own category id, amount, title, description and date of `e` succeeds; it stores
the trimmed forms of the title and of the description and the clock reading as
`updatedAt`, and leaves the other fields as they were, so every field except
`updatedAt` keeps its value when the title and the description of `e` carry no
surrounding white space (as in every expense that `NewExpense` built or `UpdateDetails`
changed); and a second update, with the same arguments or with the own fields of the
updated expense, succeeds and changes `updatedAt` only. -/
theorem UpdateDetails_own_fields (e : Expense) (t1 t2 now t3 t4 now2 : Time)
    (hs : e.status = ExpenseStatusDraft) (ht : validateExpenseTitle e.title = none)
    (hd : validateExpenseDescription e.description = none)
    (hdt : validateExpenseDate t1 t2 e.date = none)
    (hdt2 : validateExpenseDate t3 t4 e.date = none) :
    e.UpdateDetails (some e.categoryID) (some e.amount) e.title e.description e.date t1 t2
        now
      = ({ e with title := TrimSpace e.title, description := TrimSpace e.description,
                  updatedAt := now }, none) ∧
    (TrimSpace e.title = e.title → TrimSpace e.description = e.description →
      (e.UpdateDetails (some e.categoryID) (some e.amount) e.title e.description e.date
        t1 t2 now).1 = { e with updatedAt := now }) ∧
    (e.UpdateDetails (some e.categoryID) (some e.amount) e.title e.description e.date
        t1 t2 now).1.UpdateDetails (some e.categoryID) (some e.amount) e.title
        e.description e.date t3 t4 now2
      = ({ (e.UpdateDetails (some e.categoryID) (some e.amount) e.title e.description
            e.date t1 t2 now).1 with updatedAt := now2 }, none) ∧
    (∀ r : Expense,
      r = (e.UpdateDetails (some e.categoryID) (some e.amount) e.title e.description e.date
        t1 t2 now).1 →
      r.UpdateDetails (some r.categoryID) (some r.amount) r.title r.description r.date
        t3 t4 now2 = ({ r with updatedAt := now2 }, none)) := by
  have h1 := UpdateDetails_own e t1 t2 now hs ht hd hdt
  refine ⟨h1, ?_, ?_, ?_⟩
  · intro htt hdd
    rw [h1, htt, hdd]
  · rw [h1]
    unfold Expense.UpdateDetails
    have hs2 : (e.status != ExpenseStatusDraft) = false := by simp [hs]
    simp only [hs2, Bool.false_eq_true, if_false, ht, hd, hdt2]
  · intro r hr
    rw [h1] at hr
    have hr2 : r = { e with title := TrimSpace e.title,
                            description := TrimSpace e.description, updatedAt := now } := hr
    subst hr2
    have h2 := UpdateDetails_own
      { e with title := TrimSpace e.title, description := TrimSpace e.description,
               updatedAt := now } t3 t4 now2 hs (validateExpenseTitle_TrimSpace _ ht)
      (validateExpenseDescription_TrimSpace _ hd) hdt2
    simp only [TrimSpace_idem] at h2
    exact h2

/-- C30 amended, at `sampleExpense "draft"`: the update with its own fields changes
`updatedAt` only. -/
theorem UpdateDetails_own_fields_witness :
    ((sampleExpense "draft").UpdateDetails (some sampleCategoryID) (some sampleMoney)
        "Taxi" "" sampleDate sampleNow sampleNow (sampleNow.AddDate 0 0 1)).1
      = { sampleExpense "draft" with updatedAt := sampleNow.AddDate 0 0 1 } :=
  (UpdateDetails_own_fields (sampleExpense "draft") sampleNow sampleNow
    (sampleNow.AddDate 0 0 1) sampleNow sampleNow sampleNow rfl (by decide) (by decide)
    (by decide) (by decide)).2.1 (by decide) (by decide)

/-! ## Frame of the expense operations -/

/-- A call on an expense keeps its id, its owner and its creation time. -/
theorem ExpenseOp.apply_frame (e : Expense) (op : ExpenseOp) :
    (op.apply e).1.id = e.id ∧ (op.apply e).1.userID = e.userID ∧
      (op.apply e).1.createdAt = e.createdAt := by
  cases op with
  | submit now =>
    show (e.Submit now).1.id = e.id ∧ (e.Submit now).1.userID = e.userID ∧
      (e.Submit now).1.createdAt = e.createdAt
    unfold Expense.Submit
    by_cases h : (e.status != ExpenseStatusDraft) = true
    · rw [if_pos h]; exact ⟨rfl, rfl, rfl⟩
    · rw [if_neg h]; exact ⟨rfl, rfl, rfl⟩
  | approve now =>
    show (e.Approve now).1.id = e.id ∧ (e.Approve now).1.userID = e.userID ∧
      (e.Approve now).1.createdAt = e.createdAt
    unfold Expense.Approve
    by_cases h : (e.status != ExpenseStatusSubmitted) = true
    · rw [if_pos h]; exact ⟨rfl, rfl, rfl⟩
    · rw [if_neg h]; exact ⟨rfl, rfl, rfl⟩
  | reject now =>
    show (e.Reject now).1.id = e.id ∧ (e.Reject now).1.userID = e.userID ∧
      (e.Reject now).1.createdAt = e.createdAt
    unfold Expense.Reject
    by_cases h : (e.status != ExpenseStatusSubmitted) = true
    · rw [if_pos h]; exact ⟨rfl, rfl, rfl⟩
    · rw [if_neg h]; exact ⟨rfl, rfl, rfl⟩
  | updateDetails c a t d dt t1 t2 now =>
    show (e.UpdateDetails c a t d dt t1 t2 now).1.id = e.id ∧
      (e.UpdateDetails c a t d dt t1 t2 now).1.userID = e.userID ∧
      (e.UpdateDetails c a t d dt t1 t2 now).1.createdAt = e.createdAt
    unfold Expense.UpdateDetails
    by_cases h : (e.status != ExpenseStatusDraft) = true
    · rw [if_pos h]; exact ⟨rfl, rfl, rfl⟩
    · rw [if_neg h]
      cases c with
      | none => exact ⟨rfl, rfl, rfl⟩
      | some cid =>
        cases a with
        | none => exact ⟨rfl, rfl, rfl⟩
        | some m =>
          dsimp only
          cases validateExpenseTitle t with
          | some err => exact ⟨rfl, rfl, rfl⟩
          | none =>
            cases validateExpenseDescription d with
            | some err => exact ⟨rfl, rfl, rfl⟩
            | none =>
              cases validateExpenseDate t1 t2 dt with
              | some err => exact ⟨rfl, rfl, rfl⟩
              | none => exact ⟨rfl, rfl, rfl⟩

/-- A sequence of calls on an expense keeps its id, its owner and its creation time. -/
theorem runOps_frame (ops : List ExpenseOp) : ∀ e : Expense,
    (runOps e ops).id = e.id ∧ (runOps e ops).userID = e.userID ∧
      (runOps e ops).createdAt = e.createdAt := by
  induction ops with
  | nil => intro e; exact ⟨rfl, rfl, rfl⟩
  | cons op ops ih =>
    intro e
    obtain ⟨h1, h2, h3⟩ := ih (op.apply e).1
    obtain ⟨g1, g2, g3⟩ := ExpenseOp.apply_frame e op
    exact ⟨h1.trans g1, h2.trans g2, h3.trans g3⟩

/-- A successful `UpdateDetails` gives the receiver with the six fields set. -/
theorem UpdateDetails_ok_eq (e r : Expense) (categoryID : Option CategoryID)
    (amount : Option Money) (title description : String) (date t1 t2 now : Time)
    (h : e.UpdateDetails categoryID amount title description date t1 t2 now = (r, none)) :
    ∃ cid m, categoryID = some cid ∧ amount = some m ∧ e.status = ExpenseStatusDraft ∧
      validateExpenseTitle title = none ∧ validateExpenseDescription description = none ∧
      validateExpenseDate t1 t2 date = none ∧
      r = { e with categoryID := cid, amount := m, title := TrimSpace title,
                   description := TrimSpace description, date := date, updatedAt := now } := by
  unfold Expense.UpdateDetails at h
  split at h
  · simp at h
  · rename_i hs
    cases categoryID with
    | none => simp at h
    | some cid =>
      cases amount with
      | none => simp at h
      | some m =>
        dsimp only at h
        cases ht : validateExpenseTitle title with
        | some err => rw [ht] at h; simp at h
        | none =>
          cases hd : validateExpenseDescription description with
          | some err => rw [ht, hd] at h; simp at h
          | none =>
            cases hdt : validateExpenseDate t1 t2 date with
            | some err => rw [ht, hd, hdt] at h; simp at h
            | none =>
              rw [ht, hd, hdt] at h
              simp only [Prod.mk.injEq, and_true] at h
              refine ⟨cid, m, rfl, rfl, ?_, rfl, rfl, rfl, h.symm⟩
              simpa using hs

/-- C36. A successful `Submit`, `Approve` or `Reject` returns the expense with only the
status and `updatedAt` replaced; a successful `UpdateDetails` returns the expense with
only category id, amount, title, description, date and `updatedAt` replaced; and after any
sequence of these four operations, failing ones included, the expense has the id, the
owner user id and the `createdAt` it started with. -/
theorem expense_operations_frame :
    (∀ (e r : Expense) (now : Time), e.Submit now = (r, none) →
      r = { e with status := r.status, updatedAt := r.updatedAt }) ∧
    (∀ (e r : Expense) (now : Time), e.Approve now = (r, none) →
      r = { e with status := r.status, updatedAt := r.updatedAt }) ∧
    (∀ (e r : Expense) (now : Time), e.Reject now = (r, none) →
      r = { e with status := r.status, updatedAt := r.updatedAt }) ∧
    (∀ (e r : Expense) (categoryID : Option CategoryID) (amount : Option Money)
      (title description : String) (date t1 t2 now : Time),
      e.UpdateDetails categoryID amount title description date t1 t2 now = (r, none) →
      r = { e with categoryID := r.categoryID, amount := r.amount, title := r.title,
                   description := r.description, date := r.date,
                   updatedAt := r.updatedAt }) ∧
    (∀ (e : Expense) (ops : List ExpenseOp),
      (runOps e ops).id = e.id ∧ (runOps e ops).userID = e.userID ∧
        (runOps e ops).createdAt = e.createdAt) := by
  refine ⟨?_, ?_, ?_, ?_, fun e ops => runOps_frame ops e⟩
  · intro e r now h
    unfold Expense.Submit at h
    split at h
    · simp at h
    · simp only [Prod.mk.injEq, and_true] at h; subst h; rfl
  · intro e r now h
    unfold Expense.Approve at h
    split at h
    · simp at h
    · simp only [Prod.mk.injEq, and_true] at h; subst h; rfl
  · intro e r now h
    unfold Expense.Reject at h
    split at h
    · simp at h
    · simp only [Prod.mk.injEq, and_true] at h; subst h; rfl
  · intro e r categoryID amount title description date t1 t2 now h
    obtain ⟨cid, m, -, -, -, -, -, -, hr⟩ := UpdateDetails_ok_eq e r _ _ _ _ _ _ _ _ h
    subst hr; rfl

theorem expense_operations_frame_witness :
    (sampleExpense "draft").Submit sampleNow =
        ({ sampleExpense "draft" with status := "submitted", updatedAt := sampleNow }, none) ∧
      ({ sampleExpense "draft" with status := "submitted", updatedAt := sampleNow } : Expense) =
        { sampleExpense "draft" with
          status := ({ sampleExpense "draft" with
            status := "submitted", updatedAt := sampleNow } : Expense).status,
          updatedAt := ({ sampleExpense "draft" with
            status := "submitted", updatedAt := sampleNow } : Expense).updatedAt } :=
  ⟨by decide, expense_operations_frame.1 _ _ sampleNow (by decide)⟩

/-! ## What a built expense holds -/

/-- A successful `NewExpense` had its three pointer arguments set and its three texts
accepted, and returns the expense built from them. -/
theorem NewExpense_ok_inv (userID : Option UserID) (categoryID : Option CategoryID)
    (amount : Option Money) (title description : String) (date t1 t2 now : Time)
    (fresh : String) (e : Expense)
    (h : NewExpense userID categoryID amount title description date t1 t2 now fresh = .ok e) :
    userID = some e.userID ∧ categoryID = some e.categoryID ∧ amount = some e.amount ∧
      validateExpenseTitle title = none ∧ validateExpenseDescription description = none ∧
      e.title = TrimSpace title ∧ e.description = TrimSpace description := by
  unfold NewExpense at h
  cases userID with
  | none => simp at h
  | some uid =>
    cases categoryID with
    | none => simp at h
    | some cid =>
      cases amount with
      | none => simp at h
      | some m =>
        dsimp only at h
        cases ht : validateExpenseTitle title with
        | some err => rw [ht] at h; simp at h
        | none =>
          cases hd : validateExpenseDescription description with
          | some err => rw [ht, hd] at h; simp at h
          | none =>
            cases hdt : validateExpenseDate t1 t2 date with
            | some err => rw [ht, hd, hdt] at h; simp at h
            | none =>
              rw [ht, hd, hdt] at h
              simp only [Except.ok.injEq] at h
              subst h
              exact ⟨rfl, rfl, rfl, rfl, rfl, rfl, rfl⟩

/-- An accepted title is, once trimmed, its own trimmed form, not empty and at most 100
bytes long. -/
theorem validateExpenseTitle_none_stored (title : String)
    (h : validateExpenseTitle title = none) :
    TrimSpace (TrimSpace title) = TrimSpace title ∧ TrimSpace title ≠ "" ∧
      len (TrimSpace title) ≤ 100 := by
  unfold validateExpenseTitle at h
  refine ⟨TrimSpace_idem title, ?_, ?_⟩
  · intro he
    simp [he] at h
  · by_cases h100 : len (TrimSpace title) > 100
    · by_cases he : TrimSpace title = ""
      · simp [he] at h
      · simp [he, h100] at h
    · omega

/-- An accepted description is, once trimmed, at most 500 bytes long. -/
theorem validateExpenseDescription_none_stored (description : String)
    (h : validateExpenseDescription description = none) :
    len (TrimSpace description) ≤ 500 := by
  unfold validateExpenseDescription at h
  have hle := len_TrimSpace_le description
  by_cases h500 : len description > 500
  · simp [h500] at h
  · omega

/-- C37. Every expense returned by `NewExpense` was built from a non-nil owner id,
category id and amount, which it holds, and every expense after a successful
`UpdateDetails` holds the non-nil category id and amount it was given and the owner it
had; in both cases the stored title equals its own trimmed form, is not empty and is at
most 100 bytes long, and the stored description is at most 500 bytes long. -/
theorem built_expense_invariants :
    (∀ (userID : Option UserID) (categoryID : Option CategoryID) (amount : Option Money)
      (title description : String) (date t1 t2 now : Time) (fresh : String) (e : Expense),
      NewExpense userID categoryID amount title description date t1 t2 now fresh = .ok e →
      userID = some e.userID ∧ categoryID = some e.categoryID ∧ amount = some e.amount ∧
        TrimSpace e.title = e.title ∧ e.title ≠ "" ∧ len e.title ≤ 100 ∧
        len e.description ≤ 500) ∧
    (∀ (e r : Expense) (categoryID : Option CategoryID) (amount : Option Money)
      (title description : String) (date t1 t2 now : Time),
      e.UpdateDetails categoryID amount title description date t1 t2 now = (r, none) →
      r.userID = e.userID ∧ categoryID = some r.categoryID ∧ amount = some r.amount ∧
        TrimSpace r.title = r.title ∧ r.title ≠ "" ∧ len r.title ≤ 100 ∧
        len r.description ≤ 500) := by
  constructor
  · intro userID categoryID amount title description date t1 t2 now fresh e h
    obtain ⟨h1, h2, h3, ht, hd, et, ed⟩ := NewExpense_ok_inv _ _ _ _ _ _ _ _ _ _ _ h
    obtain ⟨g1, g2, g3⟩ := validateExpenseTitle_none_stored title ht
    have g4 := validateExpenseDescription_none_stored description hd
    rw [et, ed]
    exact ⟨h1, h2, h3, g1, g2, g3, g4⟩
  · intro e r categoryID amount title description date t1 t2 now h
    obtain ⟨cid, m, hc, hm, -, ht, hd, -, hr⟩ := UpdateDetails_ok_eq e r _ _ _ _ _ _ _ _ h
    obtain ⟨g1, g2, g3⟩ := validateExpenseTitle_none_stored title ht
    have g4 := validateExpenseDescription_none_stored description hd
    subst hr
    exact ⟨rfl, hc, hm, g1, g2, g3, g4⟩

theorem built_expense_invariants_witness :
    (sampleExpense "draft").UpdateDetails (some sampleCategoryID) (some sampleMoney)
        "  Bus  " "" sampleDate sampleNow sampleNow sampleNow = (busExpense, none) ∧
    (busExpense.userID = (sampleExpense "draft").userID ∧
      some sampleCategoryID = some busExpense.categoryID ∧
      some sampleMoney = some busExpense.amount ∧
      TrimSpace busExpense.title = busExpense.title ∧ busExpense.title ≠ "" ∧
      len busExpense.title ≤ 100 ∧ len busExpense.description ≤ 500) :=
  ⟨by decide, built_expense_invariants.2 _ _ _ _ "  Bus  " "" sampleDate sampleNow sampleNow
    sampleNow (by decide)⟩

/-! ## What a built user holds -/

/-- An accepted name is not empty once trimmed. -/
theorem validateUserName_none_stored (name : String) (h : validateUserName name = none) :
    TrimSpace name ≠ "" ∧ len (TrimSpace name) ≤ 100 := by
  unfold validateUserName at h
  by_cases he : TrimSpace name = ""
  · simp [he] at h
  · by_cases h100 : len (TrimSpace name) > 100
    · simp [he, h100] at h
    · exact ⟨he, by omega⟩

/-- An accepted email holds a `@` once trimmed and is between 5 and 255 bytes long. -/
theorem validateUserEmail_none_stored (email : String) (h : validateUserEmail email = none) :
    Contains (TrimSpace email) "@" = true ∧ 5 ≤ len (TrimSpace email) ∧
      len (TrimSpace email) ≤ 255 := by
  unfold validateUserEmail at h
  by_cases he : TrimSpace email = ""
  · simp [he] at h
  · by_cases hc : Contains (TrimSpace email) "@" = true
    · by_cases h5 : len (TrimSpace email) < 5
      · simp [he, hc, h5] at h
      · by_cases h255 : len (TrimSpace email) > 255
        · simp [he, hc, h5, h255] at h
        · exact ⟨hc, by omega, by omega⟩
    · simp [he, hc] at h

/-- C32. Every user returned by `NewUser`, and every user after a successful
`UpdateProfile`, has the trimmed name and the trimmed email it was given, the name is not
empty, and the email holds a `@` and is between 5 and 255 bytes long (Go `len`); an
`UpdateProfile` that returns an error returns the user as it was, so name, email and
`updatedAt` are unchanged. -/
theorem built_user_invariants :
    (∀ (name email : String) (now : Time) (fresh : String) (u : User),
      NewUser name email now fresh = .ok u →
      u.name = TrimSpace name ∧ u.email = TrimSpace email ∧ u.name ≠ "" ∧
        Contains u.email "@" = true ∧ 5 ≤ len u.email ∧ len u.email ≤ 255) ∧
    (∀ (u r : User) (name email : String) (now : Time),
      u.UpdateProfile name email now = (r, none) →
      r.name = TrimSpace name ∧ r.email = TrimSpace email ∧ r.name ≠ "" ∧
        Contains r.email "@" = true ∧ 5 ≤ len r.email ∧ len r.email ≤ 255) ∧
    (∀ (u r : User) (name email : String) (now : Time) (err : Error),
      u.UpdateProfile name email now = (r, some err) →
      r = u ∧ r.name = u.name ∧ r.email = u.email ∧ r.updatedAt = u.updatedAt) := by
  refine ⟨?_, ?_, ?_⟩
  · intro name email now fresh u h
    unfold NewUser at h
    cases hn : validateUserName name with
    | some err => rw [hn] at h; simp at h
    | none =>
      cases he : validateUserEmail email with
      | some err => rw [hn, he] at h; simp at h
      | none =>
        rw [hn, he] at h
        simp only [Except.ok.injEq] at h
        subst h
        obtain ⟨g1, -⟩ := validateUserName_none_stored name hn
        obtain ⟨g2, g3, g4⟩ := validateUserEmail_none_stored email he
        exact ⟨rfl, rfl, g1, g2, g3, g4⟩
  · intro u r name email now h
    unfold User.UpdateProfile at h
    cases hn : validateUserName name with
    | some err => rw [hn] at h; simp at h
    | none =>
      cases he : validateUserEmail email with
      | some err => rw [hn, he] at h; simp at h
      | none =>
        rw [hn, he] at h
        simp only [Prod.mk.injEq, and_true] at h
        subst h
        obtain ⟨g1, -⟩ := validateUserName_none_stored name hn
        obtain ⟨g2, g3, g4⟩ := validateUserEmail_none_stored email he
        exact ⟨rfl, rfl, g1, g2, g3, g4⟩
  · intro u r name email now err h
    unfold User.UpdateProfile at h
    cases hn : validateUserName name with
    | some e1 =>
      rw [hn] at h
      simp only [Prod.mk.injEq] at h
      obtain ⟨h1, -⟩ := h
      subst h1
      exact ⟨rfl, rfl, rfl, rfl⟩
    | none =>
      cases he : validateUserEmail email with
      | some e1 =>
        rw [hn, he] at h
        simp only [Prod.mk.injEq] at h
        obtain ⟨h1, -⟩ := h
        subst h1
        exact ⟨rfl, rfl, rfl, rfl⟩
      | none => rw [hn, he] at h; simp at h

theorem built_user_invariants_witness :
    NewUser " 田中太郎 " " t@e.com " sampleNow
        "11111111-1111-4111-8111-111111111111" = .ok sampleUser ∧
    (sampleUser.name = TrimSpace " 田中太郎 " ∧
      sampleUser.email = TrimSpace " t@e.com " ∧ sampleUser.name ≠ "" ∧
      Contains sampleUser.email "@" = true ∧ 5 ≤ len sampleUser.email ∧
      len sampleUser.email ≤ 255) :=
  ⟨rfl, built_user_invariants.1 _ _ sampleNow _ _ rfl⟩

/-! ## Expenses of an owner in a range of dates -/

/-- C33. For every state of the expense repository, owner id and instants `from` and
`to`, `FindByDateRange` returns without error the list of the stored expenses kept in
their order whose owner is that id and whose date `d` has `from ≤ d ≤ to`: an expense is
in the list exactly when it is stored, has that owner and has its date in the range with
both ends included; when no stored expense matches, the list is empty. -/
theorem FindByDateRange_exact (r : MemoryExpenseRepository) (userID : UserID)
    (fromTime toTime : Time) :
    ∃ l, r.FindByDateRange userID fromTime toTime = .ok l ∧
      l = r.expenses.values.filter (fun e =>
        e.userID.Equals (some userID) &&
          (decide (fromTime.ns ≤ e.date.ns) && decide (e.date.ns ≤ toTime.ns))) ∧
      (∀ e, e ∈ l ↔ e ∈ r.expenses.values ∧ e.userID = userID ∧
        fromTime.ns ≤ e.date.ns ∧ e.date.ns ≤ toTime.ns) ∧
      ((∀ e ∈ r.expenses.values, ¬ (e.userID = userID ∧
        fromTime.ns ≤ e.date.ns ∧ e.date.ns ≤ toTime.ns)) → l = []) := by
  have key : ∀ e : Expense,
      (e.userID.Equals (some userID) &&
        ((e.date.Equal fromTime || e.date.After fromTime) &&
          (e.date.Equal toTime || e.date.Before toTime))) = true ↔
      (e.userID = userID ∧ fromTime.ns ≤ e.date.ns ∧ e.date.ns ≤ toTime.ns) := by
    intro e
    have hu : e.userID.Equals (some userID) = true ↔ e.userID = userID := by
      obtain ⟨a⟩ := e.userID
      obtain ⟨b⟩ := userID
      simp [UserID.Equals]
    simp only [Bool.and_eq_true, Bool.or_eq_true, hu, Time.Equal, Time.After, Time.Before,
      beq_iff_eq, decide_eq_true_eq]
    constructor
    · rintro ⟨h1, h2, h3⟩
      exact ⟨h1, by omega, by omega⟩
    · rintro ⟨h1, h2, h3⟩
      exact ⟨h1, by omega, by omega⟩
  refine ⟨_, rfl, ?_, ?_, ?_⟩
  · apply List.filter_congr
    intro e _
    rw [Bool.eq_iff_iff, key e]
    have hu : e.userID.Equals (some userID) = true ↔ e.userID = userID := by
      obtain ⟨a⟩ := e.userID
      obtain ⟨b⟩ := userID
      simp [UserID.Equals]
    simp only [Bool.and_eq_true, hu, decide_eq_true_eq]
  · intro e
    rw [List.mem_filter, key e]
  · intro h
    rw [List.filter_eq_nil_iff]
    intro e he
    rw [key e]
    exact h e he

/-! ## The text of an identifier -/

/-- An accepted user id holds the text as given. -/
theorem NewUserID_ok_value (value : String) (id : UserID) (h : NewUserID value = .ok id) :
    id.value = value := by
  unfold NewUserID at h
  split at h
  · cases h
  · split at h
    · cases h
    · cases h; rfl

/-- An accepted category id holds the text as given. -/
theorem NewCategoryID_ok_value (value : String) (id : CategoryID)
    (h : NewCategoryID value = .ok id) : id.value = value := by
  unfold NewCategoryID at h
  split at h
  · cases h
  · split at h
    · cases h
    · cases h; rfl

/-- An accepted expense id holds the text as given. -/
theorem NewExpenseID_ok_value (value : String) (id : ExpenseID)
    (h : NewExpenseID value = .ok id) : id.value = value := by
  unfold NewExpenseID at h
  split at h
  · cases h
  · split at h
    · cases h
    · cases h; rfl

/-- C31, as stated, fails: `NewUserID`, `NewCategoryID` and `NewExpenseID` accept the
text `AAAAAAAA-AAAA-4AAA-8AAA-AAAAAAAAAAAA`, and `String()` of the identifier is that
text, which is not in the canonical lower-case form; the identifier built from the
lower-case spelling of the same UUID (the same bytes with the letters in lower case) is
not `Equals` to it. -/
theorem NewUserID_capital_letters_kept :
    NewUserID upperText = .ok ⟨upperText⟩ ∧
    NewCategoryID upperText = .ok ⟨upperText⟩ ∧
    NewExpenseID upperText = .ok ⟨upperText⟩ ∧
    (UserID.mk upperText).String = upperText ∧ (UserID.mk upperText).Value = upperText ∧
    isCanonicalUUID (UserID.mk upperText).String = false ∧
    isCanonicalUUID (CategoryID.mk upperText).String = false ∧
    isCanonicalUUID (ExpenseID.mk upperText).String = false ∧
    NewUserID lowerText = .ok ⟨lowerText⟩ ∧
    NewCategoryID lowerText = .ok ⟨lowerText⟩ ∧
    NewExpenseID lowerText = .ok ⟨lowerText⟩ ∧
    isCanonicalUUID lowerText = true ∧
    (bytes upperText).map lowerByte = bytes lowerText ∧
    (UserID.mk upperText).Equals (some ⟨lowerText⟩) = false ∧
    (CategoryID.mk upperText).Equals (some ⟨lowerText⟩) = false ∧
    (ExpenseID.mk upperText).Equals (some ⟨lowerText⟩) = false := by
  refine ⟨rfl, rfl, rfl, rfl, rfl, by decide, by decide, by decide, rfl, rfl, rfl,
    by decide, by decide, by decide, by decide, by decide⟩

/-- C31, amended. For every text accepted by `NewUserID`, `NewCategoryID` or
`NewExpenseID`, `String()` and `Value()` of the identifier are the accepted text itself,
unchanged, so they are in canonical form exactly when the text was; and two identifiers
of one kind are `Equals` exactly when their texts are the same. -/
theorem id_text_is_accepted_text :
    (∀ (value : String) (id : UserID), NewUserID value = .ok id →
      id.String = value ∧ id.Value = value ∧
        isCanonicalUUID id.String = isCanonicalUUID value) ∧
    (∀ (value : String) (id : CategoryID), NewCategoryID value = .ok id →
      id.String = value ∧ id.Value = value ∧
        isCanonicalUUID id.String = isCanonicalUUID value) ∧
    (∀ (value : String) (id : ExpenseID), NewExpenseID value = .ok id →
      id.String = value ∧ id.Value = value ∧
        isCanonicalUUID id.String = isCanonicalUUID value) ∧
    (∀ a b : UserID, a.Equals (some b) = true ↔ a.String = b.String) ∧
    (∀ a b : CategoryID, a.Equals (some b) = true ↔ a.String = b.String) ∧
    (∀ a b : ExpenseID, a.Equals (some b) = true ↔ a.String = b.String) := by
  refine ⟨?_, ?_, ?_, ?_, ?_, ?_⟩
  · intro value id h
    have hv := NewUserID_ok_value value id h
    exact ⟨hv, hv, congrArg isCanonicalUUID hv⟩
  · intro value id h
    have hv := NewCategoryID_ok_value value id h
    exact ⟨hv, hv, congrArg isCanonicalUUID hv⟩
  · intro value id h
    have hv := NewExpenseID_ok_value value id h
    exact ⟨hv, hv, congrArg isCanonicalUUID hv⟩
  · intro a b; simp [UserID.Equals, UserID.String]
  · intro a b; simp [CategoryID.Equals, CategoryID.String]
  · intro a b; simp [ExpenseID.Equals, ExpenseID.String]

theorem id_text_is_accepted_text_witness :
    NewUserID upperText = .ok ⟨upperText⟩ ∧
    ((UserID.mk upperText).String = upperText ∧ (UserID.mk upperText).Value = upperText ∧
      isCanonicalUUID (UserID.mk upperText).String = isCanonicalUUID upperText) :=
  ⟨rfl, id_text_is_accepted_text.1 upperText ⟨upperText⟩ rfl⟩

/-! ## What a constructed Money holds -/

/-- Rounding a quotient does not pass a representable bound. -/
theorem roundQ_le_of_le_mul (n d L : Nat) (hd : 0 < d) (hL : Representable L)
    (h : n ≤ L * d) : roundQ n d ≤ L := by
  unfold roundQ
  simp only
  have hq : n / d ≤ L := by
    calc n / d ≤ L * d / d := Nat.div_le_div_right h
      _ = L := Nat.mul_div_cancel _ hd
  by_cases h0 : n / d = 0
  · have hz : ilog2 0 = 0 := by decide
    rw [h0, hz]
    simp only [Nat.zero_sub, Nat.pow_zero, Nat.mul_one]
    exact rneDiv_le n d L hd h
  · obtain ⟨K, hK⟩ := hL.pow_dvd (n / d) (Nat.pos_of_ne_zero h0) hq
    have hpos : 0 < d * 2 ^ (ilog2 (n / d) - 52) := Nat.mul_pos hd (Nat.two_pow_pos _)
    have hn : n ≤ K * (d * 2 ^ (ilog2 (n / d) - 52)) := by
      have e : K * (d * 2 ^ (ilog2 (n / d) - 52)) = K * 2 ^ (ilog2 (n / d) - 52) * d := by ring
      rw [e, ← hK]
      exact h
    have hle := rneDiv_le n (d * 2 ^ (ilog2 (n / d) - 52)) K hpos hn
    calc rneDiv n (d * 2 ^ (ilog2 (n / d) - 52)) * 2 ^ (ilog2 (n / d) - 52)
        ≤ K * 2 ^ (ilog2 (n / d) - 52) := Nat.mul_le_mul_right _ hle
      _ = L := hK.symm

/-- The greatest finite magnitude is representable. -/
theorem maxFloat_representable : Representable ((2 ^ 53 - 1) * 2 ^ 2045) :=
  ⟨2 ^ 53 - 1, 2045, by decide, rfl⟩

theorem maxFloat_lt_top : (2 ^ 53 - 1) * 2 ^ 2045 < F64.top := by decide

theorem maxAmountUnits_hundred : maxAmountUnits * 100 ≤ (2 ^ 53 - 1) * 2 ^ 2045 := by decide

theorem F64.unit_le_maxFloat : F64.unit ≤ (2 ^ 53 - 1) * 2 ^ 2045 := by decide

/-- A packed quotient below the greatest finite magnitude is finite. -/
theorem F64.pack_false_fin (n d : Nat) (hd : 0 < d) (h : n ≤ (2 ^ 53 - 1) * 2 ^ 2045 * d) :
    F64.pack false n d = .fin (roundQ n d : Int) ∧ roundQ n d ≤ (2 ^ 53 - 1) * 2 ^ 2045 := by
  have hle := roundQ_le_of_le_mul n d _ hd maxFloat_representable h
  have hlt := maxFloat_lt_top
  unfold F64.pack
  simp only
  rw [if_neg (by omega)]
  exact ⟨by simp, hle⟩

/-- The rounding of `NewMoney` takes a finite amount within the limit to a finite amount
that is not negative. -/
theorem NewMoney_round_fin (a : Nat) (h : a ≤ maxAmountUnits) :
    ∃ q : Nat, (((F64.fin (a : Int)).mul (F64.ofNat 100)).Round).div (F64.ofNat 100)
      = .fin (q : Int) := by
  have hu := F64.unit_pos
  have hL := maxAmountUnits_hundred
  have huL := F64.unit_le_maxFloat
  rw [F64.ofNat_100, F64.mul_fin_nat]
  have hprod : a * (100 * F64.unit) ≤ (2 ^ 53 - 1) * 2 ^ 2045 * F64.unit := by
    have e : a * (100 * F64.unit) = a * 100 * F64.unit := by ring
    rw [e]
    exact Nat.mul_le_mul_right _ (Nat.le_trans (Nat.mul_le_mul_right _ h) hL)
  obtain ⟨hp, hple⟩ := F64.pack_false_fin (a * (100 * F64.unit)) F64.unit hu hprod
  rw [hp]
  generalize roundQ (a * (100 * F64.unit)) F64.unit = p at hple
  have hr : ¬ ((p : Int) < 0) := by omega
  have hround : F64.Round (.fin (p : Int))
      = .fin (((2 * p + F64.unit) / (2 * F64.unit) * F64.unit : Nat) : Int) := by
    simp only [F64.Round, Int.natAbs_ofNat, hr, if_false]
  rw [hround, F64.div_fin_nat _ _ (by omega)]
  have hk : (2 * p + F64.unit) / (2 * F64.unit) * (2 * F64.unit) ≤ 2 * p + F64.unit :=
    Nat.div_mul_le_self _ _
  generalize (2 * p + F64.unit) / (2 * F64.unit) = k at hk
  have e2 : k * (2 * F64.unit) = 2 * (k * F64.unit) := by ring
  rw [e2] at hk
  have hku : k * F64.unit ≤ (2 ^ 53 - 1) * 2 ^ 2045 * 100 := by omega
  have hq : k * F64.unit * F64.unit ≤ (2 ^ 53 - 1) * 2 ^ 2045 * (100 * F64.unit) := by
    have e3 : (2 ^ 53 - 1) * 2 ^ 2045 * (100 * F64.unit)
        = (2 ^ 53 - 1) * 2 ^ 2045 * 100 * F64.unit := by ring
    rw [e3]
    exact Nat.mul_le_mul_right _ hku
  obtain ⟨hp2, -⟩ := F64.pack_false_fin (k * F64.unit * F64.unit) (100 * F64.unit)
    (by omega) hq
  exact ⟨_, hp2⟩

/-- An amount that `NewMoney` accepts passes its two range checks. -/
theorem NewMoney_ok_range (amount : F64) (currency : String) (m : Money)
    (h : NewMoney amount currency = .ok m) :
    amount.lt (.fin 0) = false ∧ maxAmount.lt amount = false := by
  have hnot : ¬ ∃ err, NewMoney amount currency = .error err := by
    rintro ⟨err, he⟩
    rw [h] at he
    cases he
  rw [NewMoney_error_iff, F64.ofNat_zero] at hnot
  constructor
  · cases hb : amount.lt (.fin 0)
    · rfl
    · exact absurd (Or.inl hb) hnot
  · cases hb : maxAmount.lt amount
    · rfl
    · exact absurd (Or.inr hb) hnot

/-- The Money that `NewMoney` returns for a number holds a finite amount that is not
negative. -/
theorem NewMoney_ok_fin (amount : F64) (currency : String) (m : Money)
    (hn : amount ≠ .nan) (h : NewMoney amount currency = .ok m) :
    ∃ q : Nat, m.amount = .fin (q : Int) := by
  obtain ⟨h1, h2⟩ := NewMoney_ok_range amount currency m h
  have hm := NewMoney_ok_eq amount currency m h
  rw [maxAmount_eq] at h2
  cases amount with
  | nan => exact absurd rfl hn
  | inf s => cases s <;> simp [F64.lt] at h1 h2
  | fin z =>
    simp only [F64.lt, decide_eq_false_iff_not] at h1 h2
    obtain ⟨a, rfl⟩ : ∃ a : Nat, z = (a : Int) := ⟨z.toNat, by omega⟩
    obtain ⟨q, hq⟩ := NewMoney_round_fin a (by omega)
    exact ⟨q, by rw [hm]; exact hq⟩

/-- A finite amount that is not negative is `>= 0`. -/
theorem F64.fin_nat_ge_zero (q : Nat) : (F64.fin (q : Int)).ge (F64.ofNat 0) = true := by
  rw [F64.ofNat_zero]
  by_cases h : q = 0
  · subst h; decide
  · have : (0 : Int) < (q : Int) := by omega
    simp [F64.ge, F64.lt, this]

/-- A constructed Money is a Money that `NewMoney` returned. -/
theorem Money.Constructed.from_NewMoney {m : Money} (h : m.Constructed) :
    ∃ amount currency, NewMoney amount currency = .ok m := by
  cases h with
  | new amount currency _ h => exact ⟨amount, currency, h⟩
  | add a b _ _ _ h =>
    unfold Money.Add at h
    split at h
    · cases h
    · exact ⟨_, _, h⟩
  | subtract a b _ _ _ h =>
    unfold Money.Subtract at h
    split at h
    · cases h
    · exact ⟨_, _, h⟩
  | multiply a k _ _ h => exact ⟨_, _, h⟩

/-- A constructed Money whose amount is a number holds a finite amount that is not
negative. -/
theorem Money.Constructed.amount_fin {m : Money} (h : m.Constructed) (hn : m.amount ≠ .nan) :
    ∃ q : Nat, m.amount = .fin (q : Int) := by
  obtain ⟨amount, currency, hm⟩ := h.from_NewMoney
  by_cases ha : amount = .nan
  · subst ha
    have := NewMoney_ok_eq _ _ _ hm
    rw [this] at hn
    exact absurd rfl hn
  · exact NewMoney_ok_fin amount currency m ha hm

/-- `NewMoney` keeps a currency that is not empty. -/
theorem NewMoney_ok_currency (amount : F64) (currency : String) (m : Money)
    (hc : currency ≠ "") (h : NewMoney amount currency = .ok m) : m.currency = currency := by
  rw [NewMoney_ok_eq amount currency m h]
  simp [hc]

/-- C38, as stated, fails: `NewMoney` accepts NaN, and the Money it returns holds the
amount NaN, which is not `>= 0`; `Multiply` of the zero amount by plus infinity returns
such a Money from amounts that are numbers. -/
theorem NewMoney_NaN_accepted :
    NewMoney .nan "JPY" = .ok ⟨.nan, "JPY"⟩ ∧
    (Money.mk .nan "JPY").amount.ge (F64.ofNat 0) = false ∧
    NewMoney (F64.ofNat 0) "JPY" = .ok ⟨F64.ofNat 0, "JPY"⟩ ∧
    (Money.mk (F64.ofNat 0) "JPY").Multiply (.inf false) = .ok ⟨.nan, "JPY"⟩ := by
  refine ⟨rfl, by decide, ?_, ?_⟩
  · rfl
  · rfl

/-- C38, amended. Every Money value returned by `NewMoney`, and by `Add`, `Subtract` or
`Multiply` applied to Money values so constructed, has a non-empty currency and an
amount that is not below zero: the amount is NaN or a finite number `>= 0`, and it is a
finite number `>= 0` whenever the amount handed to `NewMoney` is not NaN. `Add` and
`Subtract` results carry the currency of the receiver, and their amount is a finite
number `>= 0` when neither operand holds NaN; the amount of a `Multiply` result is a
finite number `>= 0` when the product is not NaN. -/
theorem constructed_money_invariants :
    (∀ m : Money, m.Constructed →
      m.currency ≠ "" ∧ m.amount.lt (F64.ofNat 0) = false ∧
        (m.amount = .nan ∨
          ∃ q : Nat, m.amount = .fin (q : Int) ∧ m.amount.ge (F64.ofNat 0) = true)) ∧
    (∀ (amount : F64) (currency : String) (m : Money), amount ≠ .nan →
      NewMoney amount currency = .ok m →
      ∃ q : Nat, m.amount = .fin (q : Int) ∧ m.amount.ge (F64.ofNat 0) = true) ∧
    (∀ a b r : Money, a.Constructed → b.Constructed → a.Add b = .ok r →
      r.currency = a.currency ∧
        (a.amount ≠ .nan → b.amount ≠ .nan →
          ∃ q : Nat, r.amount = .fin (q : Int) ∧ r.amount.ge (F64.ofNat 0) = true)) ∧
    (∀ a b r : Money, a.Constructed → b.Constructed → a.Subtract b = .ok r →
      r.currency = a.currency ∧
        (a.amount ≠ .nan → b.amount ≠ .nan →
          ∃ q : Nat, r.amount = .fin (q : Int) ∧ r.amount.ge (F64.ofNat 0) = true)) ∧
    (∀ (a : Money) (multiplier : F64) (r : Money), a.Constructed →
      a.Multiply multiplier = .ok r → a.amount.mul multiplier ≠ .nan →
      ∃ q : Nat, r.amount = .fin (q : Int) ∧ r.amount.ge (F64.ofNat 0) = true) := by
  have hfin : ∀ (amount : F64) (currency : String) (m : Money), amount ≠ .nan →
      NewMoney amount currency = .ok m →
      ∃ q : Nat, m.amount = .fin (q : Int) ∧ m.amount.ge (F64.ofNat 0) = true := by
    intro amount currency m hn h
    obtain ⟨q, hq⟩ := NewMoney_ok_fin amount currency m hn h
    exact ⟨q, hq, by rw [hq]; exact F64.fin_nat_ge_zero q⟩
  have hbuilt : ∀ m : Money, m.Constructed → m.Built := by
    intro m hm
    obtain ⟨amount, currency, h⟩ := hm.from_NewMoney
    exact NewMoney_built amount currency m h
  refine ⟨?_, hfin, ?_, ?_, ?_⟩
  · intro m hm
    obtain ⟨hc, hlt⟩ := hbuilt m hm
    refine ⟨hc, hlt, ?_⟩
    by_cases hn : m.amount = .nan
    · exact Or.inl hn
    · obtain ⟨q, hq⟩ := hm.amount_fin hn
      exact Or.inr ⟨q, hq, by rw [hq]; exact F64.fin_nat_ge_zero q⟩
  · intro a b r ha hb h
    obtain ⟨hca, hlta⟩ := hbuilt a ha
    obtain ⟨-, hltb⟩ := hbuilt b hb
    rw [F64.ofNat_zero] at hlta hltb
    unfold Money.Add at h
    split at h
    · cases h
    · refine ⟨NewMoney_ok_currency _ _ _ hca h, fun hna hnb => ?_⟩
      exact hfin _ _ _ (F64.add_ne_nan _ _ hna hnb hlta hltb) h
  · intro a b r ha hb h
    obtain ⟨hca, -⟩ := hbuilt a ha
    unfold Money.Subtract at h
    split at h
    · cases h
    · refine ⟨NewMoney_ok_currency _ _ _ hca h, fun hna hnb => ?_⟩
      obtain ⟨qa, hqa⟩ := ha.amount_fin hna
      obtain ⟨qb, hqb⟩ := hb.amount_fin hnb
      refine hfin _ _ _ ?_ h
      rw [hqa, hqb]
      unfold F64.sub F64.neg F64.add
      exact F64.pack_ne_nan _ _ _
  · intro a k r ha h hn
    exact hfin _ _ _ hn h

theorem constructed_money_invariants_witness :
    (Money.mk (F64.ofNat 1500) "JPY").Constructed ∧
    ((Money.mk (F64.ofNat 1500) "JPY").currency ≠ "" ∧
      (Money.mk (F64.ofNat 1500) "JPY").amount.lt (F64.ofNat 0) = false ∧
      ((Money.mk (F64.ofNat 1500) "JPY").amount = .nan ∨
        ∃ q : Nat, (Money.mk (F64.ofNat 1500) "JPY").amount = .fin (q : Int) ∧
          (Money.mk (F64.ofNat 1500) "JPY").amount.ge (F64.ofNat 0) = true)) :=
  ⟨Money.Constructed.new (F64.ofNat 1500) "JPY" _ (NewMoney_whole 1500 "JPY" (by decide)),
    constructed_money_invariants.1 _
      (Money.Constructed.new (F64.ofNat 1500) "JPY" _ (NewMoney_whole 1500 "JPY" (by decide)))⟩

/-! ## The status transitions of the expense use case -/

/-- What `changeExpenseStatus` does: it fails on the request and leaves the repositories
as they were, or it has applied the transition to the stored expense, and then it returns
the response or one of three errors. -/
theorem changeExpenseStatus_cases (uc : ExpenseUseCase) (expenseID action : String)
    (now : Time) :
    ((uc.changeExpenseStatus expenseID action now).1 = uc ∧
      ((∃ msg, (uc.changeExpenseStatus expenseID action now).2
          = .error (.application "VALIDATION_FAILED" msg)) ∨
        (uc.changeExpenseStatus expenseID action now).2
          = .error (.application "EXPENSE_NOT_FOUND" "経費が見つかりません"))) ∨
    ∃ id e e1, NewExpenseID expenseID = .ok id ∧
      uc.expenseRepo.expenses.get id.String = some e ∧
      ((action = "submit" ∧ e.Submit now = (e1, none)) ∨
        (action = "approve" ∧ e.Approve now = (e1, none)) ∨
        (action = "reject" ∧ e.Reject now = (e1, none))) ∧
      (uc.changeExpenseStatus expenseID action now).1.userRepo = uc.userRepo ∧
      (uc.changeExpenseStatus expenseID action now).1.categoryRepo = uc.categoryRepo ∧
      ((uc.changeExpenseStatus expenseID action now).1.expenseRepo.expenses
          = uc.expenseRepo.expenses.set id.String e1 ∨
        (uc.changeExpenseStatus expenseID action now).1.expenseRepo.expenses
          = (uc.expenseRepo.expenses.set id.String e1).set e1.id.String e1) ∧
      ((uc.changeExpenseStatus expenseID action now).2
          = .error (.application "EXPENSE_UPDATE_FAILED" "経費のステータス更新に失敗しました") ∨
        (uc.changeExpenseStatus expenseID action now).2
          = .error (.application "USER_NOT_FOUND" "ユーザーが見つかりません") ∨
        (uc.changeExpenseStatus expenseID action now).2
          = .error (.application "CATEGORY_NOT_FOUND" "カテゴリが見つかりません") ∨
        ∃ u c, uc.userRepo.users.get e1.userID.String = some u ∧
          uc.categoryRepo.categories.get e1.categoryID.String = some c ∧
          (uc.changeExpenseStatus expenseID action now).2
            = .ok (ExpenseUseCase.buildExpenseResponse e1 u c)) := by
  unfold ExpenseUseCase.changeExpenseStatus
  cases hid : NewExpenseID expenseID with
  | error err => exact Or.inl ⟨rfl, Or.inl ⟨_, rfl⟩⟩
  | ok id =>
    dsimp only
    unfold MemoryExpenseRepository.FindByID
    cases hget : uc.expenseRepo.expenses.get id.String with
    | none => exact Or.inl ⟨rfl, Or.inr rfl⟩
    | some e =>
      dsimp only
      split
      · exact Or.inl ⟨rfl, Or.inl ⟨_, rfl⟩⟩
      · exact Or.inl ⟨rfl, Or.inl ⟨_, rfl⟩⟩
      · rename_i e1 hch
        right
        have htr : (action = "submit" ∧ e.Submit now = (e1, none)) ∨
            (action = "approve" ∧ e.Approve now = (e1, none)) ∨
            (action = "reject" ∧ e.Reject now = (e1, none)) := by
          split at hch
          · rename_i h1
            exact Or.inl ⟨by simpa using h1, by simpa using hch⟩
          · split at hch
            · rename_i h2
              exact Or.inr (Or.inl ⟨by simpa using h2, by simpa using hch⟩)
            · split at hch
              · rename_i h3
                exact Or.inr (Or.inr ⟨by simpa using h3, by simpa using hch⟩)
              · cases hch
        refine ⟨id, e, e1, rfl, hget, htr, ?_⟩
        unfold MemoryExpenseRepository.Update
        dsimp only
        cases hg1 : (uc.expenseRepo.expenses.set id.String e1).get e1.id.String with
        | none => exact ⟨rfl, rfl, Or.inl rfl, Or.inl rfl⟩
        | some e2 =>
          dsimp only
          unfold MemoryUserRepository.FindByID
          cases hu : uc.userRepo.users.get e1.userID.String with
          | none => exact ⟨rfl, rfl, Or.inr rfl, Or.inr (Or.inl rfl)⟩
          | some u =>
            dsimp only
            unfold MemoryCategoryRepository.FindByID
            cases hc : uc.categoryRepo.categories.get e1.categoryID.String with
            | none => exact ⟨rfl, rfl, Or.inr rfl, Or.inr (Or.inr (Or.inl rfl))⟩
            | some c =>
              exact ⟨rfl, rfl, Or.inr rfl, Or.inr (Or.inr (Or.inr ⟨u, c, rfl, rfl, rfl⟩))⟩

/-- After the transition was applied, the expense stored under the id is the changed
one. -/
theorem GoMap.get_set_set_self {α : Type} (m : GoMap α) (k k2 : String) (v : α) :
    ((m.set k v).set k2 v).get k = some v := by
  by_cases h : k = k2
  · subst h
    exact GoMap.get_set_self _ _ _
  · rw [GoMap.get_set_ne _ _ _ _ h]
    exact GoMap.get_set_self _ _ _

/-- An error of `changeExpenseStatus` either comes before the transition, with the code
`VALIDATION_FAILED` or `EXPENSE_NOT_FOUND` and the repositories as they were, or after
it, with one of three other codes and the changed expense stored. -/
theorem changeExpenseStatus_error_effect (uc : ExpenseUseCase) (expenseID action : String)
    (now : Time) (err : Error)
    (h : (uc.changeExpenseStatus expenseID action now).2 = .error err) :
    ((err.code = "VALIDATION_FAILED" ∨ err.code = "EXPENSE_NOT_FOUND") ∧
      (uc.changeExpenseStatus expenseID action now).1 = uc) ∨
    ((err.code = "EXPENSE_UPDATE_FAILED" ∨ err.code = "USER_NOT_FOUND" ∨
        err.code = "CATEGORY_NOT_FOUND") ∧
      ∃ id e e1, NewExpenseID expenseID = .ok id ∧ uc.expenseRepo.FindByID id = .ok e ∧
        ((action = "submit" ∧ e.Submit now = (e1, none)) ∨
          (action = "approve" ∧ e.Approve now = (e1, none)) ∨
          (action = "reject" ∧ e.Reject now = (e1, none))) ∧
        (uc.changeExpenseStatus expenseID action now).1.expenseRepo.FindByID id = .ok e1) := by
  rcases changeExpenseStatus_cases uc expenseID action now with ⟨h1, h2⟩ |
    ⟨id, e, e1, hid, hget, htr, -, -, hrepo, hres⟩
  · left
    refine ⟨?_, h1⟩
    rcases h2 with ⟨msg, h2⟩ | h2
    · rw [h2] at h
      cases h
      exact Or.inl rfl
    · rw [h2] at h
      cases h
      exact Or.inr rfl
  · right
    constructor
    · rcases hres with h2 | h2 | h2 | ⟨u, c, -, -, h2⟩
      · rw [h2] at h; cases h; exact Or.inl rfl
      · rw [h2] at h; cases h; exact Or.inr (Or.inl rfl)
      · rw [h2] at h; cases h; exact Or.inr (Or.inr rfl)
      · rw [h2] at h; cases h
    · refine ⟨id, e, e1, hid, ?_, htr, ?_⟩
      · unfold MemoryExpenseRepository.FindByID
        rw [hget]
      · unfold MemoryExpenseRepository.FindByID
        rcases hrepo with hr | hr
        · rw [hr, GoMap.get_set_self]
        · rw [hr, GoMap.get_set_set_self]

/-- A successful `Submit` started from a draft and sets the status and `updatedAt`. -/
theorem Submit_ok_eq (e e1 : Expense) (now : Time) (h : e.Submit now = (e1, none)) :
    e.status = ExpenseStatusDraft ∧
      e1 = { e with status := ExpenseStatusSubmitted, updatedAt := now } := by
  unfold Expense.Submit at h
  split at h
  · simp at h
  · rename_i hs
    simp only [Prod.mk.injEq, and_true] at h
    exact ⟨by simpa using hs, h.symm⟩

/-- A successful `Approve` started from a submitted expense and sets the status and
`updatedAt`. -/
theorem Approve_ok_eq (e e1 : Expense) (now : Time) (h : e.Approve now = (e1, none)) :
    e.status = ExpenseStatusSubmitted ∧
      e1 = { e with status := ExpenseStatusApproved, updatedAt := now } := by
  unfold Expense.Approve at h
  split at h
  · simp at h
  · rename_i hs
    simp only [Prod.mk.injEq, and_true] at h
    exact ⟨by simpa using hs, h.symm⟩

/-- A successful `Reject` started from a submitted expense and sets the status and
`updatedAt`. -/
theorem Reject_ok_eq (e e1 : Expense) (now : Time) (h : e.Reject now = (e1, none)) :
    e.status = ExpenseStatusSubmitted ∧
      e1 = { e with status := ExpenseStatusRejected, updatedAt := now } := by
  unfold Expense.Reject at h
  split at h
  · simp at h
  · rename_i hs
    simp only [Prod.mk.injEq, and_true] at h
    exact ⟨by simpa using hs, h.symm⟩

/-- C34, as stated, fails: in the state left by `DeleteUser` of the owner of a stored
draft expense, `SubmitExpense` of that expense returns the error `USER_NOT_FOUND`, and
afterwards the expense stored under the id has the status `submitted` and the
`updatedAt` of the call, not the `draft` and the `updatedAt` it had. -/
theorem SubmitExpense_error_after_status_change :
    ownerDeletedState.expenseRepo.FindByID ⟨"33333333-3333-4333-8333-333333333333"⟩
      = .ok (sampleExpense "draft") ∧
    (ownerDeletedState.SubmitExpense "33333333-3333-4333-8333-333333333333" nextNoon).2
      = .error (.application "USER_NOT_FOUND" "ユーザーが見つかりません") ∧
    (ownerDeletedState.SubmitExpense "33333333-3333-4333-8333-333333333333"
        nextNoon).1.expenseRepo.FindByID ⟨"33333333-3333-4333-8333-333333333333"⟩
      = .ok submittedExpense ∧
    submittedExpense.status ≠ (sampleExpense "draft").status ∧
    submittedExpense.updatedAt ≠ (sampleExpense "draft").updatedAt := by
  refine ⟨rfl, rfl, rfl, by decide, by decide⟩

/-- C34, amended. When `SubmitExpense`, `ApproveExpense` or `RejectExpense` returns an
error with the code `VALIDATION_FAILED` or `EXPENSE_NOT_FOUND` (malformed id, no expense
under the id, transition not allowed in the present status), the three repositories are
as before the call, so the expense stored under the id, if any, has the status and
`updatedAt` it had. Every other error has the code `EXPENSE_UPDATE_FAILED`,
`USER_NOT_FOUND` or `CATEGORY_NOT_FOUND` and is returned after the transition was made:
the expense stored under the id was in the status the transition starts from and is now
stored with the new status and the `updatedAt` of the call. -/
theorem status_change_error_effect (uc : ExpenseUseCase) (expenseID : String) (now : Time)
    (err : Error) :
    ((uc.SubmitExpense expenseID now).2 = .error err →
      ((err.code = "VALIDATION_FAILED" ∨ err.code = "EXPENSE_NOT_FOUND") ∧
        (uc.SubmitExpense expenseID now).1 = uc) ∨
      ((err.code = "EXPENSE_UPDATE_FAILED" ∨ err.code = "USER_NOT_FOUND" ∨
          err.code = "CATEGORY_NOT_FOUND") ∧
        ∃ id e, NewExpenseID expenseID = .ok id ∧ uc.expenseRepo.FindByID id = .ok e ∧
          e.status = ExpenseStatusDraft ∧
          (uc.SubmitExpense expenseID now).1.expenseRepo.FindByID id
            = .ok { e with status := ExpenseStatusSubmitted, updatedAt := now })) ∧
    ((uc.ApproveExpense expenseID now).2 = .error err →
      ((err.code = "VALIDATION_FAILED" ∨ err.code = "EXPENSE_NOT_FOUND") ∧
        (uc.ApproveExpense expenseID now).1 = uc) ∨
      ((err.code = "EXPENSE_UPDATE_FAILED" ∨ err.code = "USER_NOT_FOUND" ∨
          err.code = "CATEGORY_NOT_FOUND") ∧
        ∃ id e, NewExpenseID expenseID = .ok id ∧ uc.expenseRepo.FindByID id = .ok e ∧
          e.status = ExpenseStatusSubmitted ∧
          (uc.ApproveExpense expenseID now).1.expenseRepo.FindByID id
            = .ok { e with status := ExpenseStatusApproved, updatedAt := now })) ∧
    ((uc.RejectExpense expenseID now).2 = .error err →
      ((err.code = "VALIDATION_FAILED" ∨ err.code = "EXPENSE_NOT_FOUND") ∧
        (uc.RejectExpense expenseID now).1 = uc) ∨
      ((err.code = "EXPENSE_UPDATE_FAILED" ∨ err.code = "USER_NOT_FOUND" ∨
          err.code = "CATEGORY_NOT_FOUND") ∧
        ∃ id e, NewExpenseID expenseID = .ok id ∧ uc.expenseRepo.FindByID id = .ok e ∧
          e.status = ExpenseStatusSubmitted ∧
          (uc.RejectExpense expenseID now).1.expenseRepo.FindByID id
            = .ok { e with status := ExpenseStatusRejected, updatedAt := now })) := by
  refine ⟨?_, ?_, ?_⟩
  · intro h
    rcases changeExpenseStatus_error_effect uc expenseID "submit" now err h with h1 |
      ⟨hc, id, e, e1, hid, hf, htr, hst⟩
    · exact Or.inl h1
    · rcases htr with ⟨-, ht⟩ | ⟨ha, -⟩ | ⟨ha, -⟩
      · obtain ⟨hs, he1⟩ := Submit_ok_eq e e1 now ht
        subst he1
        exact Or.inr ⟨hc, id, e, hid, hf, hs, hst⟩
      · exact absurd ha (by decide)
      · exact absurd ha (by decide)
  · intro h
    rcases changeExpenseStatus_error_effect uc expenseID "approve" now err h with h1 |
      ⟨hc, id, e, e1, hid, hf, htr, hst⟩
    · exact Or.inl h1
    · rcases htr with ⟨ha, -⟩ | ⟨-, ht⟩ | ⟨ha, -⟩
      · exact absurd ha (by decide)
      · obtain ⟨hs, he1⟩ := Approve_ok_eq e e1 now ht
        subst he1
        exact Or.inr ⟨hc, id, e, hid, hf, hs, hst⟩
      · exact absurd ha (by decide)
  · intro h
    rcases changeExpenseStatus_error_effect uc expenseID "reject" now err h with h1 |
      ⟨hc, id, e, e1, hid, hf, htr, hst⟩
    · exact Or.inl h1
    · rcases htr with ⟨ha, -⟩ | ⟨ha, -⟩ | ⟨-, ht⟩
      · exact absurd ha (by decide)
      · exact absurd ha (by decide)
      · obtain ⟨hs, he1⟩ := Reject_ok_eq e e1 now ht
        subst he1
        exact Or.inr ⟨hc, id, e, hid, hf, hs, hst⟩

theorem status_change_error_effect_witness :
    ((oneExpenseState "approved").SubmitExpense "33333333-3333-4333-8333-333333333333"
        nextNoon).2 = .error submitRefused ∧
    (((submitRefused.code = "VALIDATION_FAILED" ∨ submitRefused.code = "EXPENSE_NOT_FOUND") ∧
      ((oneExpenseState "approved").SubmitExpense "33333333-3333-4333-8333-333333333333"
        nextNoon).1 = oneExpenseState "approved") ∨
    ((submitRefused.code = "EXPENSE_UPDATE_FAILED" ∨ submitRefused.code = "USER_NOT_FOUND" ∨
        submitRefused.code = "CATEGORY_NOT_FOUND") ∧
      ∃ id e, NewExpenseID "33333333-3333-4333-8333-333333333333" = .ok id ∧
        (oneExpenseState "approved").expenseRepo.FindByID id = .ok e ∧
        e.status = ExpenseStatusDraft ∧
        ((oneExpenseState "approved").SubmitExpense "33333333-3333-4333-8333-333333333333"
          nextNoon).1.expenseRepo.FindByID id
            = .ok { e with status := ExpenseStatusSubmitted, updatedAt := nextNoon })) :=
  ⟨rfl, (status_change_error_effect (oneExpenseState "approved")
    "33333333-3333-4333-8333-333333333333" nextNoon submitRefused).1 rfl⟩

/-! ## Every stored expense names a stored category -/

/-- Writing a key keeps every key that was present. -/
theorem GoMap.get_set_present {α : Type} (m : GoMap α) (k k2 : String) (v c : α)
    (h : m.get k2 = some c) : ∃ c1, (m.set k v).get k2 = some c1 := by
  by_cases hk : k2 = k
  · subst hk
    exact ⟨v, GoMap.get_set_self _ _ _⟩
  · exact ⟨c, by rw [GoMap.get_set_ne _ _ _ _ hk]; exact h⟩

/-- An entry left by `delete` was there before. -/
theorem GoMap.mem_of_mem_delete {α : Type} (m : GoMap α) (k : String) (p : String × α)
    (h : p ∈ m.delete k) : p ∈ m := by
  unfold GoMap.delete at h
  exact (List.mem_filter.1 h).1

/-- `CreateCategory` leaves the expenses alone and keeps every stored category key. -/
theorem CreateCategory_keeps (uc : CategoryUseCase) (req : CreateCategoryRequest)
    (now : Time) (fresh : String) :
    (uc.CreateCategory req now fresh).1.expenseRepo = uc.expenseRepo ∧
    ∀ k c, uc.categoryRepo.categories.get k = some c →
      ∃ c1, (uc.CreateCategory req now fresh).1.categoryRepo.categories.get k = some c1 := by
  unfold CategoryUseCase.CreateCategory
  cases uc.categoryRepo.FindByName req.Name with
  | ok _ => exact ⟨rfl, fun k c h => ⟨c, h⟩⟩
  | error _ =>
    dsimp only
    cases NewCategory req.Name req.Description req.Color now fresh with
    | error err => exact ⟨rfl, fun k c h => ⟨c, h⟩⟩
    | ok category =>
      refine ⟨rfl, fun k c h => ?_⟩
      exact GoMap.get_set_present _ _ _ _ _ h

/-- `UpdateCategory` leaves the expenses alone and keeps every stored category key. -/
theorem UpdateCategory_keeps (uc : CategoryUseCase) (categoryID : String)
    (req : UpdateCategoryRequest) (now : Time) :
    (uc.UpdateCategory categoryID req now).1.expenseRepo = uc.expenseRepo ∧
    ∀ k c, uc.categoryRepo.categories.get k = some c →
      ∃ c1, (uc.UpdateCategory categoryID req now).1.categoryRepo.categories.get k
        = some c1 := by
  unfold CategoryUseCase.UpdateCategory
  cases NewCategoryID categoryID with
  | error err => exact ⟨rfl, fun k c h => ⟨c, h⟩⟩
  | ok id =>
    dsimp only
    cases uc.categoryRepo.FindByID id with
    | error _ => exact ⟨rfl, fun k c h => ⟨c, h⟩⟩
    | ok category =>
      dsimp only
      split
      · exact ⟨rfl, fun k c h => ⟨c, h⟩⟩
      · rcases hup : category.Update req.Name req.Description req.Color now with ⟨c1, err⟩
        cases err with
        | some err => exact ⟨rfl, fun k c h => ⟨c, h⟩⟩
        | none =>
          dsimp only
          unfold MemoryCategoryRepository.Update
          dsimp only
          cases (uc.categoryRepo.categories.set id.String c1).get c1.id.String with
          | none =>
            exact ⟨rfl, fun k c h => GoMap.get_set_present _ _ _ _ _ h⟩
          | some c2 =>
            refine ⟨rfl, fun k c h => ?_⟩
            obtain ⟨c3, h3⟩ := GoMap.get_set_present uc.categoryRepo.categories id.String k
              c1 c h
            exact GoMap.get_set_present _ _ _ _ _ h3

/-- `DeleteCategory` leaves the expenses alone and keeps every category key that a
stored expense names. -/
theorem DeleteCategory_keeps (uc : CategoryUseCase) (categoryID : String) :
    (uc.DeleteCategory categoryID).1.expenseRepo = uc.expenseRepo ∧
    ∀ p ∈ uc.expenseRepo.expenses, ∀ c,
      uc.categoryRepo.categories.get p.2.categoryID.String = some c →
      ∃ c1, (uc.DeleteCategory categoryID).1.categoryRepo.categories.get
        p.2.categoryID.String = some c1 := by
  unfold CategoryUseCase.DeleteCategory
  cases NewCategoryID categoryID with
  | error err => exact ⟨rfl, fun p _ c h => ⟨c, h⟩⟩
  | ok id =>
    dsimp only
    unfold MemoryCategoryRepository.Exists
    cases hex : (uc.categoryRepo.categories.get id.String).isSome with
    | false => exact ⟨rfl, fun p _ c h => ⟨c, h⟩⟩
    | true =>
      dsimp only
      unfold MemoryExpenseRepository.FindByCategoryID
      dsimp only
      split
      · exact ⟨rfl, fun p _ c h => ⟨c, h⟩⟩
      · rename_i hlen
        unfold MemoryCategoryRepository.Delete
        cases hg : uc.categoryRepo.categories.get id.String with
        | none => exact ⟨rfl, fun p _ c h => ⟨c, h⟩⟩
        | some c0 =>
          refine ⟨rfl, fun p hp c h => ⟨c, ?_⟩⟩
          have hnil : uc.expenseRepo.expenses.values.filter
              (fun expense => expense.categoryID.Equals (some id)) = [] := by
            apply List.eq_nil_of_length_eq_zero
            omega
          have hmem : p.2 ∈ uc.expenseRepo.expenses.values := by
            unfold GoMap.values
            exact List.mem_map_of_mem _ hp
          have hne : p.2.categoryID.Equals (some id) ≠ true := by
            intro heq
            have : p.2 ∈ uc.expenseRepo.expenses.values.filter
                (fun expense => expense.categoryID.Equals (some id)) :=
              List.mem_filter.2 ⟨hmem, heq⟩
            rw [hnil] at this
            cases this
          have hkey : p.2.categoryID.String ≠ id.String := by
            intro heq
            apply hne
            simpa [CategoryID.Equals, CategoryID.String] using heq
          show (uc.categoryRepo.categories.delete id.String).get p.2.categoryID.String = some c
          rw [GoMap.get_delete_ne _ _ _ hkey]
          exact h

/-- `CreateExpense` leaves the categories alone, and an expense stored after it was
stored before or names a stored category. -/
theorem CreateExpense_keeps (uc : ExpenseUseCase) (userID : String)
    (req : CreateExpenseRequest) (t1 t2 now : Time) (fresh : String) :
    (uc.CreateExpense userID req t1 t2 now fresh).1.categoryRepo = uc.categoryRepo ∧
    ∀ p ∈ (uc.CreateExpense userID req t1 t2 now fresh).1.expenseRepo.expenses,
      p ∈ uc.expenseRepo.expenses ∨
        ∃ c, uc.categoryRepo.categories.get p.2.categoryID.String = some c := by
  rcases CreateExpense_cases uc userID req t1 t2 now fresh with ⟨err, he⟩ |
    ⟨uid, user, cid, category, amount, expense, hu, hf, hc, hcf, hm, hn, heq⟩
  · rw [he]
    exact ⟨rfl, fun p hp => Or.inl hp⟩
  · rw [heq]
    refine ⟨rfl, fun p hp => ?_⟩
    rcases GoMap.mem_set _ _ _ _ hp with h1 | h1
    · right
      subst h1
      have hfields := NewExpense_fields uid cid amount _ _ _ _ _ _ _ _ hn
      unfold MemoryCategoryRepository.FindByID at hcf
      cases hg : uc.categoryRepo.categories.get cid.String with
      | none => rw [hg] at hcf; cases hcf
      | some c =>
        refine ⟨c, ?_⟩
        show uc.categoryRepo.categories.get expense.categoryID.String = some c
        rw [hfields]
        exact hg
    · exact Or.inl h1

/-- `UpdateExpense` leaves the categories alone, and an expense stored after it was
stored before or names a stored category. -/
theorem UpdateExpense_keeps (uc : ExpenseUseCase) (expenseID : String)
    (req : UpdateExpenseRequest) (t1 t2 now : Time) :
    (uc.UpdateExpense expenseID req t1 t2 now).1.categoryRepo = uc.categoryRepo ∧
    ∀ p ∈ (uc.UpdateExpense expenseID req t1 t2 now).1.expenseRepo.expenses,
      p ∈ uc.expenseRepo.expenses ∨
        ∃ c, uc.categoryRepo.categories.get p.2.categoryID.String = some c := by
  unfold ExpenseUseCase.UpdateExpense
  cases NewExpenseID expenseID with
  | error err => exact ⟨rfl, fun p hp => Or.inl hp⟩
  | ok id =>
    dsimp only
    cases uc.expenseRepo.FindByID id with
    | error _ => exact ⟨rfl, fun p hp => Or.inl hp⟩
    | ok expense =>
      dsimp only
      cases NewCategoryID req.CategoryID with
      | error err => exact ⟨rfl, fun p hp => Or.inl hp⟩
      | ok cid =>
        dsimp only
        unfold MemoryCategoryRepository.FindByID
        cases hg : uc.categoryRepo.categories.get cid.String with
        | none => exact ⟨rfl, fun p hp => Or.inl hp⟩
        | some category =>
          dsimp only
          cases NewMoney req.Amount (if (req.Currency == "") = true then "JPY"
              else req.Currency) with
          | error err => exact ⟨rfl, fun p hp => Or.inl hp⟩
          | ok amount =>
            dsimp only
            rcases hup : expense.UpdateDetails (some cid) (some amount) req.Title
                req.Description req.Date t1 t2 now with ⟨e1, err⟩
            cases err with
            | some err => exact ⟨rfl, fun p hp => Or.inl hp⟩
            | none =>
              dsimp only
              obtain ⟨cid1, m1, hc1, -, -, -, -, -, he1⟩ :=
                UpdateDetails_ok_eq expense e1 _ _ _ _ _ _ _ _ hup
              have hcid : e1.categoryID = cid := by
                rw [he1]
                exact (Option.some.inj hc1).symm
              have hnew : ∀ p : String × Expense, p.2 = e1 →
                  ∃ c, uc.categoryRepo.categories.get p.2.categoryID.String = some c := by
                intro p hp
                rw [hp, hcid]
                exact ⟨category, hg⟩
              unfold MemoryExpenseRepository.Update
              dsimp only
              cases (uc.expenseRepo.expenses.set id.String e1).get e1.id.String with
              | none =>
                refine ⟨rfl, fun p hp => ?_⟩
                rcases GoMap.mem_set _ _ _ _ hp with h1 | h1
                · exact Or.inr (hnew p (by rw [h1]))
                · exact Or.inl h1
              | some e2 =>
                dsimp only
                have hall : ∀ p ∈ (uc.expenseRepo.expenses.set id.String e1).set
                    e1.id.String e1,
                    p ∈ uc.expenseRepo.expenses ∨
                      ∃ c, uc.categoryRepo.categories.get p.2.categoryID.String = some c := by
                  intro p hp
                  rcases GoMap.mem_set _ _ _ _ hp with h1 | h1
                  · exact Or.inr (hnew p (by rw [h1]))
                  · rcases GoMap.mem_set _ _ _ _ h1 with h2 | h2
                    · exact Or.inr (hnew p (by rw [h2]))
                    · exact Or.inl h2
                cases uc.userRepo.FindByID e1.userID with
                | error _ => exact ⟨rfl, hall⟩
                | ok user => exact ⟨rfl, hall⟩

/-- `DeleteExpense` leaves the categories alone, and an expense stored after it was
stored before. -/
theorem DeleteExpense_keeps (uc : ExpenseUseCase) (expenseID : String) :
    (uc.DeleteExpense expenseID).1.categoryRepo = uc.categoryRepo ∧
    ∀ p ∈ (uc.DeleteExpense expenseID).1.expenseRepo.expenses, p ∈ uc.expenseRepo.expenses := by
  unfold ExpenseUseCase.DeleteExpense
  cases NewExpenseID expenseID with
  | error err => exact ⟨rfl, fun p hp => hp⟩
  | ok id =>
    dsimp only
    unfold MemoryExpenseRepository.Exists
    cases (uc.expenseRepo.expenses.get id.String).isSome with
    | false => exact ⟨rfl, fun p hp => hp⟩
    | true =>
      dsimp only
      unfold MemoryExpenseRepository.Delete
      cases uc.expenseRepo.expenses.get id.String with
      | none => exact ⟨rfl, fun p hp => hp⟩
      | some e => exact ⟨rfl, fun p hp => GoMap.mem_of_mem_delete _ _ _ hp⟩

/-- `changeExpenseStatus` leaves the categories alone, and an expense stored after it
was stored before or has the category of an expense stored before. -/
theorem changeExpenseStatus_keeps (uc : ExpenseUseCase) (expenseID action : String)
    (now : Time) :
    (uc.changeExpenseStatus expenseID action now).1.categoryRepo = uc.categoryRepo ∧
    ∀ p ∈ (uc.changeExpenseStatus expenseID action now).1.expenseRepo.expenses,
      p ∈ uc.expenseRepo.expenses ∨
        ∃ q ∈ uc.expenseRepo.expenses, p.2.categoryID = q.2.categoryID := by
  rcases changeExpenseStatus_cases uc expenseID action now with ⟨h1, -⟩ |
    ⟨id, e, e1, hid, hget, htr, -, hcat, hrepo, -⟩
  · rw [h1]
    exact ⟨rfl, fun p hp => Or.inl hp⟩
  · refine ⟨hcat, fun p hp => ?_⟩
    have hcid : e1.categoryID = e.categoryID := by
      rcases htr with ⟨-, ht⟩ | ⟨-, ht⟩ | ⟨-, ht⟩
      · rw [(Submit_ok_eq e e1 now ht).2]
      · rw [(Approve_ok_eq e e1 now ht).2]
      · rw [(Reject_ok_eq e e1 now ht).2]
    have hmem := GoMap.mem_of_get _ _ _ hget
    have hnew : ∀ p : String × Expense, p.2 = e1 →
        ∃ q ∈ uc.expenseRepo.expenses, p.2.categoryID = q.2.categoryID := by
      intro p hp
      exact ⟨(id.String, e), hmem, by rw [hp, hcid]⟩
    rcases hrepo with hr | hr
    · rw [hr] at hp
      rcases GoMap.mem_set _ _ _ _ hp with h1 | h1
      · exact Or.inr (hnew p (by rw [h1]))
      · exact Or.inl h1
    · rw [hr] at hp
      rcases GoMap.mem_set _ _ _ _ hp with h1 | h1
      · exact Or.inr (hnew p (by rw [h1]))
      · rcases GoMap.mem_set _ _ _ _ h1 with h2 | h2
        · exact Or.inr (hnew p (by rw [h2]))
        · exact Or.inl h2

/-- One call keeps the invariant. -/
theorem ServerCall.apply_CategoriesPresent (s : Server) (call : ServerCall)
    (h : s.CategoriesPresent) : (call.apply s).CategoriesPresent := by
  have hexp : ∀ uc : ExpenseUseCase, uc.categoryRepo = s.categoryRepo →
      (∀ p ∈ uc.expenseRepo.expenses, p ∈ s.expenseRepo.expenses ∨
        ∃ c, s.categoryRepo.categories.get p.2.categoryID.String = some c) →
      (s.withExpense uc).CategoriesPresent := by
    intro uc hc hall p hp
    show ∃ c, uc.categoryRepo.categories.get p.2.categoryID.String = some c
    rw [hc]
    rcases hall p hp with h1 | h1
    · exact h p h1
    · exact h1
  have hstat : ∀ (expenseID action : String) (now : Time),
      (s.withExpense (s.expenseUseCase.changeExpenseStatus expenseID action now).1
        ).CategoriesPresent := by
    intro expenseID action now
    obtain ⟨hc, hall⟩ := changeExpenseStatus_keeps s.expenseUseCase expenseID action now
    refine hexp _ hc (fun p hp => ?_)
    rcases hall p hp with h1 | ⟨q, hq, heq⟩
    · exact Or.inl h1
    · right
      rw [heq]
      exact h q hq
  cases call with
  | createUser req now fresh => exact h
  | updateUser userID req now => exact h
  | deleteUser userID => exact h
  | createCategory req now fresh =>
    obtain ⟨he, hk⟩ := CreateCategory_keeps s.categoryUseCase req now fresh
    intro p hp
    have hp2 : p ∈ s.expenseRepo.expenses := by
      have : (s.categoryUseCase.CreateCategory req now fresh).1.expenseRepo
          = s.expenseRepo := he
      rw [← this]
      exact hp
    obtain ⟨c, hc⟩ := h p hp2
    exact hk _ c hc
  | updateCategory categoryID req now =>
    obtain ⟨he, hk⟩ := UpdateCategory_keeps s.categoryUseCase categoryID req now
    intro p hp
    have hp2 : p ∈ s.expenseRepo.expenses := by
      have : (s.categoryUseCase.UpdateCategory categoryID req now).1.expenseRepo
          = s.expenseRepo := he
      rw [← this]
      exact hp
    obtain ⟨c, hc⟩ := h p hp2
    exact hk _ c hc
  | deleteCategory categoryID =>
    obtain ⟨he, hk⟩ := DeleteCategory_keeps s.categoryUseCase categoryID
    intro p hp
    have hp2 : p ∈ s.expenseRepo.expenses := by
      have : (s.categoryUseCase.DeleteCategory categoryID).1.expenseRepo
          = s.expenseRepo := he
      rw [← this]
      exact hp
    obtain ⟨c, hc⟩ := h p hp2
    exact hk p hp2 c hc
  | createExpense userID req t1 t2 now fresh =>
    obtain ⟨hc, hall⟩ := CreateExpense_keeps s.expenseUseCase userID req t1 t2 now fresh
    exact hexp _ hc hall
  | updateExpense expenseID req t1 t2 now =>
    obtain ⟨hc, hall⟩ := UpdateExpense_keeps s.expenseUseCase expenseID req t1 t2 now
    exact hexp _ hc hall
  | deleteExpense expenseID =>
    obtain ⟨hc, hall⟩ := DeleteExpense_keeps s.expenseUseCase expenseID
    exact hexp _ hc (fun p hp => Or.inl (hall p hp))
  | submitExpense expenseID now => exact hstat expenseID "submit" now
  | approveExpense expenseID now => exact hstat expenseID "approve" now
  | rejectExpense expenseID now => exact hstat expenseID "reject" now

/-- A serial run of calls keeps the invariant. -/
theorem runServerCalls_CategoriesPresent (calls : List ServerCall) :
    ∀ s : Server, s.CategoriesPresent → (runServerCalls s calls).CategoriesPresent := by
  induction calls with
  | nil => intro s h; exact h
  | cons call calls ih =>
    intro s h
    exact ih _ (ServerCall.apply_CategoriesPresent s call h)

/-- C35. Starting from empty repositories, after any serial sequence of use-case calls
(create, update and delete of users, categories and expenses, and the three status
transitions; failing calls included; the remaining use-case methods only read), the
category id of every stored expense is a key of the category repository: `FindByID` of
it succeeds. -/
theorem stored_expense_category_present (calls : List ServerCall) :
    ∀ e ∈ (runServerCalls NewServer calls).expenseRepo.expenses.values,
      ∃ c, (runServerCalls NewServer calls).categoryRepo.FindByID e.categoryID = .ok c := by
  intro e he
  have hinv : (runServerCalls NewServer calls).CategoriesPresent :=
    runServerCalls_CategoriesPresent calls NewServer (fun p hp => by cases hp)
  unfold GoMap.values at he
  obtain ⟨p, hp, rfl⟩ := List.mem_map.1 he
  obtain ⟨c, hc⟩ := hinv p hp
  refine ⟨c, ?_⟩
  unfold MemoryCategoryRepository.FindByID
  rw [hc]

theorem stored_expense_category_present_witness :
    submittedExpense ∈ (runServerCalls NewServer sampleCalls).expenseRepo.expenses.values ∧
    ∃ c, (runServerCalls NewServer sampleCalls).categoryRepo.FindByID
      submittedExpense.categoryID = .ok c :=
  ⟨by decide, stored_expense_category_present sampleCalls submittedExpense (by decide)⟩

end ExpenseSystem
